import Mathlib

/-!
# Verification of the paper-magic session/state-authority subsystem

Shallow embedding of `src/server/src/gameManager.ts` and the shared data
model (`shared/types/{card,player,game}.ts`).  Conventions:

* JS objects become Lean structures; `undefined`/absent optional fields
  become `Option`; `null` player slots become `Option Player`.
* `JSON.parse(JSON.stringify(x))` (deep copy / snapshot serialisation) is
  the identity on the modelled value.
* Sources of nondeterminism and ambient effects (`uuidv4()`, `Math.random()`,
  `Date.now()`) are threaded in explicitly through an `Env` record: fresh
  identifiers, Fisher-Yates random index streams, the random battlefield
  jitter position, and the current time.
* Battlefield coordinates (JS floating point numbers) are modelled as `Int`;
  no claim depends on coordinate arithmetic beyond presence/absence and the
  detach nudge.
* WebSocket connections are modelled by an integer handle plus an `open`
  flag; sending a message is recorded in an output list of `Sent` values.
-/

set_option maxHeartbeats 1000000

namespace PaperMagic

/-- `shared/types/card.ts`: 2D battlefield position (JS numbers, modelled as `Int`). -/
structure CardPosition where
  x : Int
  y : Int
deriving DecidableEq, Repr

/-- `shared/types/card.ts`: a counter on a card.  `CounterType` is a string
union in the source; modelled as the underlying string. -/
structure Counter where
  type : String
  value : Int
  label : Option String := none
deriving DecidableEq, Repr

/-- `shared/types/card.ts`: a card instance.  `isToken` models the presence of
the `isToken: true` marker of the `Token` subtype (`'isToken' in c`). -/
structure Card where
  instanceId : String
  scryfallId : String
  name : String
  imageUri : String
  backImageUri : Option String := none
  oracleText : Option String := none
  isTapped : Bool
  isFaceDown : Bool
  isTransformed : Bool
  counters : List Counter
  attachedTo : Option String := none
  attachedToOwner : Option (Fin 2) := none
  attachments : List String := []
  position : Option CardPosition := none
  zIndex : Option Nat := none
  isToken : Bool := false
deriving DecidableEq, Repr

/-- `shared/types/player.ts`: one entry of the append-only life ledger. -/
structure LifeEntry where
  delta : Int
  total : Int
  note : Option String := none
  timestamp : Nat
deriving DecidableEq, Repr

/-- `shared/types/player.ts`: a player.  The `counters` object
(`poison`/`energy`/`experience` plus custom string keys) is modelled as an
insertion-ordered association list. -/
structure Player where
  id : String
  name : String
  deck : List Card
  hand : List Card
  battlefield : List Card
  graveyard : List Card
  exileActive : List Card
  exilePermanent : List Card
  sideboard : List Card
  life : List LifeEntry
  counters : List (String × Int)
  mulliganCount : Nat
  hasKeptHand : Bool
  readyForNextGame : Bool
deriving DecidableEq, Repr

/-- `shared/types/player.ts` `createPlayer`. -/
def createPlayer (id name : String) (now : Nat) : Player :=
  { id := id, name := name,
    deck := [], hand := [], battlefield := [], graveyard := [],
    exileActive := [], exilePermanent := [], sideboard := [],
    life := [{ delta := 0, total := 20, timestamp := now }],
    counters := [("poison", 0), ("energy", 0), ("experience", 0)],
    mulliganCount := 0, hasKeptHand := false, readyForNextGame := false }

/-- `shared/types/game.ts` `GamePhase`. -/
inductive GamePhase where
  | lobby
  | mulligan
  | playing
  | sideboarding
  | finished
deriving DecidableEq, Repr

/-- `shared/types/game.ts` `GameResult`. -/
inductive GameResult where
  | player1
  | player2
  | draw
deriving DecidableEq, Repr

/-- `shared/types/game.ts` `TurnState`. -/
structure TurnState where
  number : Nat
  activePlayer : Fin 2
  phase : String
deriving DecidableEq, Repr

/-- `shared/types/game.ts` `ActionLogEntry`. -/
structure ActionLogEntry where
  id : String
  timestamp : Nat
  playerIndex : Fin 2
  playerName : String
  message : String
  type : String
deriving DecidableEq, Repr

/-- `shared/types/game.ts` `GameState`.  The two-slot player array becomes a
pair of `Option Player`.  `isGoldfishMode` is set dynamically by the server
(absent = `false`). -/
structure GameState where
  id : String
  passwordHash : String
  players : Option Player × Option Player
  stack : List Card
  phase : GamePhase
  currentGame : Nat
  gameResults : List GameResult
  turn : TurnState
  createdAt : Nat
  lastAction : Nat
  actionHistory : List String
  actionIndex : Int
  actionLog : List ActionLogEntry
  isGoldfishMode : Bool := false
deriving DecidableEq, Repr

/-- `state.players[i]` for `i : 0 | 1`. -/
def getPlayer (s : GameState) (i : Fin 2) : Option Player :=
  if i = 0 then s.players.1 else s.players.2

/-- `state.players[i] = p`. -/
def setPlayer (s : GameState) (i : Fin 2) (p : Option Player) : GameState :=
  if i = 0 then { s with players := (p, s.players.2) }
  else { s with players := (s.players.1, p) }

/-- The ubiquitous `playerIndex === 0 ? 1 : 0`. -/
def otherIndex (i : Fin 2) : Fin 2 :=
  if i = 0 then 1 else 0

/-- `shared/types/game.ts` `createGameState`. -/
def createGameState (id passwordHash : String) (now : Nat) : GameState :=
  { id := id, passwordHash := passwordHash,
    players := (none, none), stack := [],
    phase := .lobby, currentGame := 1, gameResults := [],
    turn := { number := 0, activePlayer := 0, phase := "Pre-game" },
    createdAt := now, lastAction := now,
    actionHistory := [], actionIndex := -1, actionLog := [] }

/-- `gameManager.ts` `ConnectedPlayer`: a live connection.  `ws` is the socket
handle, `wsOpen` models `ws.readyState === WebSocket.OPEN`. -/
structure ConnectedPlayer where
  ws : Nat
  wsOpen : Bool
  playerIndex : Fin 2
  playerId : String
deriving DecidableEq, Repr

/-- `gameManager.ts` `StateSnapshot`.  The source stores the JSON
serialisation of the state; serialisation round-trips, so the model stores
the state value itself. -/
structure StateSnapshot where
  state : GameState
  timestamp : Nat
deriving DecidableEq, Repr

/-- `gameManager.ts` `GameRoom`.  The `playerId -> connection` `Map` becomes
an insertion-ordered association list. -/
structure GameRoom where
  state : GameState
  players : List (String × ConnectedPlayer)
  stateHistory : List StateSnapshot
  historyIndex : Int
deriving DecidableEq, Repr

/-- One card of a `CardsRevealedPayload`. -/
structure RevealedCard where
  instanceId : String
  name : String
  imageUri : String
  backImageUri : Option String := none
deriving DecidableEq, Repr

/-- `shared/types/protocol.ts` `CardsRevealedPayload`. -/
structure CardsRevealedPayload where
  revealerName : String
  source : String
  cards : List RevealedCard
deriving DecidableEq, Repr

/-- The decoded payload of a save code (`createSaveCode` / `loadSaveCode`).
The base64/JSON codec is abstracted away: a `LOAD_GAME` action carries the
decode result directly (with `none` standing for a bad prefix or a parse
failure), and each field is optional to reflect the shape checks the loader
performs on untrusted data. -/
structure SaveData where
  players : Option (Option Player × Option Player)
  stack : Option (List Card)
  phase : Option GamePhase
  currentGame : Option Nat
  gameResults : Option (List GameResult)
  turn : Option TurnState
  savedAt : Option Nat
deriving DecidableEq, Repr

/-- `shared/types/protocol.ts` `ServerMessage`, restricted to the messages
the game manager produces.  `GAME_SAVED` carries the (decoded) save payload
instead of its base64 encoding. -/
inductive ServerMessage where
  | GAME_CREATED (gameId : String) (playerIndex : Fin 2)
  | GAME_JOINED (gameId : String) (playerIndex : Fin 2) (gameState : GameState)
  | PLAYER_JOINED (playerIndex : Fin 2) (playerName : String)
  | PLAYER_LEFT (playerIndex : Fin 2)
  | PLAYER_RECONNECTED (playerIndex : Fin 2)
  | RECONNECTED (gameId : String) (playerIndex : Fin 2) (gameState : GameState)
  | STATE_UPDATE (gameState : GameState)
  | CARDS_REVEALED (payload : CardsRevealedPayload)
  | GAME_STARTED
  | DECK_SUBMITTED
  | GAME_SAVED (saveData : SaveData)
  | GAME_LOADED
  | ERROR (code : String) (message : String)
  | ACK (action : String) (success : Option Bool)
deriving DecidableEq, Repr

/-- A message sent over a socket (socket handle plus payload). -/
structure Sent where
  ws : Nat
  msg : ServerMessage
deriving DecidableEq, Repr

/-- One entry of the `SUBMIT_DECK` payload. -/
structure DeckEntry where
  scryfallId : String
  name : String
  imageUri : String
  backImageUri : Option String := none
deriving DecidableEq, Repr

/-- The loosely-typed `GAME_ACTION` payload, as a closed sum over the tags
`processAction` switches on.  `unknown` is the `default` branch
(forward-compatibility no-op).  `fromZone`/`toZone` keep the string typing
of the source (an invalid zone name is a silent no-op). -/
inductive GameAction where
  | UNDO
  | REDO
  | SAVE_GAME
  | LOAD_GAME (decoded : Option SaveData)
  | ENABLE_GOLDFISH
  | DRAW_CARDS (count : Option Nat)
  | SHUFFLE_DECK
  | PUT_ON_TOP (instanceIds : List String)
  | PUT_ON_BOTTOM (instanceIds : List String)
  | TAP_CARD (instanceId : String)
  | UNTAP_CARD (instanceId : String)
  | UNTAP_ALL
  | MOVE_CARD (instanceId : String) (fromZone toZone : String)
      (position : Option CardPosition) (faceDown : Option Bool)
  | MOVE_CARD_POSITION (instanceId : String) (position : Option CardPosition)
  | FLIP_CARD (instanceId : String)
  | TRANSFORM_CARD (instanceId : String)
  | ADD_COUNTER (instanceId : String) (counter : Option Counter)
  | REMOVE_COUNTER (instanceId : String) (counterIndex : Option Int)
  | ATTACH_CARD (instanceId targetId : String)
  | DETACH_CARD (instanceId : String)
  | MOVE_TO_OPPONENT_BATTLEFIELD (instanceId : String) (fromZone : String)
      (position : Option CardPosition)
  | MOVE_CARD_ON_ANY_BATTLEFIELD (instanceId : String) (position : Option CardPosition)
  | TAKE_FROM_OPPONENT_BATTLEFIELD (instanceId : String) (toZone : String)
      (position : Option CardPosition)
  | BRING_TO_FRONT (instanceId : String)
  | SEND_TO_BACK (instanceId : String)
  | PEEK_OPPONENT_LIBRARY (count : Nat)
  | MULLIGAN_KEEP
  | MULLIGAN_AGAIN
  | BOTTOM_CARDS (instanceIds : List String)
  | UPDATE_LIFE (delta : Int) (note : Option String)
  | SET_PLAYER_COUNTER (counterType : String) (value : Int)
  | CREATE_TOKEN (token : Option Card)
  | DESTROY_TOKEN (instanceId : String)
  | REVEAL_HAND
  | REVEAL_CARDS_TO_OPPONENT (instanceIds : List String) (source : Option String)
  | CONCEDE
  | DECLARE_WINNER (winner : GameResult)
  | READY_FOR_NEXT_GAME
  | SWAP_SIDEBOARD (mainDeckIndex sideboardIndex : Int)
  | PASS_TURN
  | unknown (tag : String)
deriving DecidableEq, Repr

/-- `action.type`, the string tag echoed back in `ACK` payloads. -/
def GameAction.tag : GameAction → String
  | .UNDO => "UNDO"
  | .REDO => "REDO"
  | .SAVE_GAME => "SAVE_GAME"
  | .LOAD_GAME _ => "LOAD_GAME"
  | .ENABLE_GOLDFISH => "ENABLE_GOLDFISH"
  | .DRAW_CARDS _ => "DRAW_CARDS"
  | .SHUFFLE_DECK => "SHUFFLE_DECK"
  | .PUT_ON_TOP _ => "PUT_ON_TOP"
  | .PUT_ON_BOTTOM _ => "PUT_ON_BOTTOM"
  | .TAP_CARD _ => "TAP_CARD"
  | .UNTAP_CARD _ => "UNTAP_CARD"
  | .UNTAP_ALL => "UNTAP_ALL"
  | .MOVE_CARD _ _ _ _ _ => "MOVE_CARD"
  | .MOVE_CARD_POSITION _ _ => "MOVE_CARD_POSITION"
  | .FLIP_CARD _ => "FLIP_CARD"
  | .TRANSFORM_CARD _ => "TRANSFORM_CARD"
  | .ADD_COUNTER _ _ => "ADD_COUNTER"
  | .REMOVE_COUNTER _ _ => "REMOVE_COUNTER"
  | .ATTACH_CARD _ _ => "ATTACH_CARD"
  | .DETACH_CARD _ => "DETACH_CARD"
  | .MOVE_TO_OPPONENT_BATTLEFIELD _ _ _ => "MOVE_TO_OPPONENT_BATTLEFIELD"
  | .MOVE_CARD_ON_ANY_BATTLEFIELD _ _ => "MOVE_CARD_ON_ANY_BATTLEFIELD"
  | .TAKE_FROM_OPPONENT_BATTLEFIELD _ _ _ => "TAKE_FROM_OPPONENT_BATTLEFIELD"
  | .BRING_TO_FRONT _ => "BRING_TO_FRONT"
  | .SEND_TO_BACK _ => "SEND_TO_BACK"
  | .PEEK_OPPONENT_LIBRARY _ => "PEEK_OPPONENT_LIBRARY"
  | .MULLIGAN_KEEP => "MULLIGAN_KEEP"
  | .MULLIGAN_AGAIN => "MULLIGAN_AGAIN"
  | .BOTTOM_CARDS _ => "BOTTOM_CARDS"
  | .UPDATE_LIFE _ _ => "UPDATE_LIFE"
  | .SET_PLAYER_COUNTER _ _ => "SET_PLAYER_COUNTER"
  | .CREATE_TOKEN _ => "CREATE_TOKEN"
  | .DESTROY_TOKEN _ => "DESTROY_TOKEN"
  | .REVEAL_HAND => "REVEAL_HAND"
  | .REVEAL_CARDS_TO_OPPONENT _ _ => "REVEAL_CARDS_TO_OPPONENT"
  | .CONCEDE => "CONCEDE"
  | .DECLARE_WINNER _ => "DECLARE_WINNER"
  | .READY_FOR_NEXT_GAME => "READY_FOR_NEXT_GAME"
  | .SWAP_SIDEBOARD _ _ => "SWAP_SIDEBOARD"
  | .PASS_TURN => "PASS_TURN"
  | .unknown tag => tag

/-- The explicit oracle for ambient effects consumed by one operation:
fresh uuids (`newId` for created card instances, `logId` for log entries),
Fisher-Yates random index streams (`rand0` for the acting/first player,
`rand1` for the second), the randomized battlefield drop jitter
(`40 + (Math.random() - 0.5) * 10` on each axis), and `Date.now()`. -/
structure Env where
  newId : String
  logId : String
  rand0 : List Nat
  rand1 : List Nat
  jitter : CardPosition
  now : Nat
deriving DecidableEq, Repr

/-! ## Zone access helpers

`moveCard`, `removeCardFromPlayerZone` and `addCardToPlayerZone` index a
record of zone arrays by a zone-name string; an unknown name yields
`undefined` and the operation is a no-op (or drops the card). -/

/-- The `zones` lookup record used by `moveCard` / `removeCardFromPlayerZone`
/ `addCardToPlayerZone` (all include `sideboard`; none include the shared
`stack`). -/
def zoneGet (p : Player) (zone : String) : Option (List Card) :=
  if zone = "hand" then some p.hand
  else if zone = "battlefield" then some p.battlefield
  else if zone = "graveyard" then some p.graveyard
  else if zone = "exileActive" then some p.exileActive
  else if zone = "exilePermanent" then some p.exilePermanent
  else if zone = "deck" then some p.deck
  else if zone = "sideboard" then some p.sideboard
  else none

/-- Writing back a zone array selected by name (mutation of the aliased
array in the source). -/
def zoneSet (p : Player) (zone : String) (l : List Card) : Player :=
  if zone = "hand" then { p with hand := l }
  else if zone = "battlefield" then { p with battlefield := l }
  else if zone = "graveyard" then { p with graveyard := l }
  else if zone = "exileActive" then { p with exileActive := l }
  else if zone = "exilePermanent" then { p with exilePermanent := l }
  else if zone = "deck" then { p with deck := l }
  else if zone = "sideboard" then { p with sideboard := l }
  else p

/-- `c.instanceId === id` as a Bool predicate. -/
def byId (id : String) (c : Card) : Bool :=
  c.instanceId == id

/-- Apply `f` to the first element satisfying `p` (in-place mutation of the
object found by `find`/`findIndex` in the source). -/
def modifyFirst (p : α → Bool) (f : α → α) : List α → List α
  | [] => []
  | c :: rest => if p c then f c :: rest else c :: modifyFirst p f rest

/-- `findCardInZones`: search `hand`, `battlefield`, `graveyard`,
`exileActive`, `exilePermanent`, `deck` in that order (the sideboard is not
searched). -/
def findCardInZones (player : Player) (instanceId : String) : Option Card :=
  (player.hand.find? (byId instanceId)).orElse fun _ =>
  (player.battlefield.find? (byId instanceId)).orElse fun _ =>
  (player.graveyard.find? (byId instanceId)).orElse fun _ =>
  (player.exileActive.find? (byId instanceId)).orElse fun _ =>
  (player.exilePermanent.find? (byId instanceId)).orElse fun _ =>
  player.deck.find? (byId instanceId)

/-- In-place mutation of the card object returned by `findCardInZones`:
apply `f` to the first match, searching zones in the same order. -/
def updateCardInZones (player : Player) (instanceId : String) (f : Card → Card) : Player :=
  if player.hand.any (byId instanceId) then
    { player with hand := modifyFirst (byId instanceId) f player.hand }
  else if player.battlefield.any (byId instanceId) then
    { player with battlefield := modifyFirst (byId instanceId) f player.battlefield }
  else if player.graveyard.any (byId instanceId) then
    { player with graveyard := modifyFirst (byId instanceId) f player.graveyard }
  else if player.exileActive.any (byId instanceId) then
    { player with exileActive := modifyFirst (byId instanceId) f player.exileActive }
  else if player.exilePermanent.any (byId instanceId) then
    { player with exilePermanent := modifyFirst (byId instanceId) f player.exilePermanent }
  else if player.deck.any (byId instanceId) then
    { player with deck := modifyFirst (byId instanceId) f player.deck }
  else player

/-- Search one player in `findCardInGameState` order (`hand`, `battlefield`,
`graveyard`, `exileActive`, `exilePermanent`, `deck`), returning the card
and the zone name. -/
def findInPlayerZones (player : Player) (instanceId : String) : Option (Card × String) :=
  match player.hand.find? (byId instanceId) with
  | some c => some (c, "hand")
  | none =>
    match player.battlefield.find? (byId instanceId) with
    | some c => some (c, "battlefield")
    | none =>
      match player.graveyard.find? (byId instanceId) with
      | some c => some (c, "graveyard")
      | none =>
        match player.exileActive.find? (byId instanceId) with
        | some c => some (c, "exileActive")
        | none =>
          match player.exilePermanent.find? (byId instanceId) with
          | some c => some (c, "exilePermanent")
          | none =>
            match player.deck.find? (byId instanceId) with
            | some c => some (c, "deck")
            | none => none

/-- `findCardInGameState`: both players (player 0 first) in `gsZones` order,
then the shared stack (reported with owner index 0). -/
def findCardInGameState (state : GameState) (instanceId : String) :
    Option (Card × Fin 2 × String) :=
  match (getPlayer state 0).bind (findInPlayerZones · instanceId) with
  | some (c, z) => some (c, 0, z)
  | none =>
    match (getPlayer state 1).bind (findInPlayerZones · instanceId) with
    | some (c, z) => some (c, 1, z)
    | none => (state.stack.find? (byId instanceId)).map (·, 0, "stack")

/-- In-place mutation of the card object returned by `findCardInGameState`:
apply `f` to the first match in the same global search order. -/
def updateInPlayerZones (player : Player) (instanceId : String) (f : Card → Card) : Player :=
  if player.hand.any (byId instanceId) then
    { player with hand := modifyFirst (byId instanceId) f player.hand }
  else if player.battlefield.any (byId instanceId) then
    { player with battlefield := modifyFirst (byId instanceId) f player.battlefield }
  else if player.graveyard.any (byId instanceId) then
    { player with graveyard := modifyFirst (byId instanceId) f player.graveyard }
  else if player.exileActive.any (byId instanceId) then
    { player with exileActive := modifyFirst (byId instanceId) f player.exileActive }
  else if player.exilePermanent.any (byId instanceId) then
    { player with exilePermanent := modifyFirst (byId instanceId) f player.exilePermanent }
  else
    { player with deck := modifyFirst (byId instanceId) f player.deck }

/-- Whether `findInPlayerZones` would find the card. -/
def playerHasCard (player : Player) (instanceId : String) : Bool :=
  player.hand.any (byId instanceId) || player.battlefield.any (byId instanceId) ||
  player.graveyard.any (byId instanceId) || player.exileActive.any (byId instanceId) ||
  player.exilePermanent.any (byId instanceId) || player.deck.any (byId instanceId)

/-- Mutate the card object found by `findCardInGameState` inside the state. -/
def updateCardInGameState (state : GameState) (instanceId : String) (f : Card → Card) :
    GameState :=
  match getPlayer state 0 with
  | some p0 =>
    if playerHasCard p0 instanceId then
      setPlayer state 0 (some (updateInPlayerZones p0 instanceId f))
    else
      match getPlayer state 1 with
      | some p1 =>
        if playerHasCard p1 instanceId then
          setPlayer state 1 (some (updateInPlayerZones p1 instanceId f))
        else { state with stack := modifyFirst (byId instanceId) f state.stack }
      | none => { state with stack := modifyFirst (byId instanceId) f state.stack }
  | none =>
    match getPlayer state 1 with
    | some p1 =>
      if playerHasCard p1 instanceId then
        setPlayer state 1 (some (updateInPlayerZones p1 instanceId f))
      else { state with stack := modifyFirst (byId instanceId) f state.stack }
    | none => { state with stack := modifyFirst (byId instanceId) f state.stack }

/-! ## Core zone-move operations -/

/-- `moveCard`: remove the card from the source zone (`findIndex` +
`splice`), reset its orientation per destination, and push it onto the
destination zone.  Unknown zone names or a missing card are silent no-ops.
`jitter` is the randomized default battlefield position. -/
def moveCard (player : Player) (instanceId : String) (fromZone toZone : String)
    (position : Option CardPosition) (faceDown : Option Bool)
    (jitter : CardPosition) : Player :=
  match zoneGet player fromZone, zoneGet player toZone with
  | some fromList, some _ =>
    match fromList.find? (byId instanceId) with
    | none => player
    | some card =>
      let player1 := zoneSet player fromZone (fromList.eraseP (byId instanceId))
      let card1 :=
        if toZone = "battlefield" then
          { card with isTapped := false, isFaceDown := faceDown.getD false,
                      position := some (position.getD jitter) }
        else if toZone = "exileActive" ∨ toZone = "exilePermanent" then
          { card with isTapped := false, isFaceDown := faceDown.getD false,
                      position := none }
        else if toZone = "hand" then
          { card with isTapped := false, isFaceDown := false, position := none }
        else
          { card with isTapped := false, isFaceDown := false, position := none }
      let toList := (zoneGet player1 toZone).getD []
      zoneSet player1 toZone (toList ++ [card1])
  | _, _ => player

/-- `removeCardFromPlayerZone`: remove and return the card, or `null`. -/
def removeCardFromPlayerZone (player : Player) (instanceId : String) (zone : String) :
    Option Card × Player :=
  match zoneGet player zone with
  | none => (none, player)
  | some l =>
    match l.find? (byId instanceId) with
    | none => (none, player)
    | some c => (some c, zoneSet player zone (l.eraseP (byId instanceId)))

/-- `addCardToPlayerZone`: reset tap/position per destination and push.  The
card state is mutated even when the zone name is unknown, in which case the
push is skipped and the card is dropped (`zones[zone]?.push`).  Note that
`isFaceDown` is not touched by this function. -/
def addCardToPlayerZone (player : Player) (card : Card) (zone : String)
    (position : Option CardPosition) (jitter : CardPosition) : Player :=
  let card1 :=
    if zone = "battlefield" then
      { card with isTapped := false, position := some (position.getD jitter) }
    else if zone = "hand" then
      { card with isTapped := false, position := none }
    else
      { card with isTapped := false, position := none }
  match zoneGet player zone with
  | none => player
  | some l => zoneSet player zone (l ++ [card1])

/-! ## Shuffling and drawing -/

/-- One Fisher-Yates swap: exchange positions `i` and `j` (no-op when out of
range, which never happens in the loop below). -/
def swapInList (l : List α) (i j : Nat) : List α :=
  match l.get? i, l.get? j with
  | some vi, some vj => (l.set i vj).set j vi
  | _, _ => l

/-- The Fisher-Yates loop from index `i` down to `1`; each step swaps
position `i` with a random position `j ∈ [0, i]` drawn from the head of the
random stream (`Math.floor(Math.random() * (i + 1))`). -/
def shuffleGo (rand : List Nat) (i : Nat) (l : List α) : List α :=
  match i with
  | 0 => l
  | i' + 1 => shuffleGo rand.tail i' (swapInList l (i' + 1) (rand.headD 0 % (i' + 2)))

/-- `shuffleArray` (Fisher-Yates, random indices from `rand`). -/
def shuffleArray (rand : List Nat) (l : List α) : List α :=
  shuffleGo rand (l.length - 1) l

/-- The `for (i < n && deck.length > 0) hand.push(deck.shift())` draw loop. -/
def drawLoop : Nat → Player → Player
  | 0, player => player
  | n + 1, player =>
    match player.deck with
    | [] => player
    | c :: rest => drawLoop n { player with hand := player.hand ++ [c], deck := rest }

/-! ## Sanitization, logging, broadcast -/

/-- `sanitizeStateForPlayer`: deep-copy (identity in the model), then hide
the non-viewer seat's hand card identities and replace its library with
opaque placeholder stubs. -/
def sanitizeStateForPlayer (state : GameState) (playerIndex : Fin 2) : GameState :=
  let opponentIndex := otherIndex playerIndex
  match getPlayer state opponentIndex with
  | none => state
  | some opponent =>
    let opponent1 :=
      { opponent with
        hand := opponent.hand.map fun card =>
          { card with name := "Hidden", imageUri := "", oracleText := none },
        deck := (List.range opponent.deck.length).map fun i =>
          { instanceId := "hidden-" ++ toString i, scryfallId := "",
            name := "Hidden", imageUri := "",
            isTapped := false, isFaceDown := true, isTransformed := false,
            counters := [], attachments := [] } }
    setPlayer state opponentIndex (some opponent1)

/-- `addLogEntry`: append to the bounded action log (last 30 entries kept). -/
def addLogEntry (state : GameState) (playerIndex : Fin 2) (message : String)
    (actionType : String) (logId : String) (now : Nat) : GameState :=
  let playerName :=
    match getPlayer state playerIndex with
    | some p => p.name
    | none => "Player " ++ toString (playerIndex.val + 1)
  let entry : ActionLogEntry :=
    { id := logId, timestamp := now, playerIndex := playerIndex,
      playerName := playerName, message := message, type := actionType }
  let log := state.actionLog ++ [entry]
  { state with actionLog := if log.length > 30 then log.drop (log.length - 30) else log }

/-- `broadcastStateUpdate`: one per-viewer sanitized `STATE_UPDATE` to every
open connection (closed sockets are skipped). -/
def broadcastStateUpdate (room : GameRoom) : List Sent :=
  room.players.filterMap fun kv =>
    if kv.2.wsOpen then
      some { ws := kv.2.ws,
             msg := .STATE_UPDATE (sanitizeStateForPlayer room.state kv.2.playerIndex) }
    else none

/-- `broadcastToOthers`: send to every open connection except one player. -/
def broadcastToOthers (room : GameRoom) (excludePlayerId : String) (msg : ServerMessage) :
    List Sent :=
  room.players.filterMap fun kv =>
    if kv.1 ≠ excludePlayerId ∧ kv.2.wsOpen then some { ws := kv.2.ws, msg := msg }
    else none

/-- `sendToOpponent`: send to every open connection seated opposite
`playerIndex`. -/
def sendToOpponent (room : GameRoom) (playerIndex : Fin 2) (msg : ServerMessage) :
    List Sent :=
  let opponentIndex := otherIndex playerIndex
  room.players.filterMap fun kv =>
    if kv.2.playerIndex = opponentIndex ∧ kv.2.wsOpen then
      some { ws := kv.2.ws, msg := msg }
    else none

/-- `sendToPlayer`: send to one player's connection if present and open. -/
def sendToPlayer (room : GameRoom) (playerId : String) (msg : ServerMessage) : List Sent :=
  match room.players.lookup playerId with
  | some conn => if conn.wsOpen then [{ ws := conn.ws, msg := msg }] else []
  | none => []

/-- `getPlayerBySocket`, restricted to one room: find the connection entry
owning socket `ws`. -/
def getPlayerBySocket (room : GameRoom) (ws : Nat) : Option (String × ConnectedPlayer) :=
  room.players.find? fun kv => kv.2.ws == ws

/-! ## History manager -/

/-- `MAX_HISTORY`. -/
def MAX_HISTORY : Nat := 50

/-- `saveStateSnapshot`: truncate redo history if the cursor is not at the
top, push a snapshot of the current state, move the cursor to it, and evict
the oldest snapshot (shifting the cursor) past the depth bound. -/
def saveStateSnapshot (room : GameRoom) (now : Nat) : GameRoom :=
  let snapshot : StateSnapshot := { state := room.state, timestamp := now }
  let hist0 :=
    if room.historyIndex < (room.stateHistory.length : Int) - 1 then
      room.stateHistory.take (room.historyIndex + 1).toNat
    else room.stateHistory
  let hist1 := hist0 ++ [snapshot]
  let idx1 : Int := (hist1.length : Int) - 1
  if hist1.length > MAX_HISTORY then
    { room with stateHistory := hist1.tail, historyIndex := idx1 - 1 }
  else
    { room with stateHistory := hist1, historyIndex := idx1 }

/-- `undoAction`: fail at the boundary (`historyIndex <= 0`), else decrement
the cursor and restore the snapshot there.  An out-of-range read (which the
invariant below rules out) leaves the state unchanged. -/
def undoAction (room : GameRoom) : Bool × GameRoom :=
  if room.historyIndex ≤ 0 then (false, room)
  else
    let idx := room.historyIndex - 1
    match room.stateHistory.get? idx.toNat with
    | some snapshot => (true, { room with historyIndex := idx, state := snapshot.state })
    | none => (true, { room with historyIndex := idx })

/-- `redoAction`: fail at the boundary (`historyIndex >= length - 1`), else
increment the cursor and restore the snapshot there. -/
def redoAction (room : GameRoom) : Bool × GameRoom :=
  if room.historyIndex ≥ (room.stateHistory.length : Int) - 1 then (false, room)
  else
    let idx := room.historyIndex + 1
    match room.stateHistory.get? idx.toNat with
    | some snapshot => (true, { room with historyIndex := idx, state := snapshot.state })
    | none => (true, { room with historyIndex := idx })

/-! ## Save/load codec (payload level) -/

/-- `createSaveCode`, at the payload level: the saved fields (excluding the
password hash), before base64/JSON encoding. -/
def createSaveCode (room : GameRoom) (now : Nat) : SaveData :=
  { players := some room.state.players,
    stack := some room.state.stack,
    phase := some room.state.phase,
    currentGame := some room.state.currentGame,
    gameResults := some room.state.gameResults,
    turn := some room.state.turn,
    savedAt := some now }

/-- `loadSaveCode`: validate shape (`players` and `phase` present), replace
the listed state fields (preserving game id and password hash), refresh
`lastAction`, and clear the undo history.  `decoded = none` models a bad
prefix or JSON parse failure. -/
def loadSaveCode (room : GameRoom) (decoded : Option SaveData) (now : Nat) :
    Bool × GameRoom :=
  match decoded with
  | none => (false, room)
  | some sd =>
    match sd.players, sd.phase with
    | some ps, some ph =>
      let currentGame := match sd.currentGame with
        | some n => if n = 0 then 1 else n
        | none => 1
      (true,
        { room with
          state := { room.state with
            players := ps,
            stack := sd.stack.getD [],
            phase := ph,
            currentGame := currentGame,
            gameResults := sd.gameResults.getD [],
            turn := sd.turn.getD { number := 1, activePlayer := 0, phase := "Main" },
            lastAction := now },
          stateHistory := [], historyIndex := -1 })
    | _, _ => (false, room)

/-! ## Match lifecycle -/

/-- `endGame`: record the result, finish the match at two wins or three
games, else move to sideboarding (bumping the game counter and resetting
ready flags), then broadcast. -/
def endGame (room : GameRoom) (winner : GameResult) : GameState × List Sent :=
  let s1 := { room.state with gameResults := room.state.gameResults ++ [winner] }
  let player1Wins := (s1.gameResults.filter (· == GameResult.player1)).length
  let player2Wins := (s1.gameResults.filter (· == GameResult.player2)).length
  let s2 :=
    if player1Wins ≥ 2 ∨ player2Wins ≥ 2 ∨ s1.gameResults.length ≥ 3 then
      { s1 with phase := .finished }
    else
      let s := { s1 with phase := .sideboarding, currentGame := s1.currentGame + 1 }
      let ps := (s.players.1.map fun p => { p with readyForNextGame := false },
        s.players.2.map fun p => { p with readyForNextGame := false })
      { s with players := ps }
  (s2, broadcastStateUpdate { room with state := s2 })

/-- The per-player reset of `startNextGame`: pool all non-sideboard zones
back into the deck (dropping tokens), reset card state (`zIndex` is not in
the reset list and survives), reset per-game player state, shuffle, draw 7. -/
def resetPlayerForNextGame (player : Player) (rand : List Nat) (now : Nat) : Player :=
  let pooled := (player.deck ++ player.hand ++ player.battlefield ++ player.graveyard ++
    player.exileActive ++ player.exilePermanent).filter fun c => !c.isToken
  let deck1 := pooled.map fun card =>
    { card with isTapped := false, isFaceDown := false, isTransformed := false,
                counters := [], attachedTo := none, attachments := [], position := none }
  let player1 := { player with
    deck := shuffleArray rand deck1,
    hand := [], battlefield := [], graveyard := [], exileActive := [], exilePermanent := [],
    life := [{ delta := 0, total := 20, timestamp := now }],
    counters := [("poison", 0), ("energy", 0), ("experience", 0)],
    mulliganCount := 0, hasKeptHand := false, readyForNextGame := false }
  drawLoop 7 player1

/-- `startNextGame`: reset both players for the next game (early return when
either seat is empty), re-mark the goldfish dummy as always-ready, return to
the mulligan phase, and broadcast. -/
def startNextGame (room : GameRoom) (env : Env) : GameState × List Sent :=
  match room.state.players.1, room.state.players.2 with
  | some player0, some player1 =>
    let p0 := resetPlayerForNextGame player0 env.rand0 env.now
    let p1 := resetPlayerForNextGame player1 env.rand1 env.now
    let p1 :=
      if room.state.isGoldfishMode then
        { p1 with hasKeptHand := true, readyForNextGame := true }
      else p1
    let s := { room.state with
      players := (some p0, some p1)
      phase := .mulligan
      turn := { number := 0, activePlayer := 0, phase := "pre-game" } }
    (s, broadcastStateUpdate { room with state := s })
  | _, _ => (room.state, [])

/-! ## Room registry and lifecycle operations -/

/-- The room registry (`Map<string, GameRoom>`), insertion-ordered. -/
abbrev Games := List (String × GameRoom)

/-- `Map.set`: replace an existing binding in place or append a new one. -/
def mapSet : List (String × α) → String → α → List (String × α)
  | [], k, v => [(k, v)]
  | kv :: m, k, v => if kv.1 == k then (k, v) :: m else kv :: mapSet m k v

/-- `gameId.toUpperCase()` (ASCII case folding on the character data;
`String.toUpper` itself does not reduce in the kernel). -/
def toUpperStr (s : String) : String := ⟨s.data.map Char.toUpper⟩

/-- The room `createGame` builds: fresh lobby state with the hashed
password, the creator seated in slot 0, one live connection, empty history.
The fresh `gameId`/`playerId` (uuid + collision-checked code generator) are
parameters; `hash` is the password hash function (`sha256` hex digest). -/
def createRoom (hash : String → String) (ws : Nat)
    (playerName password gameId playerId : String) (now : Nat) : GameRoom :=
  let passwordHash := hash password
  let state := createGameState gameId passwordHash now
  let player := createPlayer playerId playerName now
  let state := setPlayer state 0 (some player)
  { state := state,
    players := [(playerId, { ws := ws, wsOpen := true, playerIndex := 0, playerId := playerId })],
    stateHistory := [], historyIndex := -1 }

/-- `createGame`: register the new room and confirm. -/
def createGame (games : Games) (hash : String → String) (ws : Nat)
    (playerName password gameId playerId : String) (now : Nat) : Games × ServerMessage :=
  let room := createRoom hash ws playerName password gameId playerId now
  (mapSet games gameId room, .GAME_CREATED gameId 0)

/-- The room-level part of `joinGame` (after registry lookup): password
check, full check, seat in the first empty slot, register the connection,
notify the other occupant, reply with a sanitized full state. -/
def joinRoom (room : GameRoom) (hash : String → String) (ws : Nat)
    (playerName password playerId : String) (now : Nat) :
    GameRoom × List Sent × ServerMessage :=
  if room.state.passwordHash ≠ hash password then
    (room, [], .ERROR "INVALID_PASSWORD" "Invalid password")
  else if room.state.players.1.isSome ∧ room.state.players.2.isSome then
    (room, [], .ERROR "GAME_FULL" "Game is full")
  else
    let playerIndex : Fin 2 := if room.state.players.1.isSome then 1 else 0
    let player := createPlayer playerId playerName now
    let state := setPlayer room.state playerIndex (some player)
    let conn : ConnectedPlayer :=
      { ws := ws, wsOpen := true, playerIndex := playerIndex, playerId := playerId }
    let room1 := { room with
      state := state
      players := mapSet room.players playerId conn }
    let sent := broadcastToOthers room1 playerId (.PLAYER_JOINED playerIndex playerName)
    (room1, sent, .GAME_JOINED room1.state.id playerIndex
      (sanitizeStateForPlayer room1.state playerIndex))

/-- `joinGame`: case-insensitive registry lookup (`GAME_NOT_FOUND` when
absent), then the room-level join; rejections mutate nothing. -/
def joinGame (games : Games) (hash : String → String) (ws : Nat)
    (gameId playerName password playerId : String) (now : Nat) :
    Games × List Sent × ServerMessage :=
  match games.lookup (toUpperStr gameId) with
  | none => (games, [], .ERROR "GAME_NOT_FOUND" ("Game " ++ gameId ++ " not found"))
  | some room =>
    let (room1, sent, msg) := joinRoom room hash ws playerName password playerId now
    match msg with
    | .ERROR code message => (games, [], .ERROR code message)
    | _ => (mapSet games (toUpperStr gameId) room1, sent, msg)

/-- `submitDeck` card construction: one fresh instance id per entry. -/
def mkDeckCards (entries : List DeckEntry) (ids : List String) : List Card :=
  entries.zipWith (fun e id =>
    { instanceId := id, scryfallId := e.scryfallId, name := e.name,
      imageUri := e.imageUri, backImageUri := e.backImageUri,
      isTapped := false, isFaceDown := false, isTransformed := false,
      counters := [], attachments := [] }) ids

/-- `submitDeck`: replace the submitter's deck and sideboard with freshly
instantiated cards and broadcast. -/
def submitDeck (room : GameRoom) (ws : Nat) (mainDeck sideboard : List DeckEntry)
    (idsMain idsSide : List String) : GameRoom × List Sent × ServerMessage :=
  match getPlayerBySocket room ws with
  | none => (room, [], .ERROR "NOT_IN_GAME" "You are not in a game")
  | some (_, conn) =>
    match getPlayer room.state conn.playerIndex with
    | none => (room, [], .ERROR "INVALID_STATE" "Player state not found")
    | some player =>
      let player1 := { player with
        deck := mkDeckCards mainDeck idsMain
        sideboard := mkDeckCards sideboard idsSide }
      let room1 := { room with state := setPlayer room.state conn.playerIndex (some player1) }
      (room1, broadcastStateUpdate room1, .DECK_SUBMITTED)

/-- The success path of `startGame`: shuffle both decks (the second only
when present and non-empty), deal 7 cards each, and enter the mulligan
phase.  The source interleaves the two independent per-player draw loops;
per player the effect is identical. -/
def startGameRun (room : GameRoom) (player0 : Player) (player1? : Option Player) (env : Env) :
    GameRoom × List Sent × ServerMessage :=
  let p0 := drawLoop 7 { player0 with deck := shuffleArray env.rand0 player0.deck }
  let p1? := player1?.map fun p =>
    if p.deck.length > 0 then drawLoop 7 { p with deck := shuffleArray env.rand1 p.deck }
    else drawLoop 7 p
  let state := { room.state with
    players := (some p0, p1?)
    phase := .mulligan
    turn := { number := 0, activePlayer := 0, phase := "pre-game" } }
  let room1 := { room with state := state }
  (room1, broadcastStateUpdate room1, .GAME_STARTED)

/-- `startGame`: host-only start with deck-submission guards (solo-practice
mode only requires seat 0). -/
def startGame (room : GameRoom) (ws : Nat) (env : Env) :
    GameRoom × List Sent × ServerMessage :=
  match getPlayerBySocket room ws with
  | none => (room, [], .ERROR "NOT_IN_GAME" "You are not in a game")
  | some (_, conn) =>
    if conn.playerIndex ≠ 0 then
      (room, [], .ERROR "NOT_HOST" "Only the host can start the game")
    else if room.state.isGoldfishMode then
      match room.state.players.1 with
      | none => (room, [], .ERROR "INVALID_STATE" "Player not found")
      | some player0 =>
        if player0.deck.length = 0 then
          (room, [], .ERROR "DECK_NOT_SUBMITTED" "You must submit a deck")
        else startGameRun room player0 room.state.players.2 env
    else
      match room.state.players.1, room.state.players.2 with
      | some player0, some player1 =>
        if player0.deck.length = 0 ∨ player1.deck.length = 0 then
          (room, [], .ERROR "DECK_NOT_SUBMITTED" "Both players must submit decks")
        else startGameRun room player0 (some player1) env
      | _, _ => (room, [], .ERROR "WAITING_FOR_PLAYER" "Waiting for opponent to join")

/-! ## The action processor -/

/-- Minimal card identity for `CARDS_REVEALED` payloads. -/
def toRevealedCard (c : Card) : RevealedCard :=
  { instanceId := c.instanceId, name := c.name, imageUri := c.imageUri,
    backImageUri := c.backImageUri }

/-- The common tail of a non-meta action: install the new state, broadcast
it to every viewer, and acknowledge. -/
def finishAction (room : GameRoom) (state1 : GameState) (pre : List Sent) (tag : String) :
    GameRoom × List Sent × ServerMessage :=
  let room1 := { room with state := state1 }
  (room1, pre ++ broadcastStateUpdate room1, .ACK tag none)

/-- The body of the `processAction` switch for non-meta actions, invoked
after the pre-mutation snapshot has been pushed.  `player` is the acting
seat's player (non-null, checked by the caller).  Only the game state is
ever modified here; the connection table and the history are read-only. -/
def applyGameAction (room : GameRoom) (playerId : String) (playerIndex : Fin 2)
    (player : Player) (env : Env) (action : GameAction) :
    GameRoom × List Sent × ServerMessage :=
  match action with
  | .ENABLE_GOLDFISH =>
    if room.state.phase ≠ .lobby then
      (room, [], .ERROR "INVALID_PHASE" "Can only enable goldfish mode in lobby")
    else if room.state.players.2.isSome then
      (room, [], .ERROR "OPPONENT_PRESENT" "Cannot enable goldfish mode with opponent present")
    else
      let dummyOpponent : Player :=
        { id := "goldfish-opponent", name := "Goldfish Opponent",
          deck := [], hand := [], battlefield := [], graveyard := [],
          exileActive := [], exilePermanent := [], sideboard := [],
          life := [{ delta := 0, total := 20, timestamp := env.now }],
          counters := [("poison", 0), ("energy", 0), ("experience", 0)],
          mulliganCount := 0, hasKeptHand := true, readyForNextGame := true }
      let state1 := setPlayer { room.state with isGoldfishMode := true } 1 (some dummyOpponent)
      finishAction room state1 [] "ENABLE_GOLDFISH"
  | .DRAW_CARDS count? =>
    let count := match count? with
      | some n => if n = 0 then 1 else n
      | none => 1
    let player1 := drawLoop count player
    let state1 := setPlayer room.state playerIndex (some player1)
    let msgTxt := "drew " ++ toString count ++ (if count ≠ 1 then " cards" else " card")
    finishAction room (addLogEntry state1 playerIndex msgTxt "DRAW_CARDS" env.logId env.now)
      [] "DRAW_CARDS"
  | .SHUFFLE_DECK =>
    let player1 := { player with deck := shuffleArray env.rand0 player.deck }
    let state1 := setPlayer room.state playerIndex (some player1)
    finishAction room
      (addLogEntry state1 playerIndex "shuffled their library" "SHUFFLE_DECK" env.logId env.now)
      [] "SHUFFLE_DECK"
  | .PUT_ON_TOP instanceIds =>
    let acc := instanceIds.foldl (fun acc id =>
      match acc.2.find? (byId id) with
      | some c => (acc.1 ++ [c], acc.2.eraseP (byId id))
      | none => acc) (([] : List Card), player.deck)
    let player1 := { player with deck := acc.1 ++ acc.2 }
    finishAction room (setPlayer room.state playerIndex (some player1)) [] "PUT_ON_TOP"
  | .PUT_ON_BOTTOM instanceIds =>
    let acc := instanceIds.foldl (fun acc id =>
      match acc.2.find? (byId id) with
      | some c => (acc.1 ++ [c], acc.2.eraseP (byId id))
      | none => acc) (([] : List Card), player.deck)
    let player1 := { player with deck := acc.2 ++ acc.1 }
    finishAction room (setPlayer room.state playerIndex (some player1)) [] "PUT_ON_BOTTOM"
  | .TAP_CARD instanceId =>
    let player1 := updateCardInZones player instanceId fun c => { c with isTapped := true }
    finishAction room (setPlayer room.state playerIndex (some player1)) [] "TAP_CARD"
  | .UNTAP_CARD instanceId =>
    let player1 := updateCardInZones player instanceId fun c => { c with isTapped := false }
    finishAction room (setPlayer room.state playerIndex (some player1)) [] "UNTAP_CARD"
  | .UNTAP_ALL =>
    let player1 := { player with battlefield := player.battlefield.map fun c =>
      { c with isTapped := false } }
    finishAction room (setPlayer room.state playerIndex (some player1)) [] "UNTAP_ALL"
  | .MOVE_CARD instanceId fromZone toZone position faceDown =>
    if toZone = "stack" then
      let rm := removeCardFromPlayerZone player instanceId fromZone
      let state1 :=
        match rm.1 with
        | some card =>
          let card1 := { card with position := position, isTapped := false }
          let s := setPlayer room.state playerIndex (some rm.2)
          { s with stack := s.stack ++ [card1] }
        | none => room.state
      finishAction room state1 [] "MOVE_CARD"
    else if fromZone = "stack" then
      let state1 :=
        match room.state.stack.find? (byId instanceId) with
        | some card =>
          let s := { room.state with stack := room.state.stack.eraseP (byId instanceId) }
          setPlayer s playerIndex
            (some (addCardToPlayerZone player card toZone position env.jitter))
        | none => room.state
      finishAction room state1 [] "MOVE_CARD"
    else
      let player1 := moveCard player instanceId fromZone toZone position faceDown env.jitter
      let state1 := setPlayer room.state playerIndex (some player1)
      let state2 :=
        if faceDown.getD false then
          if toZone = "battlefield" then
            addLogEntry state1 playerIndex "played a card face down" "PLAY_FACE_DOWN"
              env.logId env.now
          else if toZone = "exileActive" then
            addLogEntry state1 playerIndex "exiled a card face down" "FORETELL"
              env.logId env.now
          else state1
        else state1
      finishAction room state2 [] "MOVE_CARD"
  | .MOVE_CARD_POSITION instanceId position =>
    let bf := modifyFirst (byId instanceId) (fun c => { c with position := position })
      player.battlefield
    let player1 := { player with battlefield := bf }
    finishAction room (setPlayer room.state playerIndex (some player1)) [] "MOVE_CARD_POSITION"
  | .FLIP_CARD instanceId =>
    let player1 := updateCardInZones player instanceId fun c =>
      { c with isFaceDown := !c.isFaceDown }
    finishAction room (setPlayer room.state playerIndex (some player1)) [] "FLIP_CARD"
  | .TRANSFORM_CARD instanceId =>
    let player1 := updateCardInZones player instanceId fun c =>
      { c with isTransformed := !c.isTransformed }
    finishAction room (setPlayer room.state playerIndex (some player1)) [] "TRANSFORM_CARD"
  | .ADD_COUNTER instanceId counter =>
    let player1 :=
      match counter with
      | some ctr => updateCardInZones player instanceId fun c =>
          { c with counters := c.counters ++ [ctr] }
      | none => player
    finishAction room (setPlayer room.state playerIndex (some player1)) [] "ADD_COUNTER"
  | .REMOVE_COUNTER instanceId counterIndex =>
    let player1 :=
      match counterIndex with
      | some i => updateCardInZones player instanceId fun c =>
          if 0 ≤ i ∧ i < (c.counters.length : Int) then
            { c with counters := c.counters.eraseIdx i.toNat }
          else c
      | none => player
    finishAction room (setPlayer room.state playerIndex (some player1)) [] "REMOVE_COUNTER"
  | .ATTACH_CARD instanceId targetId =>
    let state0 := room.state
    let state1 :=
      match findCardInGameState state0 instanceId, findCardInGameState state0 targetId with
      | some (card, _, cardZone), some (target, _, targetZone) =>
        if cardZone ≠ "battlefield" ∨ targetZone ≠ "battlefield" then state0
        else if card.instanceId == target.instanceId then state0
        else
          let stateA :=
            match card.attachedTo with
            | some prevId =>
              match findCardInGameState state0 prevId with
              | some (_, _, prevZone) =>
                if prevZone = "battlefield" then
                  updateCardInGameState state0 prevId fun pc =>
                    { pc with attachments := pc.attachments.filter (· != card.instanceId) }
                else state0
              | none => state0
            | none => state0
          let stateB := updateCardInGameState stateA instanceId fun c =>
            { c with attachedTo := some target.instanceId }
          let stateC := updateCardInGameState stateB targetId fun t =>
            let att := if t.attachments.contains card.instanceId then t.attachments
              else t.attachments ++ [card.instanceId]
            { t with attachments := att }
          updateCardInGameState stateC instanceId fun c => { c with position := target.position }
      | _, _ => state0
    finishAction room state1 [] "ATTACH_CARD"
  | .DETACH_CARD instanceId =>
    let state0 := room.state
    let state1 :=
      match findCardInGameState state0 instanceId with
      | some (card, _, zone) =>
        if zone ≠ "battlefield" then state0
        else
          match card.attachedTo with
          | none => state0
          | some prevId =>
            let stateA :=
              match findCardInGameState state0 prevId with
              | some (_, _, targetZone) =>
                if targetZone = "battlefield" then
                  updateCardInGameState state0 prevId fun t =>
                    { t with attachments := t.attachments.filter (· != card.instanceId) }
                else state0
              | none => state0
            updateCardInGameState stateA instanceId fun c =>
              { c with attachedTo := none,
                       position :=
                         match c.position with
                         | some p => some { x := min 90 (p.x + 10), y := p.y }
                         | none => none }
      | none => state0
    finishAction room state1 [] "DETACH_CARD"
  | .MOVE_TO_OPPONENT_BATTLEFIELD instanceId fromZone position =>
    let opponentIndex := otherIndex playerIndex
    let state1 :=
      match getPlayer room.state opponentIndex with
      | none => room.state
      | some opponent =>
        let rm := removeCardFromPlayerZone player instanceId fromZone
        match rm.1 with
        | some card =>
          let card1 := { card with
            isTapped := false
            isFaceDown := false
            position := some (position.getD { x := 50, y := 50 }) }
          let stateA := setPlayer room.state playerIndex (some rm.2)
          setPlayer stateA opponentIndex
            (some { opponent with battlefield := opponent.battlefield ++ [card1] })
        | none => room.state
    finishAction room state1 [] "MOVE_TO_OPPONENT_BATTLEFIELD"
  | .MOVE_CARD_ON_ANY_BATTLEFIELD instanceId position =>
    let state1 :=
      match findCardInGameState room.state instanceId with
      | some (_, _, zone) =>
        if zone ≠ "battlefield" then room.state
        else updateCardInGameState room.state instanceId fun c => { c with position := position }
      | none => room.state
    finishAction room state1 [] "MOVE_CARD_ON_ANY_BATTLEFIELD"
  | .TAKE_FROM_OPPONENT_BATTLEFIELD instanceId toZone position =>
    let opponentIndex := otherIndex playerIndex
    let state1 :=
      match getPlayer room.state opponentIndex with
      | none => room.state
      | some opponent =>
        match opponent.battlefield.find? (byId instanceId) with
        | none => room.state
        | some card =>
          let opponent1 := { opponent with
            battlefield := opponent.battlefield.eraseP (byId instanceId) }
          let stateA := setPlayer room.state opponentIndex (some opponent1)
          setPlayer stateA playerIndex
            (some (addCardToPlayerZone player card toZone position env.jitter))
    finishAction room state1 [] "TAKE_FROM_OPPONENT_BATTLEFIELD"
  | .BRING_TO_FRONT instanceId =>
    let state1 :=
      match findCardInGameState room.state instanceId with
      | some (_, cardOwner, zone) =>
        if zone ≠ "battlefield" then room.state
        else
          match getPlayer room.state cardOwner with
          | none => room.state
          | some ownerPlayer =>
            let maxZIndex := ownerPlayer.battlefield.foldl
              (fun m c => max m (c.zIndex.getD 1)) 1
            updateCardInGameState room.state instanceId fun c =>
              { c with zIndex := some (maxZIndex + 1) }
      | none => room.state
    finishAction room state1 [] "BRING_TO_FRONT"
  | .SEND_TO_BACK instanceId =>
    let state1 :=
      match findCardInGameState room.state instanceId with
      | some (card, cardOwner, zone) =>
        if zone ≠ "battlefield" then room.state
        else
          match getPlayer room.state cardOwner with
          | none => room.state
          | some ownerPlayer =>
            let bf := ownerPlayer.battlefield.map fun c =>
              if c.instanceId == card.instanceId then c
              else { c with zIndex := some (c.zIndex.getD 1 + 1) }
            let owner1 := { ownerPlayer with battlefield := bf }
            let stateA := setPlayer room.state cardOwner (some owner1)
            updateCardInGameState stateA instanceId fun c => { c with zIndex := some 1 }
      | none => room.state
    finishAction room state1 [] "SEND_TO_BACK"
  | .PEEK_OPPONENT_LIBRARY count =>
    let opponentIndex := otherIndex playerIndex
    match getPlayer room.state opponentIndex with
    | none => finishAction room room.state [] "PEEK_OPPONENT_LIBRARY"
    | some opponent =>
      if opponent.deck.length = 0 then
        finishAction room room.state [] "PEEK_OPPONENT_LIBRARY"
      else
        let n := min count opponent.deck.length
        let topCards := opponent.deck.take n
        let payload : CardsRevealedPayload :=
          { revealerName := opponent.name,
            -- source text: Top {n} of {opponent.name}'s Library (apostrophe elided)
            source := "Top " ++ toString n ++ " of " ++ opponent.name ++ " Library",
            cards := topCards.map toRevealedCard }
        let sent := sendToPlayer room playerId (.CARDS_REVEALED payload)
        let state1 := addLogEntry room.state playerIndex
          ("peeked at top " ++ toString n ++ " of opponent library")
          "PEEK_OPPONENT_LIBRARY" env.logId env.now
        -- private peek: returns early, no state broadcast
        ({ room with state := state1 }, sent, .ACK "PEEK_OPPONENT_LIBRARY" none)
  | .MULLIGAN_KEEP =>
    let player1 := { player with hasKeptHand := true }
    let stateA := setPlayer room.state playerIndex (some player1)
    let startTurn : TurnState := { number := 1, activePlayer := 0, phase := "Main" }
    if room.state.isGoldfishMode ∧ playerIndex = 0 then
      finishAction room { stateA with phase := .playing, turn := startTurn } [] "MULLIGAN_KEEP"
    else
      let proceed :=
        match getPlayer stateA (otherIndex playerIndex) with
        | some otherPlayer => otherPlayer.hasKeptHand
        | none => false
      if proceed then
        finishAction room { stateA with phase := .playing, turn := startTurn } [] "MULLIGAN_KEEP"
      else finishAction room stateA [] "MULLIGAN_KEEP"
  | .MULLIGAN_AGAIN =>
    let player1 := { player with deck := player.deck ++ player.hand.reverse, hand := [] }
    let player2 := { player1 with deck := shuffleArray env.rand0 player1.deck }
    let player3 := { player2 with mulliganCount := player2.mulliganCount + 1 }
    let player4 := drawLoop 7 player3
    finishAction room (setPlayer room.state playerIndex (some player4)) [] "MULLIGAN_AGAIN"
  | .BOTTOM_CARDS instanceIds =>
    let player1 := instanceIds.foldl (fun pl id =>
      match pl.hand.find? (byId id) with
      | some card => { pl with hand := pl.hand.eraseP (byId id), deck := pl.deck ++ [card] }
      | none => pl) player
    finishAction room (setPlayer room.state playerIndex (some player1)) [] "BOTTOM_CARDS"
  | .UPDATE_LIFE delta note =>
    let currentTotal :=
      match player.life.getLast? with
      | some e => e.total
      | none => 20
    let player1 := { player with life := player.life ++
      [{ delta := delta, total := currentTotal + delta, note := note, timestamp := env.now }] }
    finishAction room (setPlayer room.state playerIndex (some player1)) [] "UPDATE_LIFE"
  | .SET_PLAYER_COUNTER counterType value =>
    let player1 := { player with counters := mapSet player.counters counterType (max 0 value) }
    finishAction room (setPlayer room.state playerIndex (some player1)) [] "SET_PLAYER_COUNTER"
  | .CREATE_TOKEN token =>
    let player1 :=
      match token with
      | some tok =>
        { player with battlefield := player.battlefield ++ [{ tok with instanceId := env.newId }] }
      | none => player
    finishAction room (setPlayer room.state playerIndex (some player1)) [] "CREATE_TOKEN"
  | .DESTROY_TOKEN instanceId =>
    let bf := player.battlefield.eraseP fun c => byId instanceId c && c.isToken
    let player1 := { player with battlefield := bf }
    finishAction room (setPlayer room.state playerIndex (some player1)) [] "DESTROY_TOKEN"
  | .REVEAL_HAND =>
    let cardsToReveal := player.hand.map toRevealedCard
    let payload : CardsRevealedPayload :=
      { revealerName := player.name, source := "Hand", cards := cardsToReveal }
    let sent := sendToOpponent room playerIndex (.CARDS_REVEALED payload)
    let state1 := addLogEntry room.state playerIndex "revealed their hand" "REVEAL_HAND"
      env.logId env.now
    finishAction room state1 sent "REVEAL_HAND"
  | .REVEAL_CARDS_TO_OPPONENT instanceIds source? =>
    let source := source?.getD "Cards"
    let cardsToReveal := (instanceIds.filterMap (findCardInZones player)).map toRevealedCard
    if cardsToReveal.length > 0 then
      let payload : CardsRevealedPayload :=
        { revealerName := player.name, source := source, cards := cardsToReveal }
      let sent := sendToOpponent room playerIndex (.CARDS_REVEALED payload)
      let n := cardsToReveal.length
      let state1 := addLogEntry room.state playerIndex
        ("revealed " ++ toString n ++ (if n ≠ 1 then " cards" else " card") ++ " from " ++ source)
        "REVEAL_CARDS_TO_OPPONENT" env.logId env.now
      finishAction room state1 sent "REVEAL_CARDS_TO_OPPONENT"
    else finishAction room room.state [] "REVEAL_CARDS_TO_OPPONENT"
  | .CONCEDE =>
    let opponentIndex := otherIndex playerIndex
    let winner := if opponentIndex = 0 then GameResult.player1 else GameResult.player2
    let eg := endGame room winner
    finishAction room eg.1 eg.2 "CONCEDE"
  | .DECLARE_WINNER winner =>
    let eg := endGame room winner
    finishAction room eg.1 eg.2 "DECLARE_WINNER"
  | .READY_FOR_NEXT_GAME =>
    let player1 := { player with readyForNextGame := true }
    let stateA := setPlayer room.state playerIndex (some player1)
    let room1 := { room with state := stateA }
    if room1.state.isGoldfishMode then
      let sg := startNextGame room1 env
      finishAction room sg.1 sg.2 "READY_FOR_NEXT_GAME"
    else
      let proceed :=
        match getPlayer stateA (otherIndex playerIndex) with
        | some otherPlayer => otherPlayer.readyForNextGame
        | none => false
      if proceed then
        let sg := startNextGame room1 env
        finishAction room sg.1 sg.2 "READY_FOR_NEXT_GAME"
      else finishAction room stateA [] "READY_FOR_NEXT_GAME"
  | .SWAP_SIDEBOARD mainDeckIndex sideboardIndex =>
    let allMainCards := player.deck ++ player.hand ++ player.battlefield ++ player.graveyard
    let state1 :=
      if 0 ≤ mainDeckIndex ∧ mainDeckIndex < (allMainCards.length : Int) ∧
         0 ≤ sideboardIndex ∧ sideboardIndex < (player.sideboard.length : Int) then
        match allMainCards.get? mainDeckIndex.toNat,
              player.sideboard.get? sideboardIndex.toNat with
        | some mainCard, some sideCard =>
          let pred := byId mainCard.instanceId
          let removed :=
            if player.deck.any pred then
              (true, { player with deck := player.deck.eraseP pred })
            else if player.hand.any pred then
              (true, { player with hand := player.hand.eraseP pred })
            else if player.battlefield.any pred then
              (true, { player with battlefield := player.battlefield.eraseP pred })
            else if player.graveyard.any pred then
              (true, { player with graveyard := player.graveyard.eraseP pred })
            else (false, player)
          if removed.1 then
            let playerB := { removed.2 with
              sideboard := removed.2.sideboard.set sideboardIndex.toNat mainCard,
              deck := removed.2.deck ++ [sideCard] }
            setPlayer room.state playerIndex (some playerB)
          else room.state
        | _, _ => room.state
      else room.state
    finishAction room state1 [] "SWAP_SIDEBOARD"
  | .PASS_TURN =>
    let currentTurn := room.state.turn
    let nextActivePlayer : Fin 2 :=
      if room.state.isGoldfishMode then 0
      else if currentTurn.activePlayer = 0 then 1 else 0
    let turn1 : TurnState :=
      { number := currentTurn.number + 1, activePlayer := nextActivePlayer, phase := "Main" }
    let state1 := { room.state with turn := turn1 }
    let state2 := addLogEntry state1 playerIndex "ended their turn" "PASS_TURN" env.logId env.now
    finishAction room state2 [] "PASS_TURN"
  | .unknown tag =>
    -- default branch: unknown action kinds are no-ops that still broadcast
    finishAction room room.state [] tag
  -- meta actions never reach this function (intercepted by processAction);
  -- give them the default no-op behaviour for totality
  | .UNDO => finishAction room room.state [] "UNDO"
  | .REDO => finishAction room room.state [] "REDO"
  | .SAVE_GAME => finishAction room room.state [] "SAVE_GAME"
  | .LOAD_GAME _ => finishAction room room.state [] "LOAD_GAME"

/-- `processAction`: resolve the acting connection and seat, intercept the
meta actions (`UNDO`/`REDO`/`SAVE_GAME`/`LOAD_GAME`, which never push a
history snapshot), and otherwise push a pre-mutation snapshot and interpret
the action. -/
def processAction (room : GameRoom) (ws : Nat) (env : Env) (action : GameAction) :
    GameRoom × List Sent × ServerMessage :=
  match getPlayerBySocket room ws with
  | none => (room, [], .ERROR "NOT_IN_GAME" "You are not in a game")
  | some (playerId, conn) =>
    match getPlayer room.state conn.playerIndex with
    | none => (room, [], .ERROR "INVALID_STATE" "Player state not found")
    | some player =>
      match action with
      | .UNDO =>
        let u := undoAction room
        (u.2, if u.1 then broadcastStateUpdate u.2 else [], .ACK "UNDO" (some u.1))
      | .REDO =>
        let u := redoAction room
        (u.2, if u.1 then broadcastStateUpdate u.2 else [], .ACK "REDO" (some u.1))
      | .SAVE_GAME => (room, [], .GAME_SAVED (createSaveCode room env.now))
      | .LOAD_GAME decoded =>
        let u := loadSaveCode room decoded env.now
        if u.1 then (u.2, broadcastStateUpdate u.2, .GAME_LOADED)
        else (u.2, [], .ERROR "LOAD_FAILED" "Failed to load save code")
      | _ =>
        let room1 := saveStateSnapshot room env.now
        applyGameAction room1 playerId conn.playerIndex player env action

/-! ## Instance-id accounting

`stateIds s` is the multiset of card instance ids over both players' seven
zones plus the shared stack; zone exclusivity is `(stateIds s).Nodup`. -/

/-- Multiset of instance ids of a zone. -/
def zoneIds (l : List Card) : Multiset String :=
  (l.map Card.instanceId : List String)

/-- Multiset of instance ids over a player's seven zones. -/
def playerIds (p : Player) : Multiset String :=
  zoneIds p.deck + zoneIds p.hand + zoneIds p.battlefield + zoneIds p.graveyard +
  zoneIds p.exileActive + zoneIds p.exilePermanent + zoneIds p.sideboard

/-- Ids of an optional player slot. -/
def optPlayerIds : Option Player → Multiset String
  | some p => playerIds p
  | none => 0

/-- Multiset of instance ids over both players plus the shared stack. -/
def stateIds (s : GameState) : Multiset String :=
  optPlayerIds s.players.1 + optPlayerIds s.players.2 + zoneIds s.stack

/-- Instance ids carried by a decoded save payload (what `loadSaveCode`
installs as the new players and stack). -/
def saveIds (sd : SaveData) : Multiset String :=
  (match sd.players with
   | some ps => optPlayerIds ps.1 + optPlayerIds ps.2
   | none => 0) + zoneIds (sd.stack.getD [])

/-- Freshness oracle for the two id-introducing inputs of `processAction`:
`CREATE_TOKEN` consumes a fresh uuid, and a decoded `LOAD_GAME` payload must
itself carry duplicate-free instance ids.  Every other action only moves or
drops existing instances. -/
def ActionFresh (s : GameState) (env : Env) : GameAction → Prop
  | .CREATE_TOKEN _ => env.newId ∉ stateIds s
  | .LOAD_GAME (some sd) => (saveIds sd).Nodup
  | _ => True

/-- Zone exclusivity, tracked for the live state and for every history
snapshot (undo/redo restore snapshots verbatim). -/
def RoomInv (room : GameRoom) : Prop :=
  (stateIds room.state).Nodup ∧
  ∀ snap ∈ room.stateHistory, (stateIds snap.state).Nodup

/-- The history-cursor invariant: the cursor stays in
`[-1, stateHistory.length)` and the history depth never exceeds
`MAX_HISTORY`. -/
def HistInv (room : GameRoom) : Prop :=
  -1 ≤ room.historyIndex ∧ room.historyIndex < (room.stateHistory.length : Int) ∧
  room.stateHistory.length ≤ MAX_HISTORY

/-- Rooms reachable through the game manager's mutating operations:
creation, join, deck submission (with per-entry fresh uuids: pairwise
distinct and unused in the room), game start, and action processing (with
the `ActionFresh` oracle for token uuids and load payloads). -/
inductive Reachable : GameRoom → Prop where
  | create (hash : String → String) (ws : Nat)
      (playerName password gameId playerId : String) (now : Nat) :
      Reachable (createRoom hash ws playerName password gameId playerId now)
  | join (room : GameRoom) (hash : String → String) (ws : Nat)
      (playerName password playerId : String) (now : Nat) :
      Reachable room →
      Reachable (joinRoom room hash ws playerName password playerId now).1
  | deck (room : GameRoom) (ws : Nat) (mainDeck sideboard : List DeckEntry)
      (idsMain idsSide : List String) :
      Reachable room →
      (idsMain ++ idsSide).Nodup →
      (∀ id ∈ idsMain ++ idsSide, id ∉ stateIds room.state) →
      Reachable (submitDeck room ws mainDeck sideboard idsMain idsSide).1
  | start (room : GameRoom) (ws : Nat) (env : Env) :
      Reachable room →
      Reachable (startGame room ws env).1
  | act (room : GameRoom) (ws : Nat) (env : Env) (action : GameAction) :
      Reachable room →
      ActionFresh room.state env action →
      Reachable (processAction room ws env action).1

/-! ### Generic list lemmas -/

theorem perm_cons_eraseP {p : α → Bool} :
    ∀ {l : List α} {c : α}, l.find? p = some c → l.Perm (c :: l.eraseP p)
  | [], c, h => by simp at h
  | a :: l, c, h => by
    by_cases pa : p a
    · rw [List.find?_cons_of_pos _ pa] at h
      cases h
      rw [List.eraseP_cons_of_pos pa]
    · rw [List.find?_cons_of_neg _ pa] at h
      rw [List.eraseP_cons_of_neg pa]
      exact ((perm_cons_eraseP h).cons a).trans (List.Perm.swap c a _)

theorem zoneIds_eq_of_find? {p : Card → Bool} {l : List Card} {c : Card}
    (h : l.find? p = some c) :
    zoneIds l = {c.instanceId} + zoneIds (l.eraseP p) := by
  have := (perm_cons_eraseP h).map Card.instanceId
  simpa [zoneIds, Multiset.singleton_add] using Multiset.coe_eq_coe.mpr this

theorem zoneIds_eraseP_le (p : Card → Bool) (l : List Card) :
    zoneIds (l.eraseP p) ≤ zoneIds l := by
  simpa [zoneIds] using ((List.eraseP_sublist l).map Card.instanceId).subperm

theorem zoneIds_append (a b : List Card) : zoneIds (a ++ b) = zoneIds a + zoneIds b := by
  simp [zoneIds]

theorem map_instanceId_modifyFirst {p : Card → Bool} {f : Card → Card}
    (hf : ∀ c, (f c).instanceId = c.instanceId) :
    ∀ l : List Card, (modifyFirst p f l).map Card.instanceId = l.map Card.instanceId := by
  intro l
  induction l with
  | nil => rfl
  | cons a l ih =>
    by_cases pa : p a
    · simp [modifyFirst, pa, hf a]
    · simp [modifyFirst, pa, ih]

theorem zoneIds_modifyFirst {p : Card → Bool} {f : Card → Card}
    (hf : ∀ c, (f c).instanceId = c.instanceId) (l : List Card) :
    zoneIds (modifyFirst p f l) = zoneIds l := by
  simp [zoneIds, map_instanceId_modifyFirst hf]

theorem zoneIds_map_of_id_preserving {f : Card → Card}
    (hf : ∀ c, (f c).instanceId = c.instanceId) (l : List Card) :
    zoneIds (l.map f) = zoneIds l := by
  simp [zoneIds, List.map_map, Function.comp_def, hf]

theorem zoneIds_filter_le (p : Card → Bool) (l : List Card) :
    zoneIds (l.filter p) ≤ zoneIds l := by
  simpa [zoneIds] using ((List.filter_sublist l).map Card.instanceId).subperm

theorem zoneIds_reverse (l : List Card) : zoneIds l.reverse = zoneIds l := by
  simp [zoneIds]

/-- A one-position overwrite exchanges the overwritten element. -/
theorem set_perm_cons_eraseIdx :
    ∀ (l : List α) (i : Nat) (a : α), i < l.length →
      (l.set i a).Perm (a :: l.eraseIdx i)
  | [], i, a, h => by simp at h
  | b :: l, 0, a, _ => by simp
  | b :: l, i + 1, a, h => by
    simp only [List.set_cons_succ, List.eraseIdx_cons_succ]
    exact ((set_perm_cons_eraseIdx l i a (by simpa using h)).cons b).trans
      (List.Perm.swap a b _)

theorem perm_get_cons_eraseIdx :
    ∀ (l : List α) (i : Nat) (h : i < l.length),
      l.Perm (l.get ⟨i, h⟩ :: l.eraseIdx i)
  | b :: l, 0, _ => by simp
  | b :: l, i + 1, h => by
    simp only [List.eraseIdx_cons_succ]
    exact ((perm_get_cons_eraseIdx l i (by simpa using h)).cons b).trans
      (List.Perm.swap _ b _)

/-- Overwriting one in-range position exchanges exactly that element, at the
multiset level. -/
theorem coe_set_add {l : List α} {i : Nat} (a : α) (h : i < l.length) :
    ((l.set i a : List α) : Multiset α) + {l[i]} = (l : Multiset α) + {a} := by
  have e1 : ((l.set i a : List α) : Multiset α) =
      {a} + ((l.eraseIdx i : List α) : Multiset α) := by
    simpa [Multiset.singleton_add] using
      Multiset.coe_eq_coe.mpr (set_perm_cons_eraseIdx l i a h)
  have e2 : (l : Multiset α) =
      {l[i]} + ((l.eraseIdx i : List α) : Multiset α) := by
    simpa [Multiset.singleton_add, List.get_eq_getElem] using
      Multiset.coe_eq_coe.mpr (perm_get_cons_eraseIdx l i h)
  rw [e1, e2]
  abel

theorem zoneIds_set {l : List Card} {i : Nat} (a : Card) (h : i < l.length) :
    zoneIds (l.set i a) + {l[i].instanceId} = zoneIds l + {a.instanceId} := by
  have h' : i < (l.map Card.instanceId).length := by simpa using h
  have := @coe_set_add _ (l.map Card.instanceId) i a.instanceId h'
  simpa [zoneIds, List.map_set, List.getElem_map] using this

/-! ### Fisher-Yates shuffling is a permutation -/

theorem swapInList_perm (l : List α) (i j : Nat) : (swapInList l i j).Perm l := by
  rcases hi : l.get? i with _ | vi
  · rcases hj : l.get? j with _ | vj <;> simp only [swapInList, hi, hj] <;> exact .refl l
  rcases hj : l.get? j with _ | vj
  · simp only [swapInList, hi, hj]
    exact .refl l
  simp only [swapInList, hi, hj]
  rw [List.get?_eq_getElem?] at hi hj
  have hil : i < l.length := by
    rcases Nat.lt_or_ge i l.length with h | h
    · exact h
    · rw [List.getElem?_eq_none h] at hi
      exact absurd hi (by simp)
  have hjl : j < l.length := by
    rcases Nat.lt_or_ge j l.length with h | h
    · exact h
    · rw [List.getElem?_eq_none h] at hj
      exact absurd hj (by simp)
  have hvi : l[i] = vi := by
    rw [List.getElem?_eq_getElem hil] at hi
    exact Option.some.inj hi
  have hvj : l[j] = vj := by
    rw [List.getElem?_eq_getElem hjl] at hj
    exact Option.some.inj hj
  have hjl' : j < (l.set i vj).length := by simpa using hjl
  have hset : (l.set i vj)[j] = vj := by
    rcases eq_or_ne i j with rfl | hne
    · simp [List.getElem_set]
    · simp [List.getElem_set, hne, hvj]
  apply Multiset.coe_eq_coe.mp
  have e1 : (((l.set i vj).set j vi : List α) : Multiset α) + {vj} =
      ((l.set i vj : List α) : Multiset α) + {vi} := by
    have := @coe_set_add _ (l.set i vj) j vi hjl'
    rwa [hset] at this
  have e2 : ((l.set i vj : List α) : Multiset α) + {vi} =
      (l : Multiset α) + {vj} := by
    have := @coe_set_add _ l i vj hil
    rwa [hvi] at this
  have := e1.trans e2
  exact add_right_cancel this

theorem shuffleGo_perm (rand : List Nat) (i : Nat) :
    ∀ l : List α, (shuffleGo rand i l).Perm l := by
  induction i generalizing rand with
  | zero => intro l; exact .refl l
  | succ i ih =>
    intro l
    exact (ih rand.tail _).trans (swapInList_perm ..)

theorem shuffleArray_perm (rand : List Nat) (l : List α) :
    (shuffleArray rand l).Perm l :=
  shuffleGo_perm rand (l.length - 1) l

theorem zoneIds_shuffleArray (rand : List Nat) (l : List Card) :
    zoneIds (shuffleArray rand l) = zoneIds l :=
  Multiset.coe_eq_coe.mpr ((shuffleArray_perm rand l).map Card.instanceId)

/-! ### Player-slot frame lemmas -/

theorem getPlayer_setPlayer_same (s : GameState) (i : Fin 2) (p : Option Player) :
    getPlayer (setPlayer s i p) i = p := by
  fin_cases i <;> simp [getPlayer, setPlayer]

theorem getPlayer_setPlayer_other (s : GameState) {i j : Fin 2} (hne : i ≠ j) (p : Option Player) :
    getPlayer (setPlayer s i p) j = getPlayer s j := by
  fin_cases i <;> fin_cases j <;> simp_all [getPlayer, setPlayer]

theorem otherIndex_ne (i : Fin 2) : otherIndex i ≠ i := by
  fin_cases i <;> simp [otherIndex]

theorem stateIds_eq (s : GameState) :
    stateIds s = optPlayerIds (getPlayer s 0) + optPlayerIds (getPlayer s 1) + zoneIds s.stack := by
  have h1 : (1 : Fin 2) ≠ 0 := by decide
  simp [stateIds, getPlayer, h1]

theorem stateIds_setPlayer (s : GameState) (i : Fin 2) (p' : Option Player) :
    stateIds (setPlayer s i p') + optPlayerIds (getPlayer s i) =
      stateIds s + optPlayerIds p' := by
  fin_cases i <;> simp [stateIds, setPlayer, getPlayer] <;> abel

theorem setPlayer_stack (s : GameState) (i : Fin 2) (p : Option Player) :
    (setPlayer s i p).stack = s.stack := by
  fin_cases i <;> simp [setPlayer]

theorem stateIds_update_stack (s : GameState) (l : List Card) :
    stateIds { s with stack := l } + zoneIds s.stack = stateIds s + zoneIds l := by
  simp only [stateIds]
  abel

theorem stateIds_addLogEntry (s : GameState) (i : Fin 2) (m t lid : String) (now : Nat) :
    stateIds (addLogEntry s i m t lid now) = stateIds s := rfl

/-! ### Zone read/write accounting -/

theorem playerIds_zoneSet {p : Player} {z : String} {l : List Card}
    (h : zoneGet p z = some l) (l' : List Card) :
    playerIds (zoneSet p z l') + zoneIds l = playerIds p + zoneIds l' := by
  unfold zoneGet at h
  unfold zoneSet
  split_ifs at h ⊢ <;> (cases h; simp only [playerIds]; abel)

theorem zoneSet_of_none {p : Player} {z : String}
    (h : zoneGet p z = none) (l' : List Card) : zoneSet p z l' = p := by
  unfold zoneGet at h
  unfold zoneSet
  split_ifs at h ⊢
  simp_all

/-! ### Draw loop accounting -/

theorem playerIds_drawLoop (n : Nat) : ∀ p : Player, playerIds (drawLoop n p) = playerIds p := by
  induction n with
  | zero => intro p; simp only [drawLoop]
  | succ n ih =>
    intro p
    rcases hd : p.deck with _ | ⟨c, rest⟩
    · simp only [drawLoop, hd]
    · simp only [drawLoop, hd]
      rw [ih]
      simp only [playerIds, zoneIds_append]
      simp only [zoneIds, hd, List.map_cons]
      simp only [← Multiset.cons_coe, ← Multiset.singleton_add, zoneIds]
      abel

theorem drawLoop_frame (n : Nat) : ∀ p : Player,
    (drawLoop n p).battlefield = p.battlefield ∧
    (drawLoop n p).graveyard = p.graveyard ∧
    (drawLoop n p).exileActive = p.exileActive ∧
    (drawLoop n p).exilePermanent = p.exilePermanent ∧
    (drawLoop n p).sideboard = p.sideboard := by
  induction n with
  | zero => intro p; simp [drawLoop]
  | succ n ih =>
    intro p
    rcases hd : p.deck with _ | ⟨c, rest⟩
    · simp [drawLoop, hd]
    · simp only [drawLoop, hd]
      exact ih _

/-! ## C3: sanitization hides exactly the opponent hand identities and library -/

/-- C3: for every game state and viewer seat, the sanitized view equals the
raw state on both players' battlefield, graveyard, exileActive,
exilePermanent and the shared stack; every card in the non-viewer seat's
hand keeps its instance id but has its name replaced; and the non-viewer
seat's deck keeps its length but consists entirely of placeholder stubs
carrying no card identity. -/
theorem c3_sanitize_hides_only_hand_and_library (s : GameState) (viewer : Fin 2) :
    ((sanitizeStateForPlayer s viewer).stack = s.stack)
    ∧ (∀ i : Fin 2,
        ((getPlayer (sanitizeStateForPlayer s viewer) i).map Player.battlefield =
          (getPlayer s i).map Player.battlefield)
        ∧ ((getPlayer (sanitizeStateForPlayer s viewer) i).map Player.graveyard =
          (getPlayer s i).map Player.graveyard)
        ∧ ((getPlayer (sanitizeStateForPlayer s viewer) i).map Player.exileActive =
          (getPlayer s i).map Player.exileActive)
        ∧ ((getPlayer (sanitizeStateForPlayer s viewer) i).map Player.exilePermanent =
          (getPlayer s i).map Player.exilePermanent))
    ∧ ((getPlayer (sanitizeStateForPlayer s viewer) (otherIndex viewer)).map
          (fun p => p.hand.map fun c => (c.instanceId, c.name)) =
        (getPlayer s (otherIndex viewer)).map
          (fun p => p.hand.map fun c => (c.instanceId, "Hidden")))
    ∧ ((getPlayer (sanitizeStateForPlayer s viewer) (otherIndex viewer)).map
          (fun p => p.deck.length) =
        (getPlayer s (otherIndex viewer)).map fun p => p.deck.length)
    ∧ (∀ p, getPlayer (sanitizeStateForPlayer s viewer) (otherIndex viewer) = some p →
        ∀ c ∈ p.deck, c.scryfallId = "" ∧ c.name = "Hidden" ∧ c.imageUri = ""
          ∧ c.oracleText = none ∧ c.backImageUri = none) := by
  rcases h : getPlayer s (otherIndex viewer) with _ | opp
  · have hs : sanitizeStateForPlayer s viewer = s := by
      simp [sanitizeStateForPlayer, h]
    refine ⟨by rw [hs], fun i => ⟨by rw [hs], by rw [hs], by rw [hs], by rw [hs]⟩, ?_, ?_, ?_⟩
    · simp [hs, h]
    · simp [hs, h]
    · intro p hp
      rw [hs, h] at hp
      exact absurd hp (by simp)
  · have hs : sanitizeStateForPlayer s viewer =
        setPlayer s (otherIndex viewer)
          (some { opp with
            hand := opp.hand.map fun card =>
              { card with name := "Hidden", imageUri := "", oracleText := none },
            deck := (List.range opp.deck.length).map fun i =>
              { instanceId := "hidden-" ++ toString i, scryfallId := "",
                name := "Hidden", imageUri := "",
                isTapped := false, isFaceDown := true, isTransformed := false,
                counters := [], attachments := [] } }) := by
      simp [sanitizeStateForPlayer, h]
    refine ⟨?_, ?_, ?_, ?_, ?_⟩
    · rw [hs, setPlayer_stack]
    · intro i
      by_cases hi : i = otherIndex viewer
      · subst hi
        rw [hs, getPlayer_setPlayer_same, h]
        exact ⟨rfl, rfl, rfl, rfl⟩
      · rw [hs, getPlayer_setPlayer_other _ (fun he => hi he.symm)]
        exact ⟨rfl, rfl, rfl, rfl⟩
    · simp only [hs, getPlayer_setPlayer_same, h]
      simp [List.map_map, Function.comp_def]
    · simp only [hs, getPlayer_setPlayer_same, h]
      simp
    · intro p hp
      rw [hs, getPlayer_setPlayer_same] at hp
      cases hp
      intro c hc
      simp only [List.mem_map, List.mem_range] at hc
      obtain ⟨i, _, rfl⟩ := hc
      exact ⟨rfl, rfl, rfl, rfl, rfl⟩

/-- Witness for C3 on a concrete two-player state with a non-trivial
opponent hand and library. -/
theorem c3_witness :
    (let cardA : Card := {
        instanceId := "a1"
        scryfallId := "sc1"
        name := "Bolt"
        imageUri := "img"
        isTapped := false
        isFaceDown := false
        isTransformed := false
        counters := [] }
     let opp : Player := { (createPlayer "bob" "Bob" 5) with
        hand := [cardA]
        deck := [cardA, { cardA with instanceId := "a2" }] }
     let s : GameState := setPlayer (createGameState "G" "h" 5) 1 (some opp)
     ((getPlayer (sanitizeStateForPlayer s 0) 1).map
        (fun p => p.hand.map fun c => (c.instanceId, c.name)) = some [("a1", "Hidden")])
     ∧ ∀ p, getPlayer (sanitizeStateForPlayer s 0) 1 = some p →
        ∀ c ∈ p.deck, c.scryfallId = "" ∧ c.name = "Hidden" ∧ c.imageUri = ""
          ∧ c.oracleText = none ∧ c.backImageUri = none) := by
  intro cardA opp s
  have h := c3_sanitize_hides_only_hand_and_library s 0
  refine ⟨?_, ?_⟩
  · have h3 := h.2.2.1
    have : getPlayer s (otherIndex 0) = some opp := by decide
    rw [show otherIndex 0 = 1 from rfl] at h3
    rw [h3]
    decide
  · exact fun p hp => (h.2.2.2.2 p (by rwa [show otherIndex 0 = 1 from rfl]))

/-! ## C10: the hand stubs preserve every field except name/image/text -/

/-- C10: each sanitized opponent-hand card is the original card with only
`name`, `imageUri` and `oracleText` replaced; in particular `scryfallId`,
`backImageUri`, `isTapped`, `isFaceDown`, `isTransformed`, `counters` (and
`instanceId`, `attachedTo`, `attachments`, `position`, `zIndex`) are
preserved verbatim. -/
theorem c10_sanitize_hand_preserves_nonidentity_fields (s : GameState) (viewer : Fin 2)
    (opp : Player) (h : getPlayer s (otherIndex viewer) = some opp) :
    ((getPlayer (sanitizeStateForPlayer s viewer) (otherIndex viewer)).map Player.hand =
      some (opp.hand.map fun c =>
        { c with name := "Hidden", imageUri := "", oracleText := none }))
    ∧ ∀ c : Card,
        (({ c with name := "Hidden", imageUri := "", oracleText := none } : Card).scryfallId
            = c.scryfallId)
        ∧ (({ c with name := "Hidden", imageUri := "", oracleText := none } : Card).backImageUri
            = c.backImageUri)
        ∧ (({ c with name := "Hidden", imageUri := "", oracleText := none } : Card).instanceId
            = c.instanceId)
        ∧ (({ c with name := "Hidden", imageUri := "", oracleText := none } : Card).isTapped
            = c.isTapped)
        ∧ (({ c with name := "Hidden", imageUri := "", oracleText := none } : Card).isFaceDown
            = c.isFaceDown)
        ∧ (({ c with name := "Hidden", imageUri := "", oracleText := none } : Card).isTransformed
            = c.isTransformed)
        ∧ (({ c with name := "Hidden", imageUri := "", oracleText := none } : Card).counters
            = c.counters)
        ∧ (({ c with name := "Hidden", imageUri := "", oracleText := none } : Card).attachedTo
            = c.attachedTo)
        ∧ (({ c with name := "Hidden", imageUri := "", oracleText := none } : Card).attachments
            = c.attachments)
        ∧ (({ c with name := "Hidden", imageUri := "", oracleText := none } : Card).position
            = c.position)
        ∧ (({ c with name := "Hidden", imageUri := "", oracleText := none } : Card).zIndex
            = c.zIndex) := by
  constructor
  · simp [sanitizeStateForPlayer, h, getPlayer_setPlayer_same]
  · intro c
    exact ⟨rfl, rfl, rfl, rfl, rfl, rfl, rfl, rfl, rfl, rfl, rfl⟩

/-- Witness for C10 on a concrete state whose opponent hand card carries
non-default values in every preserved field. -/
theorem c10_witness :
    (let cardA : Card := {
        instanceId := "a1"
        scryfallId := "sc1"
        name := "Bolt"
        imageUri := "img"
        backImageUri := some "back"
        oracleText := some "text"
        isTapped := true
        isFaceDown := true
        isTransformed := true
        counters := [{ type := "plusOne", value := 2 }]
        attachedTo := some "a9"
        attachments := ["a7"]
        position := some { x := 3, y := 4 }
        zIndex := some 5 }
     let opp : Player := { (createPlayer "bob" "Bob" 5) with hand := [cardA] }
     let s : GameState := setPlayer (createGameState "G" "h" 5) 1 (some opp)
     (getPlayer (sanitizeStateForPlayer s 0) (otherIndex 0)).map Player.hand =
       some [{ cardA with name := "Hidden", imageUri := "", oracleText := none }]) := by
  intro cardA opp s
  obtain ⟨h1, _⟩ :=
    c10_sanitize_hand_preserves_nonidentity_fields s 0 opp (by decide)
  rw [h1]
  rfl

/-! ## C7: join rejections -/

theorem lookup_mapSet : ∀ (m : List (String × α)) (k : String) (v : α),
    (mapSet m k v).lookup k = some v := by
  intro m k v
  induction m with
  | nil => simp [mapSet, List.lookup]
  | cons kv m ih =>
    by_cases hk : (kv.1 == k) = true
    · simp [mapSet, hk, List.lookup]
    · have hk2 : kv.1 ≠ k := by simpa using hk
      have hkk : (k == kv.1) = false := beq_eq_false_iff_ne.mpr (Ne.symm hk2)
      simp [mapSet, hk, List.lookup, hkk, ih]

/-- C7: joining a room created with password `p1` using a password whose
hash differs is rejected with `INVALID_PASSWORD`, mutating nothing (seat 1
stays empty and no connection is added); a join against an absent room code
is rejected with `GAME_NOT_FOUND`; a join against a full room (with the
right password) is rejected with `GAME_FULL`; each rejection leaves the
registry untouched. -/
theorem c7_join_rejections :
    (∀ (games : Games) (hash : String → String) (ws : Nat) (name pw gid pid : String)
       (now : Nat) (ws2 : Nat) (name2 pw2 pid2 : String) (now2 : Nat),
      hash pw2 ≠ hash pw → toUpperStr gid = gid →
      (joinGame (createGame games hash ws name pw gid pid now).1 hash ws2 gid name2 pw2 pid2 now2 =
        ((createGame games hash ws name pw gid pid now).1, [],
          .ERROR "INVALID_PASSWORD" "Invalid password"))
      ∧ ((createGame games hash ws name pw gid pid now).1.lookup gid =
          some (createRoom hash ws name pw gid pid now))
      ∧ (createRoom hash ws name pw gid pid now).state.players.2 = none
      ∧ (createRoom hash ws name pw gid pid now).players =
          [(pid, { ws := ws, wsOpen := true, playerIndex := 0, playerId := pid })])
    ∧ (∀ (games : Games) (hash : String → String) (ws : Nat) (gid name pw pid : String)
        (now : Nat), games.lookup (toUpperStr gid) = none →
        joinGame games hash ws gid name pw pid now =
          (games, [], .ERROR "GAME_NOT_FOUND" ("Game " ++ gid ++ " not found")))
    ∧ (∀ (games : Games) (hash : String → String) (ws : Nat) (gid name pw pid : String)
        (now : Nat) (room : GameRoom), games.lookup (toUpperStr gid) = some room →
        room.state.passwordHash = hash pw →
        room.state.players.1.isSome → room.state.players.2.isSome →
        joinGame games hash ws gid name pw pid now =
          (games, [], .ERROR "GAME_FULL" "Game is full")) := by
  refine ⟨?_, ?_, ?_⟩
  · intro games hash ws name pw gid pid now ws2 name2 pw2 pid2 now2 hpw hgid
    have hlook : (createGame games hash ws name pw gid pid now).1.lookup gid =
        some (createRoom hash ws name pw gid pid now) := by
      simpa [createGame] using
        lookup_mapSet games gid (createRoom hash ws name pw gid pid now)
    have hph : (createRoom hash ws name pw gid pid now).state.passwordHash = hash pw := rfl
    refine ⟨?_, hlook, rfl, rfl⟩
    rw [joinGame, hgid, hlook]
    have hne : (createRoom hash ws name pw gid pid now).state.passwordHash ≠ hash pw2 := by
      rw [hph]
      exact fun he => hpw he.symm
    simp [joinRoom, hne]
  · intro games hash ws gid name pw pid now hnone
    rw [joinGame, hnone]
  · intro games hash ws gid name pw pid now room hsome hpw h1 h2
    rw [joinGame, hsome]
    simp [joinRoom, hpw, h1, h2]

/-- Witness for C7 with a concrete registry, identity hash, and passwords. -/
theorem c7_witness :
    (joinGame (createGame [] id 1 "Alice" "pw1" "ROOMA" "pa" 9).1 id 2 "ROOMA" "Bob" "pw2" "pb" 10 =
      ((createGame [] id 1 "Alice" "pw1" "ROOMA" "pa" 9).1, [],
        .ERROR "INVALID_PASSWORD" "Invalid password"))
    ∧ (joinGame [] id 2 "NOPE" "Bob" "pw" "pb" 10 =
        ([], [], .ERROR "GAME_NOT_FOUND" "Game NOPE not found")) := by
  constructor
  · exact (c7_join_rejections.1 [] id 1 "Alice" "pw1" "ROOMA" "pa" 9 2 "Bob" "pw2" "pb" 10
      (by decide) (by decide)).1
  · exact c7_join_rejections.2.1 [] id 2 "NOPE" "Bob" "pw" "pb" 10 (by decide)

/-! ## C9 support: characterizing battlefield finds and updates -/

theorem any_eq_find?_isSome (p : α → Bool) (l : List α) :
    l.any p = (l.find? p).isSome := by
  induction l with
  | nil => rfl
  | cons a l ih =>
    by_cases pa : p a
    · simp [pa, List.find?_cons_of_pos]
    · simp [pa, List.find?_cons_of_neg, ih]

theorem findInPlayerZones_battlefield {p : Player} {id : String} {c : Card}
    (h : findInPlayerZones p id = some (c, "battlefield")) :
    p.hand.find? (byId id) = none ∧ p.battlefield.find? (byId id) = some c := by
  unfold findInPlayerZones at h
  repeat' split at h
  all_goals simp_all

theorem findInPlayerZones_eq_none {p : Player} {id : String}
    (h : findInPlayerZones p id = none) :
    p.hand.find? (byId id) = none ∧ p.battlefield.find? (byId id) = none ∧
    p.graveyard.find? (byId id) = none ∧ p.exileActive.find? (byId id) = none ∧
    p.exilePermanent.find? (byId id) = none ∧ p.deck.find? (byId id) = none := by
  unfold findInPlayerZones at h
  repeat' split at h
  all_goals simp_all

theorem playerHasCard_of_battlefield {p : Player} {id : String} {c : Card}
    (h : p.battlefield.find? (byId id) = some c) : playerHasCard p id = true := by
  unfold playerHasCard
  rw [any_eq_find?_isSome _ p.battlefield, h]
  simp

theorem playerHasCard_eq_false {p : Player} {id : String}
    (h : findInPlayerZones p id = none) : playerHasCard p id = false := by
  obtain ⟨h1, h2, h3, h4, h5, h6⟩ := findInPlayerZones_eq_none h
  unfold playerHasCard
  rw [any_eq_find?_isSome, any_eq_find?_isSome, any_eq_find?_isSome,
    any_eq_find?_isSome, any_eq_find?_isSome, any_eq_find?_isSome,
    h1, h2, h3, h4, h5, h6]
  rfl

theorem updateInPlayerZones_battlefield {p : Player} {id : String} {c : Card}
    (f : Card → Card) (h : findInPlayerZones p id = some (c, "battlefield")) :
    updateInPlayerZones p id f =
      { p with battlefield := modifyFirst (byId id) f p.battlefield } := by
  obtain ⟨h1, h2⟩ := findInPlayerZones_battlefield h
  unfold updateInPlayerZones
  rw [any_eq_find?_isSome, any_eq_find?_isSome, h1, h2]
  rfl

theorem findInPlayerZones_instanceId {p : Player} {id : String} {c : Card} {z : String}
    (h : findInPlayerZones p id = some (c, z)) : c.instanceId = id := by
  unfold findInPlayerZones at h
  repeat' split at h
  all_goals
    first
    | exact Option.noConfusion h
    | (rename_i hf
       have hb := List.find?_some hf
       simp only [byId] at hb
       rw [Option.some.injEq, Prod.mk.injEq] at h
       rw [← h.1]
       exact beq_iff_eq.mp hb)

theorem findCardInGameState_battlefield_cases {s : GameState} {id : String} {c : Card}
    {i : Fin 2} (h : findCardInGameState s id = some (c, i, "battlefield")) :
    (i = 0 ∧ ∃ p0, getPlayer s 0 = some p0 ∧ findInPlayerZones p0 id = some (c, "battlefield"))
    ∨ (i = 1 ∧ (∀ p0, getPlayer s 0 = some p0 → findInPlayerZones p0 id = none)
        ∧ ∃ p1, getPlayer s 1 = some p1 ∧ findInPlayerZones p1 id = some (c, "battlefield")) := by
  unfold findCardInGameState at h
  rcases h0 : (getPlayer s 0).bind (findInPlayerZones · id) with _ | ⟨c0, z0⟩ <;>
    rw [h0] at h
  · rcases h1 : (getPlayer s 1).bind (findInPlayerZones · id) with _ | ⟨c1, z1⟩ <;>
      rw [h1] at h
    · rcases h2 : s.stack.find? (byId id) with _ | c2 <;> rw [h2] at h <;> simp_all
    · obtain ⟨p1, hp1, hf1⟩ := Option.bind_eq_some.mp h1
      rw [Option.some.injEq, Prod.mk.injEq, Prod.mk.injEq] at h
      refine Or.inr ⟨h.2.1.symm, ?_, p1, hp1, ?_⟩
      · intro p0 hp0
        rw [hp0] at h0
        simpa using h0
      · rw [hf1, h.1, h.2.2]
  · obtain ⟨p0, hp0, hf0⟩ := Option.bind_eq_some.mp h0
    rw [Option.some.injEq, Prod.mk.injEq, Prod.mk.injEq] at h
    exact Or.inl ⟨h.2.1.symm, p0, hp0, by rw [hf0, h.1, h.2.2]⟩

/-- When the global search finds the card on seat `i`'s battlefield, the
in-place card update rewrites exactly that battlefield. -/
theorem updateCardInGameState_battlefield {s : GameState} {id : String} {c : Card}
    {i : Fin 2} {owner : Player} (f : Card → Card)
    (h : findCardInGameState s id = some (c, i, "battlefield"))
    (howner : getPlayer s i = some owner) :
    updateCardInGameState s id f =
      setPlayer s i (some { owner with
        battlefield := modifyFirst (byId id) f owner.battlefield }) := by
  rcases findCardInGameState_battlefield_cases h with
    ⟨rfl, p0, hp0, hf0⟩ | ⟨rfl, hnone, p1, hp1, hf1⟩
  · have heq : p0 = owner := by rw [hp0] at howner; exact Option.some.inj howner
    subst heq
    have hbf := (findInPlayerZones_battlefield hf0).2
    unfold updateCardInGameState
    rw [show getPlayer s 0 = some p0 from hp0]
    simp only [playerHasCard_of_battlefield hbf, if_true]
    rw [updateInPlayerZones_battlefield f hf0]
  · have heq : p1 = owner := by rw [hp1] at howner; exact Option.some.inj howner
    subst heq
    have hbf := (findInPlayerZones_battlefield hf1).2
    unfold updateCardInGameState
    rcases hb : getPlayer s 0 with _ | p0
    · rw [show getPlayer s 1 = some p1 from hp1]
      simp only [playerHasCard_of_battlefield hbf, if_true]
      rw [updateInPlayerZones_battlefield f hf1]
    · have h0 := hnone p0 hb
      simp only [playerHasCard_eq_false h0, Bool.false_eq_true, if_false]
      rw [show getPlayer s 1 = some p1 from hp1]
      simp only [playerHasCard_of_battlefield hbf, if_true]
      rw [updateInPlayerZones_battlefield f hf1]

theorem findCardInGameState_instanceId {s : GameState} {id : String} {c : Card}
    {i : Fin 2} {z : String} (h : findCardInGameState s id = some (c, i, z)) :
    c.instanceId = id := by
  unfold findCardInGameState at h
  rcases h0 : (getPlayer s 0).bind (findInPlayerZones · id) with _ | ⟨c0, z0⟩ <;>
    rw [h0] at h
  · rcases h1 : (getPlayer s 1).bind (findInPlayerZones · id) with _ | ⟨c1, z1⟩ <;>
      rw [h1] at h
    · rcases h2 : s.stack.find? (byId id) with _ | c2 <;> rw [h2] at h
      · exact absurd h (by simp)
      · have hb := List.find?_some h2
        simp only [byId] at hb
        rw [Option.map_some', Option.some.injEq, Prod.mk.injEq] at h
        rw [← h.1]
        exact beq_iff_eq.mp hb
    · obtain ⟨p1, hp1, hf1⟩ := Option.bind_eq_some.mp h1
      rw [Option.some.injEq, Prod.mk.injEq] at h
      rw [← h.1]
      exact findInPlayerZones_instanceId hf1
  · obtain ⟨p0, hp0, hf0⟩ := Option.bind_eq_some.mp h0
    rw [Option.some.injEq, Prod.mk.injEq] at h
    rw [← h.1]
    exact findInPlayerZones_instanceId hf0

theorem findInPlayerZones_of_battlefield {p : Player} {id : String} {c : Card}
    (hh : p.hand.find? (byId id) = none) (hb : p.battlefield.find? (byId id) = some c) :
    findInPlayerZones p id = some (c, "battlefield") := by
  unfold findInPlayerZones
  rw [hh, hb]

theorem findCardInGameState_of_battlefield0 {s : GameState} {p0 : Player} {id : String}
    {c : Card} (hp0 : getPlayer s 0 = some p0)
    (hh : p0.hand.find? (byId id) = none)
    (hb : p0.battlefield.find? (byId id) = some c) :
    findCardInGameState s id = some (c, 0, "battlefield") := by
  unfold findCardInGameState
  rw [hp0, Option.some_bind, findInPlayerZones_of_battlefield hh hb]

theorem findCardInGameState_of_battlefield1 {s : GameState} {p1 : Player} {id : String}
    {c : Card} (h0 : (getPlayer s 0).bind (findInPlayerZones · id) = none)
    (hp1 : getPlayer s 1 = some p1)
    (hh : p1.hand.find? (byId id) = none)
    (hb : p1.battlefield.find? (byId id) = some c) :
    findCardInGameState s id = some (c, 1, "battlefield") := by
  unfold findCardInGameState
  rw [h0, hp1, Option.some_bind, findInPlayerZones_of_battlefield hh hb]

theorem setPlayer_setPlayer (s : GameState) (i : Fin 2) (a b : Option Player) :
    setPlayer (setPlayer s i a) i b = setPlayer s i b := by
  fin_cases i <;> simp [setPlayer]

/-! ### Preservation of finds under id-preserving maps -/

theorem find?_map_eq {p : α → Bool} {f : α → α}
    (hfix : ∀ x, p x = true → f x = x) (hpres : ∀ x, p (f x) = p x) :
    ∀ l : List α, (l.map f).find? p = l.find? p := by
  intro l
  induction l with
  | nil => rfl
  | cons a l ih =>
    by_cases pa : p a
    · rw [List.map_cons, List.find?_cons_of_pos _ (by rw [hpres]; exact pa),
        List.find?_cons_of_pos _ pa, hfix a pa]
    · rw [List.map_cons, List.find?_cons_of_neg _ (by rw [hpres]; exact pa),
        List.find?_cons_of_neg _ pa, ih]

theorem modifyFirst_byId_eq_map (id : String) (f : Card → Card) :
    ∀ l : List Card, (l.map Card.instanceId).Nodup →
      modifyFirst (byId id) f l = l.map fun c => if c.instanceId == id then f c else c := by
  intro l
  induction l with
  | nil => intro _; rfl
  | cons a l ih =>
    intro hnd
    rw [List.map_cons, List.nodup_cons] at hnd
    by_cases pa : byId id a
    · have haid : a.instanceId = id := beq_iff_eq.mp (by simpa [byId] using pa)
      have htail : (l.map fun c => if c.instanceId == id then f c else c) = l := by
        have hcong : ∀ c ∈ l, (if c.instanceId == id then f c else c) = c := by
          intro c hc
          have hne : c.instanceId ≠ id := by
            intro he
            exact hnd.1 (by rw [← haid] at he; exact he ▸ List.mem_map_of_mem Card.instanceId hc)
          simp [hne]
        rw [List.map_congr_left hcong]
        exact List.map_id l
      simp only [modifyFirst, pa, if_true, List.map_cons, htail, haid, beq_self_eq_true]
    · have haid : (a.instanceId == id) = false := by
        simpa [byId] using pa
      simp only [modifyFirst, pa, if_false, List.map_cons, haid, Bool.false_eq_true,
        ih hnd.2]

/-! ### Fold-max characterization -/

theorem foldl_max_le_mem {f : α → Nat} :
    ∀ (l : List α) (a : Nat), ∀ c ∈ l, f c ≤ l.foldl (fun m x => max m (f x)) a := by
  intro l
  induction l with
  | nil => intro a c hc; simp at hc
  | cons b l ih =>
    intro a c hc
    rcases List.mem_cons.mp hc with rfl | hc
    · calc f c ≤ max a (f c) := le_max_right _ _
        _ ≤ l.foldl (fun m x => max m (f x)) (max a (f c)) := le_foldl_max l _
    · exact ih (max a (f b)) c hc
where
  le_foldl_max : ∀ (l : List α) (a : Nat), a ≤ l.foldl (fun m x => max m (f x)) a := by
    intro l
    induction l with
    | nil => intro a; exact le_refl a
    | cons b l ih =>
      intro a
      calc a ≤ max a (f b) := le_max_left _ _
        _ ≤ _ := ih (max a (f b))

theorem foldl_max_init_le {f : α → Nat} :
    ∀ (l : List α) (a : Nat), a ≤ l.foldl (fun m x => max m (f x)) a := by
  intro l
  induction l with
  | nil => intro a; exact le_refl a
  | cons b l ih =>
    intro a
    calc a ≤ max a (f b) := le_max_left _ _
      _ ≤ _ := ih (max a (f b))

theorem foldl_max_attained {f : α → Nat} :
    ∀ (l : List α) (a : Nat),
      l.foldl (fun m x => max m (f x)) a = a ∨
        ∃ c ∈ l, l.foldl (fun m x => max m (f x)) a = f c := by
  intro l
  induction l with
  | nil => intro a; exact Or.inl rfl
  | cons b l ih =>
    intro a
    rcases ih (max a (f b)) with h | ⟨c, hc, h⟩
    · rw [List.foldl_cons, h]
      rcases Nat.le_total a (f b) with hab | hab
      · exact Or.inr ⟨b, List.mem_cons_self b l, by rw [Nat.max_eq_right hab]⟩
      · exact Or.inl (Nat.max_eq_left hab)
    · exact Or.inr ⟨c, List.mem_cons_of_mem b hc, by rw [List.foldl_cons, h]⟩

/-! ## C9: layering (BRING_TO_FRONT / SEND_TO_BACK) -/

/-- C9: for a card found on some player's battlefield (with distinct
instance ids there and no explicit zero order values), `BRING_TO_FRONT`
sets that card's `zIndex` to one above the current maximum among the same
owner's battlefield cards (order value of a card = `zIndex ?? 1`; the
conjuncts bound the new value and show the maximum is attained), leaving
every other card's order value unchanged; `SEND_TO_BACK` increments every
other same-owner battlefield card's order value by one and sets the
target's to 1 — so order values `{1,2,3}` become `{2,3,1}` with
`SEND_TO_BACK` on the order-3 card (see the witness). -/
theorem c9_layering (room : GameRoom) (playerId : String) (playerIndex : Fin 2)
    (player ownerPlayer : Player) (env : Env) (instanceId : String)
    (card : Card) (cardOwner : Fin 2)
    (hfind : findCardInGameState room.state instanceId = some (card, cardOwner, "battlefield"))
    (howner : getPlayer room.state cardOwner = some ownerPlayer)
    (hpos : ∀ c ∈ ownerPlayer.battlefield, 1 ≤ c.zIndex.getD 1)
    (hnd : (ownerPlayer.battlefield.map Card.instanceId).Nodup) :
    (∃ owner1, getPlayer (applyGameAction room playerId playerIndex player env
          (.BRING_TO_FRONT instanceId)).1.state cardOwner = some owner1 ∧
        owner1.battlefield.map (fun c => (c.instanceId, c.zIndex)) =
          ownerPlayer.battlefield.map fun c =>
            (c.instanceId,
              if c.instanceId == instanceId then
                some (ownerPlayer.battlefield.foldl (fun m c => max m (c.zIndex.getD 1)) 1 + 1)
              else c.zIndex))
    ∧ (∀ c ∈ ownerPlayer.battlefield, c.zIndex.getD 1 ≤
        ownerPlayer.battlefield.foldl (fun m c => max m (c.zIndex.getD 1)) 1)
    ∧ (∃ c ∈ ownerPlayer.battlefield, c.zIndex.getD 1 =
        ownerPlayer.battlefield.foldl (fun m c => max m (c.zIndex.getD 1)) 1)
    ∧ (∃ owner1, getPlayer (applyGameAction room playerId playerIndex player env
          (.SEND_TO_BACK instanceId)).1.state cardOwner = some owner1 ∧
        owner1.battlefield.map (fun c => (c.instanceId, c.zIndex)) =
          ownerPlayer.battlefield.map fun c =>
            (c.instanceId,
              if c.instanceId == instanceId then some 1
              else some (c.zIndex.getD 1 + 1))) := by
  have hcid : card.instanceId = instanceId := findCardInGameState_instanceId hfind
  -- the target card sits on the owner's battlefield
  have hbf : ownerPlayer.battlefield.find? (byId instanceId) = some card := by
    rcases findCardInGameState_battlefield_cases hfind with
      ⟨rfl, p0, hp0, hf0⟩ | ⟨rfl, _, p1, hp1, hf1⟩
    · have he : p0 = ownerPlayer := Option.some.inj (hp0.symm.trans howner)
      subst he
      exact (findInPlayerZones_battlefield hf0).2
    · have he : p1 = ownerPlayer := Option.some.inj (hp1.symm.trans howner)
      subst he
      exact (findInPlayerZones_battlefield hf1).2
  have hmem : card ∈ ownerPlayer.battlefield := List.mem_of_find?_eq_some hbf
  refine ⟨?_, ?_, ?_, ?_⟩
  · -- BRING_TO_FRONT
    have hstate : (applyGameAction room playerId playerIndex player env
        (.BRING_TO_FRONT instanceId)).1.state =
        updateCardInGameState room.state instanceId fun c =>
          { c with zIndex := some (ownerPlayer.battlefield.foldl (fun m c => max m (c.zIndex.getD 1)) 1 + 1) } := by
      simp [applyGameAction, hfind, howner, finishAction]
    rw [hstate,
      updateCardInGameState_battlefield _ hfind howner,
      getPlayer_setPlayer_same]
    refine ⟨_, rfl, ?_⟩
    rw [modifyFirst_byId_eq_map _ _ _ hnd, List.map_map]
    apply List.map_congr_left
    intro c hc
    by_cases hcc : (c.instanceId == instanceId) = true
    · have he := beq_iff_eq.mp hcc
      simp [hcc, he]
    · have he : c.instanceId ≠ instanceId := by simpa using hcc
      simp [hcc, he]
  · exact fun c hc => @foldl_max_le_mem _ (fun c => c.zIndex.getD 1) _ 1 c hc
  · rcases @foldl_max_attained _ (fun c => c.zIndex.getD 1) ownerPlayer.battlefield 1 with h1 | ⟨c0, hc0, h⟩
    · refine ⟨card, hmem,
        le_antisymm (@foldl_max_le_mem _ (fun c => c.zIndex.getD 1) _ 1 card hmem) ?_⟩
      rw [h1]
      exact hpos card hmem
    · exact ⟨c0, hc0, h.symm⟩
  · -- SEND_TO_BACK
    have hfix : ∀ x : Card, byId instanceId x = true →
        (if x.instanceId == card.instanceId then x
         else { x with zIndex := some (x.zIndex.getD 1 + 1) }) = x := by
      intro x hx
      have : x.instanceId = instanceId := beq_iff_eq.mp (by simpa [byId] using hx)
      rw [if_pos (by rw [this, hcid]; exact beq_self_eq_true instanceId)]
    have hpres : ∀ x : Card, byId instanceId
        (if x.instanceId == card.instanceId then x
         else { x with zIndex := some (x.zIndex.getD 1 + 1) }) = byId instanceId x := by
      intro x
      by_cases hx : x.instanceId == card.instanceId
      · rw [if_pos hx]
      · rw [if_neg hx]
        simp [byId]
    have hiid : ∀ x : Card,
        (if x.instanceId == card.instanceId then x
         else { x with zIndex := some (x.zIndex.getD 1 + 1) }).instanceId = x.instanceId := by
      intro x
      by_cases hx : x.instanceId == card.instanceId
      · rw [if_pos hx]
      · rw [if_neg hx]
    set bumped := ownerPlayer.battlefield.map fun c =>
      if c.instanceId == card.instanceId then c
      else { c with zIndex := some (c.zIndex.getD 1 + 1) } with hbumped
    have hbumpedIds : bumped.map Card.instanceId =
        ownerPlayer.battlefield.map Card.instanceId := by
      rw [hbumped, List.map_map]
      exact List.map_congr_left fun c _ => hiid c
    have hndbump : (bumped.map Card.instanceId).Nodup := by rw [hbumpedIds]; exact hnd
    have hfindBumped : bumped.find? (byId instanceId) = some card := by
      rw [hbumped, find?_map_eq hfix hpres, hbf]
    have hstate : (applyGameAction room playerId playerIndex player env
        (.SEND_TO_BACK instanceId)).1.state =
        updateCardInGameState
          (setPlayer room.state cardOwner (some { ownerPlayer with battlefield := bumped }))
          instanceId fun c => { c with zIndex := some 1 } := by
      simp [applyGameAction, hfind, howner, finishAction, hbumped]
    have hownerA : getPlayer
        (setPlayer room.state cardOwner (some { ownerPlayer with battlefield := bumped }))
        cardOwner = some { ownerPlayer with battlefield := bumped } :=
      getPlayer_setPlayer_same _ _ _
    have hfindA : findCardInGameState
        (setPlayer room.state cardOwner (some { ownerPlayer with battlefield := bumped }))
        instanceId = some (card, cardOwner, "battlefield") := by
      rcases findCardInGameState_battlefield_cases hfind with
        ⟨rfl, p0, hp0, hf0⟩ | ⟨rfl, hnone, p1, hp1, hf1⟩
      · have he : p0 = ownerPlayer := Option.some.inj (hp0.symm.trans howner)
        rw [he] at hf0
        exact findCardInGameState_of_battlefield0 hownerA
          (findInPlayerZones_battlefield hf0).1 hfindBumped
      · have he : p1 = ownerPlayer := Option.some.inj (hp1.symm.trans howner)
        rw [he] at hf1
        have hframe : getPlayer
            (setPlayer room.state 1 (some { ownerPlayer with battlefield := bumped })) 0 =
            getPlayer room.state 0 :=
          getPlayer_setPlayer_other _ (by decide) _
        refine findCardInGameState_of_battlefield1 ?_ hownerA
          (findInPlayerZones_battlefield hf1).1 hfindBumped
        rw [hframe]
        rcases hb : getPlayer room.state 0 with _ | p0
        · rfl
        · rw [Option.some_bind]
          exact hnone p0 hb
    rw [hstate, updateCardInGameState_battlefield _ hfindA hownerA,
      setPlayer_setPlayer, getPlayer_setPlayer_same]
    refine ⟨_, rfl, ?_⟩
    show (modifyFirst (byId instanceId) _ bumped).map _ = _
    rw [modifyFirst_byId_eq_map _ _ _ hndbump, hbumped, List.map_map, List.map_map]
    apply List.map_congr_left
    intro c hc
    by_cases hcc : (c.instanceId == instanceId) = true
    · have he := beq_iff_eq.mp hcc
      have hcc2 : (c.instanceId == card.instanceId) = true := by
        rw [hcid]; exact hcc
      simp [Function.comp_def, hcc, hcc2, he, hcid]
    · have he : c.instanceId ≠ instanceId := by simpa using hcc
      have hcc2 : (c.instanceId == card.instanceId) = false := by
        rw [hcid]
        simpa using he
      simp [Function.comp_def, hcc, hcc2, he, hcid]

/-- Witness for C9: the spec example.  On a battlefield with order values
`{1,2,3}`, `SEND_TO_BACK` on the order-3 card yields `{2,3,1}` for the
original `{1,2,3}` respectively. -/
theorem c9_witness :
    (let mkC : String → Nat → Card := fun id z =>
       { instanceId := id, scryfallId := "s", name := id, imageUri := "",
         isTapped := false, isFaceDown := false, isTransformed := false,
         counters := [], zIndex := some z }
     let owner : Player :=
       { createPlayer "pa" "Alice" 0 with battlefield := [mkC "a" 1, mkC "b" 2, mkC "c" 3] }
     let room : GameRoom :=
       { state := setPlayer (createGameState "G" "pw" 0) 0 (some owner)
         players := [("pa", { ws := 1, wsOpen := true, playerIndex := 0, playerId := "pa" })]
         stateHistory := []
         historyIndex := -1 }
     let env : Env :=
       { newId := "n", logId := "l", rand0 := [], rand1 := [],
         jitter := { x := 40, y := 40 }, now := 0 }
     ∃ owner1,
       getPlayer (applyGameAction room "pa" 0 owner env (.SEND_TO_BACK "c")).1.state 0 =
         some owner1 ∧
       owner1.battlefield.map (fun c => (c.instanceId, c.zIndex)) =
         [("a", some 2), ("b", some 3), ("c", some 1)]) := by
  intro mkC owner room env
  obtain ⟨-, -, -, ⟨owner1, hget, hmap⟩⟩ :=
    c9_layering room "pa" 0 owner owner env "c" (mkC "c" 3) 0
      (by decide) (by decide) (by decide) (by decide)
  refine ⟨owner1, hget, ?_⟩
  rw [hmap]
  decide

/-! ## C5: orientation reset on zone moves (corrected) -/

/-- Counterexample to C5 as stated: moving a hand card to `exileActive` with
`faceDown = true` (the foretell flow, which the source deliberately supports
and logs as `FORETELL`) inserts the card with `isFaceDown = true`, not
`false`.  The projection below evaluates the processed action at a concrete
room: the inserted exile card is `("h1", isTapped := false,
isFaceDown := true, position := none)`. -/
theorem c5_counterexample :
    (let card : Card :=
       { instanceId := "h1", scryfallId := "s", name := "Bolt", imageUri := "",
         isTapped := false, isFaceDown := false, isTransformed := false, counters := [] }
     let owner : Player := { createPlayer "pa" "Alice" 0 with hand := [card] }
     let room : GameRoom :=
       { state := setPlayer (createGameState "G" "pw" 0) 0 (some owner)
         players := [("pa", { ws := 1, wsOpen := true, playerIndex := 0, playerId := "pa" })]
         stateHistory := []
         historyIndex := -1 }
     let env : Env :=
       { newId := "n", logId := "l", rand0 := [], rand1 := [],
         jitter := { x := 40, y := 40 }, now := 0 }
     ((getPlayer (applyGameAction room "pa" 0 owner env
          (.MOVE_CARD "h1" "hand" "exileActive" none (some true))).1.state 0).map fun p =>
        p.exileActive.map fun c => (c.instanceId, c.isTapped, c.isFaceDown, c.position)) =
      some [("h1", false, true, none)]) := by
  decide

/-- C5 amended: `moveCard` into `hand`, `graveyard`, `deck` (or `sideboard`)
always inserts the card untapped, face-up and positionless; into
`exileActive`/`exilePermanent` it inserts the card untapped and positionless
but with `isFaceDown` equal to the action's `faceDown` flag (default
`false`); and `addCardToPlayerZone` (used for moves out of the stack and for
takes from the opponent's battlefield) inserts into any non-battlefield zone
untapped and positionless but preserves the card's previous `isFaceDown`
verbatim. -/
theorem c5_amended :
    (∀ (player : Player) (instanceId fromZone toZone : String)
       (pos : Option CardPosition) (fd : Option Bool) (jitter : CardPosition)
       (fromList : List Card) (card : Card),
      zoneGet player fromZone = some fromList →
      fromList.find? (byId instanceId) = some card →
      (toZone = "hand" ∨ toZone = "graveyard" ∨ toZone = "deck" ∨ toZone = "sideboard") →
      ∃ pre, zoneGet (moveCard player instanceId fromZone toZone pos fd jitter) toZone =
        some (pre ++ [{ card with isTapped := false, isFaceDown := false, position := none }]))
    ∧ (∀ (player : Player) (instanceId fromZone toZone : String)
        (pos : Option CardPosition) (fd : Option Bool) (jitter : CardPosition)
        (fromList : List Card) (card : Card),
      zoneGet player fromZone = some fromList →
      fromList.find? (byId instanceId) = some card →
      (toZone = "exileActive" ∨ toZone = "exilePermanent") →
      ∃ pre, zoneGet (moveCard player instanceId fromZone toZone pos fd jitter) toZone =
        some (pre ++
          [{ card with isTapped := false, isFaceDown := fd.getD false, position := none }]))
    ∧ (∀ (player : Player) (card : Card) (zone : String)
        (pos : Option CardPosition) (jitter : CardPosition) (l : List Card),
      zone ≠ "battlefield" →
      zoneGet player zone = some l →
      zoneGet (addCardToPlayerZone player card zone pos jitter) zone =
        some (l ++ [{ card with isTapped := false, position := none }])) := by
  have hgetset : ∀ (p : Player) (z : String) (l0 l' : List Card),
      zoneGet p z = some l0 → zoneGet (zoneSet p z l') z = some l' := by
    intro p z l0 l' h
    unfold zoneGet at h ⊢
    unfold zoneSet
    split_ifs at h ⊢ <;> simp_all
  refine ⟨?_, ?_, ?_⟩
  · intro player instanceId fromZone toZone pos fd jitter fromList card hfrom hfindc hto
    have hzto : ∃ l0, zoneGet player toZone = some l0 := by
      rcases hto with rfl | rfl | rfl | rfl <;> exact ⟨_, rfl⟩
    obtain ⟨l0, hzto⟩ := hzto
    unfold moveCard
    simp only [hfrom, hzto, hfindc]
    have hz1 : ∃ l1, zoneGet (zoneSet player fromZone (fromList.eraseP (byId instanceId)))
        toZone = some l1 := by
      rcases hto with rfl | rfl | rfl | rfl <;> exact ⟨_, rfl⟩
    obtain ⟨l1, hz1⟩ := hz1
    have hne1 : toZone ≠ "battlefield" := by rcases hto with rfl | rfl | rfl | rfl <;> decide
    have hne2 : ¬(toZone = "exileActive" ∨ toZone = "exilePermanent") := by
      rcases hto with rfl | rfl | rfl | rfl <;> decide
    refine ⟨l1, ?_⟩
    rcases hto with rfl | rfl | rfl | rfl <;>
      simp only [hz1, Option.getD_some, reduceIte] <;>
      exact hgetset _ _ _ _ hz1
  · intro player instanceId fromZone toZone pos fd jitter fromList card hfrom hfindc hto
    have hzto : ∃ l0, zoneGet player toZone = some l0 := by
      rcases hto with rfl | rfl <;> exact ⟨_, rfl⟩
    obtain ⟨l0, hzto⟩ := hzto
    unfold moveCard
    simp only [hfrom, hzto, hfindc]
    have hz1 : ∃ l1, zoneGet (zoneSet player fromZone (fromList.eraseP (byId instanceId)))
        toZone = some l1 := by
      rcases hto with rfl | rfl <;> exact ⟨_, rfl⟩
    obtain ⟨l1, hz1⟩ := hz1
    refine ⟨l1, ?_⟩
    rcases hto with rfl | rfl <;>
      simp only [hz1, Option.getD_some, reduceIte] <;>
      exact hgetset _ _ _ _ hz1
  · intro player card zone pos jitter l hne hzone
    unfold addCardToPlayerZone
    rw [hzone]
    by_cases hh : zone = "hand"
    · subst hh
      simp only [reduceIte]
      exact hgetset _ _ _ _ hzone
    · simp only [hne, hh, if_false]
      exact hgetset _ _ _ _ hzone

/-- Witness for C5 amended: a concrete graveyard move resets orientation, a
concrete face-down exile honours the flag, and a concrete
`addCardToPlayerZone` into the hand keeps a face-down card face-down. -/
theorem c5_witness :
    (let card : Card :=
       { instanceId := "h1", scryfallId := "s", name := "Bolt", imageUri := "",
         isTapped := true, isFaceDown := true, isTransformed := false, counters := [],
         position := some { x := 1, y := 2 } }
     let player : Player := { createPlayer "pa" "Alice" 0 with hand := [card] }
     (∃ pre, zoneGet (moveCard player "h1" "hand" "graveyard" none (some true)
          { x := 40, y := 40 }) "graveyard" =
        some (pre ++ [{ card with isTapped := false, isFaceDown := false, position := none }]))
     ∧ (∃ pre, zoneGet (moveCard player "h1" "hand" "exileActive" none (some true)
          { x := 40, y := 40 }) "exileActive" =
        some (pre ++ [{ card with isTapped := false, isFaceDown := true, position := none }]))
     ∧ zoneGet (addCardToPlayerZone player card "hand" none { x := 40, y := 40 }) "hand" =
        some ([card] ++ [{ card with isTapped := false, position := none }])) := by
  intro card player
  refine ⟨?_, ?_, ?_⟩
  · exact c5_amended.1 player "h1" "hand" "graveyard" none (some true) { x := 40, y := 40 }
      [card] card (by decide) (by decide) (by decide)
  · exact c5_amended.2.1 player "h1" "hand" "exileActive" none (some true) { x := 40, y := 40 }
      [card] card (by decide) (by decide) (by decide)
  · exact c5_amended.2.2 player card "hand" none { x := 40, y := 40 } [card]
      (by decide) (by decide)

/-! ## C2: undo/redo as inverses (code bug) -/

/-- C2 is a code bug: `saveStateSnapshot` pushes the pre-action state and
leaves `historyIndex` on that snapshot, but `undoAction` restores
`stateHistory[historyIndex - 1]` — one snapshot too early.  On a concrete
room (Alice seated, life 20) the trace `UPDATE_LIFE +1; UPDATE_LIFE +2;
UNDO` ends at life 20, the pre-first-action state, not the pre-second-action
state (life 21) the claim requires; the following `REDO` ends at life 21,
not the post-second-action state (life 23); and after a single action `UNDO`
reports failure (`ACK success = false`) and leaves the post-action state, so
the first action of a game can never be undone. -/
theorem c2_undo_redo_not_inverse :
    (let room0 : GameRoom :=
       { state := setPlayer (createGameState "G" "pw" 0) 0 (some (createPlayer "pa" "Alice" 0))
         players := [("pa", { ws := 1, wsOpen := true, playerIndex := 0, playerId := "pa" })]
         stateHistory := []
         historyIndex := -1 }
     let env : Env :=
       { newId := "n", logId := "l", rand0 := [], rand1 := [],
         jitter := { x := 40, y := 40 }, now := 0 }
     let lifeOf : GameRoom → Option Int := fun r =>
       (getPlayer r.state 0).bind fun p => (p.life.getLast?).map LifeEntry.total
     let r1 := (processAction room0 1 env (.UPDATE_LIFE 1 none)).1
     let r2 := (processAction r1 1 env (.UPDATE_LIFE 2 none)).1
     let r3 := (processAction r2 1 env .UNDO).1
     let r4 := (processAction r3 1 env .REDO).1
     let v := processAction r1 1 env .UNDO
     lifeOf room0 = some 20 ∧ lifeOf r1 = some 21 ∧ lifeOf r2 = some 23 ∧
     lifeOf r3 = some 20 ∧ r3.state ≠ r1.state ∧
     lifeOf r4 = some 21 ∧ r4.state ≠ r2.state ∧
     v.2.2 = .ACK "UNDO" (some false) ∧ v.1 = r1) := by
  decide

/-! ## C8: reveal actions and state broadcasts (corrected) -/

theorem mem_sendToPlayer {room : GameRoom} {pid : String} {msg : ServerMessage} {s : Sent}
    (h : s ∈ sendToPlayer room pid msg) :
    s.msg = msg ∧
    ∃ conn, room.players.lookup pid = some conn ∧ conn.wsOpen = true ∧ s.ws = conn.ws := by
  rcases hl : room.players.lookup pid with _ | conn <;> simp only [sendToPlayer, hl] at h
  · simp at h
  · split at h
    · simp only [List.mem_singleton] at h
      subst h
      exact ⟨rfl, conn, rfl, by assumption, rfl⟩
    · simp at h

theorem mem_sendToOpponent {room : GameRoom} {pi : Fin 2} {msg : ServerMessage} {s : Sent}
    (h : s ∈ sendToOpponent room pi msg) :
    s.msg = msg ∧
    ∃ kv ∈ room.players,
      kv.2.playerIndex = otherIndex pi ∧ kv.2.wsOpen = true ∧ s.ws = kv.2.ws := by
  unfold sendToOpponent at h
  rw [List.mem_filterMap] at h
  obtain ⟨kv, hkv, hsome⟩ := h
  split_ifs at hsome with hc
  · cases hsome
    exact ⟨rfl, kv, hkv, hc.1, hc.2, rfl⟩

theorem mem_broadcastStateUpdate {room : GameRoom} {s : Sent}
    (h : s ∈ broadcastStateUpdate room) : ∃ st, s.msg = .STATE_UPDATE st := by
  unfold broadcastStateUpdate at h
  rw [List.mem_filterMap] at h
  obtain ⟨kv, hkv, hsome⟩ := h
  split_ifs at hsome
  · cases hsome
    exact ⟨_, rfl⟩

theorem broadcastStateUpdate_mem {room : GameRoom} {kv : String × ConnectedPlayer}
    (hkv : kv ∈ room.players) (ho : kv.2.wsOpen = true) :
    ({ ws := kv.2.ws,
       msg := .STATE_UPDATE (sanitizeStateForPlayer room.state kv.2.playerIndex) } : Sent) ∈
      broadcastStateUpdate room := by
  unfold broadcastStateUpdate
  rw [List.mem_filterMap]
  exact ⟨kv, hkv, by simp [ho]⟩

theorem finishAction_broadcasts (room : GameRoom) (state1 : GameState) (pre : List Sent)
    (tag : String) (kv : String × ConnectedPlayer) (hkv : kv ∈ room.players)
    (ho : kv.2.wsOpen = true) :
    ∃ s ∈ (finishAction room state1 pre tag).2.1,
      s.ws = kv.2.ws ∧ ∃ st, s.msg = .STATE_UPDATE st := by
  exact ⟨{ ws := kv.2.ws,
           msg := .STATE_UPDATE (sanitizeStateForPlayer state1 kv.2.playerIndex) },
    List.mem_append.mpr (Or.inr
      (@broadcastStateUpdate_mem { room with state := state1 } kv hkv ho)),
    rfl, _, rfl⟩

/-- Counterexample to C8 as stated: on a concrete room with both seats
connected, processing `REVEAL_HAND` does include a full `STATE_UPDATE`
broadcast among the sent messages (the reveal falls through to the common
`broadcastStateUpdate` tail; only the library peek returns early). -/
theorem c8_counterexample :
    (let card : Card :=
       { instanceId := "h1", scryfallId := "s", name := "Bolt", imageUri := "",
         isTapped := false, isFaceDown := false, isTransformed := false, counters := [] }
     let alice : Player := { createPlayer "pa" "Alice" 0 with hand := [card] }
     let room : GameRoom :=
       { state := setPlayer (setPlayer (createGameState "G" "pw" 0) 0 (some alice)) 1
           (some (createPlayer "pb" "Bob" 0))
         players := [("pa", { ws := 1, wsOpen := true, playerIndex := 0, playerId := "pa" }),
                     ("pb", { ws := 2, wsOpen := true, playerIndex := 1, playerId := "pb" })]
         stateHistory := []
         historyIndex := -1 }
     let env : Env :=
       { newId := "n", logId := "l", rand0 := [], rand1 := [],
         jitter := { x := 40, y := 40 }, now := 0 }
     ((processAction room 1 env .REVEAL_HAND).2.1.any fun s =>
        match s.msg with
        | .STATE_UPDATE _ => true
        | _ => false) = true) := by
  decide

/-- C8 amended: only `PEEK_OPPONENT_LIBRARY` (with an opponent holding a
nonempty library) skips the state broadcast — its only output is a
`CARDS_REVEALED` side-channel message to the requesting player's own
connection.  `REVEAL_HAND` and `REVEAL_CARDS_TO_OPPONENT` send their
`CARDS_REVEALED` side-channel only to opponent-seat open connections, but
additionally DO broadcast a full `STATE_UPDATE` to every open connection
(the reveals fall through to the common broadcast tail). -/
theorem c8_reveal_channels :
    (∀ (room : GameRoom) (playerId : String) (playerIndex : Fin 2) (player : Player)
       (env : Env) (count : Nat) (opponent : Player),
      getPlayer room.state (otherIndex playerIndex) = some opponent →
      opponent.deck ≠ [] →
      ∀ s ∈ (applyGameAction room playerId playerIndex player env
          (.PEEK_OPPONENT_LIBRARY count)).2.1,
        (∃ p, s.msg = .CARDS_REVEALED p) ∧
        ∃ conn, room.players.lookup playerId = some conn ∧ conn.wsOpen = true ∧
          s.ws = conn.ws)
    ∧ (∀ (room : GameRoom) (playerId : String) (playerIndex : Fin 2) (player : Player)
        (env : Env),
      (∀ s ∈ (applyGameAction room playerId playerIndex player env .REVEAL_HAND).2.1,
        (∃ p, s.msg = .CARDS_REVEALED p) →
        ∃ kv ∈ room.players,
          kv.2.playerIndex = otherIndex playerIndex ∧ kv.2.wsOpen = true ∧ s.ws = kv.2.ws)
      ∧ (∀ kv ∈ room.players, kv.2.wsOpen = true →
          ∃ s ∈ (applyGameAction room playerId playerIndex player env .REVEAL_HAND).2.1,
            s.ws = kv.2.ws ∧ ∃ st, s.msg = .STATE_UPDATE st))
    ∧ (∀ (room : GameRoom) (playerId : String) (playerIndex : Fin 2) (player : Player)
        (env : Env) (ids : List String) (src : Option String),
      (∀ s ∈ (applyGameAction room playerId playerIndex player env
            (.REVEAL_CARDS_TO_OPPONENT ids src)).2.1,
        (∃ p, s.msg = .CARDS_REVEALED p) →
        ∃ kv ∈ room.players,
          kv.2.playerIndex = otherIndex playerIndex ∧ kv.2.wsOpen = true ∧ s.ws = kv.2.ws)
      ∧ (∀ kv ∈ room.players, kv.2.wsOpen = true →
          ∃ s ∈ (applyGameAction room playerId playerIndex player env
              (.REVEAL_CARDS_TO_OPPONENT ids src)).2.1,
            s.ws = kv.2.ws ∧ ∃ st, s.msg = .STATE_UPDATE st)) := by
  refine ⟨?_, ?_, ?_⟩
  · intro room playerId playerIndex player env count opponent hopp hdeck s hs
    simp only [applyGameAction, hopp] at hs
    rw [if_neg (by simpa using List.length_pos.mpr hdeck |>.ne.symm)] at hs
    obtain ⟨hm, conn, hl, ho, hw⟩ := mem_sendToPlayer hs
    exact ⟨⟨_, hm⟩, conn, hl, ho, hw⟩
  · intro room playerId playerIndex player env
    constructor
    · intro s hs hrev
      simp only [applyGameAction, finishAction, List.mem_append] at hs
      rcases hs with hs | hs
      · obtain ⟨hm, kv, hkv, hi, ho, hw⟩ := mem_sendToOpponent hs
        exact ⟨kv, hkv, hi, ho, hw⟩
      · obtain ⟨st, hst⟩ := mem_broadcastStateUpdate hs
        obtain ⟨p, hp⟩ := hrev
        rw [hst] at hp
        exact absurd hp (by simp)
    · intro kv hkv ho
      exact finishAction_broadcasts room _ _ _ kv hkv ho
  · intro room playerId playerIndex player env ids src
    constructor
    · intro s hs hrev
      simp only [applyGameAction, finishAction] at hs
      split_ifs at hs
      all_goals rw [List.mem_append] at hs
      all_goals rcases hs with hs | hs
      all_goals first
        | exact absurd hs (List.not_mem_nil s)
        | (obtain ⟨hm, kv, hkv, hi, ho, hw⟩ := mem_sendToOpponent hs
           exact ⟨kv, hkv, hi, ho, hw⟩)
        | (obtain ⟨st, hst⟩ := mem_broadcastStateUpdate hs
           obtain ⟨p, hp⟩ := hrev
           rw [hst] at hp
           exact absurd hp (by simp))
    · intro kv hkv ho
      simp only [applyGameAction]
      split_ifs
      all_goals exact finishAction_broadcasts room _ _ _ kv hkv ho

/-- Witness for C8 amended: on a concrete two-seat room, the single message
a library peek produces is the `CARDS_REVEALED` to the requester's own
socket, and `REVEAL_HAND` does deliver a `STATE_UPDATE` to the opponent's
open connection. -/
theorem c8_witness :
    (let bob : Player := { createPlayer "pb" "Bob" 0 with
       deck := [{ instanceId := "d1", scryfallId := "s", name := "Island", imageUri := "",
                  isTapped := false, isFaceDown := false, isTransformed := false,
                  counters := [] }] }
     let alice : Player := createPlayer "pa" "Alice" 0
     let room : GameRoom :=
       { state := setPlayer (setPlayer (createGameState "G" "pw" 0) 0 (some alice)) 1 (some bob)
         players := [("pa", { ws := 1, wsOpen := true, playerIndex := 0, playerId := "pa" }),
                     ("pb", { ws := 2, wsOpen := true, playerIndex := 1, playerId := "pb" })]
         stateHistory := []
         historyIndex := -1 }
     let env : Env :=
       { newId := "n", logId := "l", rand0 := [], rand1 := [],
         jitter := { x := 40, y := 40 }, now := 0 }
     let s0 : Sent := (applyGameAction room "pa" 0 alice env
       (.PEEK_OPPONENT_LIBRARY 1)).2.1.headD { ws := 0, msg := .GAME_LOADED }
     ((∃ p, s0.msg = .CARDS_REVEALED p) ∧
      ∃ conn, room.players.lookup "pa" = some conn ∧ conn.wsOpen = true ∧ s0.ws = conn.ws)
     ∧ ∃ s ∈ (applyGameAction room "pa" 0 alice env .REVEAL_HAND).2.1,
         s.ws = 2 ∧ ∃ st, s.msg = .STATE_UPDATE st) := by
  intro bob alice room env s0
  constructor
  · exact c8_reveal_channels.1 room "pa" 0 alice env 1 bob (by decide) (by decide) s0
      (by decide)
  · exact (c8_reveal_channels.2.1 room "pa" 0 alice env).2
      ("pb", { ws := 2, wsOpen := true, playerIndex := 1, playerId := "pb" })
      (by decide) (by decide)

/-! ## C4: snapshot discipline -/

theorem tail_append_singleton {l : List α} {a : α} (h : l ≠ []) :
    (l ++ [a]).tail = l.tail ++ [a] := by
  cases l
  · exact absurd rfl h
  · rfl

theorem undoAction_stateHistory (room : GameRoom) :
    (undoAction room).2.stateHistory = room.stateHistory := by
  simp only [undoAction]
  split_ifs
  · rfl
  · split <;> rfl

theorem redoAction_stateHistory (room : GameRoom) :
    (redoAction room).2.stateHistory = room.stateHistory := by
  simp only [redoAction]
  split_ifs
  · rfl
  · split <;> rfl

theorem loadSaveCode_stateHistory (room : GameRoom) (sd : Option SaveData) (now : Nat) :
    (loadSaveCode room sd now).2.stateHistory = room.stateHistory ∨
    (loadSaveCode room sd now).2.stateHistory = [] := by
  unfold loadSaveCode
  split
  · exact Or.inl rfl
  · split
    · exact Or.inr rfl
    · exact Or.inl rfl

theorem applyGameAction_stateHistory (room : GameRoom) (pid : String) (pi : Fin 2)
    (player : Player) (env : Env) (a : GameAction) :
    (applyGameAction room pid pi player env a).1.stateHistory = room.stateHistory := by
  cases a <;>
    simp only [applyGameAction, finishAction] <;>
    (repeat' split) <;>
    rfl

theorem saveStateSnapshot_shape (room : GameRoom) (now : Nat) :
    ∃ pre, pre.Sublist room.stateHistory ∧
      (saveStateSnapshot room now).stateHistory =
        pre ++ [{ state := room.state, timestamp := now }] := by
  simp only [saveStateSnapshot]
  by_cases h1 : room.historyIndex < (room.stateHistory.length : Int) - 1
  · rw [if_pos h1]
    by_cases h2 : ((room.stateHistory.take (room.historyIndex + 1).toNat) ++
        [({ state := room.state, timestamp := now } : StateSnapshot)]).length > MAX_HISTORY
    · rw [if_pos h2]
      have hne : room.stateHistory.take (room.historyIndex + 1).toNat ≠ [] := by
        intro hnil
        rw [hnil] at h2
        simp [MAX_HISTORY] at h2
      exact ⟨_, (List.tail_sublist _).trans (List.take_sublist _ _),
        tail_append_singleton hne⟩
    · rw [if_neg h2]
      exact ⟨_, List.take_sublist _ _, rfl⟩
  · rw [if_neg h1]
    by_cases h2 : (room.stateHistory ++
        [({ state := room.state, timestamp := now } : StateSnapshot)]).length > MAX_HISTORY
    · rw [if_pos h2]
      have hne : room.stateHistory ≠ [] := by
        intro hnil
        rw [hnil] at h2
        simp [MAX_HISTORY] at h2
      exact ⟨_, List.tail_sublist _, tail_append_singleton hne⟩
    · rw [if_neg h2]
      exact ⟨_, List.Sublist.refl _, rfl⟩

/-- C4: for a resolvable connection and seat, the meta actions
`UNDO`/`REDO`/`SAVE_GAME`/`LOAD_GAME` never grow the history (undo/redo
move only the cursor, save touches nothing, load either leaves the history
alone on failure or clears it), while every other action kind — known or
unknown — pushes exactly one snapshot, capturing the room state exactly as
it was before the action ran, on top of a (possibly truncated or
oldest-evicted) sublist of the previous history. -/
theorem c4_snapshot_discipline (room : GameRoom) (ws : Nat) (env : Env)
    (action : GameAction) (playerId : String) (conn : ConnectedPlayer) (player : Player)
    (hconn : getPlayerBySocket room ws = some (playerId, conn))
    (hplayer : getPlayer room.state conn.playerIndex = some player) :
    ((action = .UNDO ∨ action = .REDO ∨ action = .SAVE_GAME ∨ ∃ sd, action = .LOAD_GAME sd) →
      (processAction room ws env action).1.stateHistory.length ≤ room.stateHistory.length)
    ∧ ((∀ sd, action ≠ .UNDO ∧ action ≠ .REDO ∧ action ≠ .SAVE_GAME ∧
          action ≠ .LOAD_GAME sd) →
      ∃ pre, pre.Sublist room.stateHistory ∧
        (processAction room ws env action).1.stateHistory =
          pre ++ [{ state := room.state, timestamp := env.now }]) := by
  constructor
  · intro hmeta
    rcases hmeta with rfl | rfl | rfl | ⟨sd, rfl⟩
    · simp only [processAction, hconn, hplayer]
      rw [undoAction_stateHistory]
    · simp only [processAction, hconn, hplayer]
      rw [redoAction_stateHistory]
    · simp only [processAction, hconn, hplayer]
      exact le_rfl
    · simp only [processAction, hconn, hplayer]
      split_ifs <;>
        rcases loadSaveCode_stateHistory room sd env.now with h | h <;>
        rw [h] <;>
        simp
  · intro hnm
    obtain ⟨pre, hsub, hsh⟩ := saveStateSnapshot_shape room env.now
    refine ⟨pre, hsub, ?_⟩
    cases action
    case UNDO => exact absurd rfl (hnm none).1
    case REDO => exact absurd rfl (hnm none).2.1
    case SAVE_GAME => exact absurd rfl (hnm none).2.2.1
    case LOAD_GAME sd => exact absurd rfl (hnm sd).2.2.2
    all_goals simp only [processAction, hconn, hplayer]
    all_goals rw [applyGameAction_stateHistory, hsh]

/-- Witness for C4: on a concrete room with Alice connected and one old
snapshot in the history, `UPDATE_LIFE` pushes exactly the pre-action
snapshot on top of the old history. -/
theorem c4_witness :
    (let alice : Player := createPlayer "pa" "Alice" 0
     let conn : ConnectedPlayer := { ws := 1, wsOpen := true, playerIndex := 0, playerId := "pa" }
     let room : GameRoom :=
       { state := setPlayer (createGameState "G" "pw" 0) 0 (some alice)
         players := [("pa", conn)]
         stateHistory := [{ state := createGameState "G" "pw" 0, timestamp := 0 }]
         historyIndex := 0 }
     let env : Env :=
       { newId := "n", logId := "l", rand0 := [], rand1 := [],
         jitter := { x := 40, y := 40 }, now := 7 }
     ∃ pre, pre.Sublist room.stateHistory ∧
       (processAction room 1 env (.UPDATE_LIFE 1 none)).1.stateHistory =
         pre ++ [{ state := room.state, timestamp := env.now }]) := by
  intro alice conn room env
  exact (c4_snapshot_discipline room 1 env (.UPDATE_LIFE 1 none) "pa" conn alice
      (by decide) (by decide)).2
    (fun sd => ⟨fun h => GameAction.noConfusion h, fun h => GameAction.noConfusion h,
      fun h => GameAction.noConfusion h, fun h => GameAction.noConfusion h⟩)

/-! ## C1/C6 support: multiset accounting for every mutating operation -/

theorem mult_le_of_eq_add {a b c d : Multiset α} (h : a + c = b + d) (hc : d ≤ c) :
    a ≤ b := by
  obtain ⟨e, rfl⟩ := Multiset.le_iff_exists_add.mp hc
  have h2 : (a + e) + d = b + d := by
    rw [← h]
    abel
  exact Multiset.le_iff_exists_add.mpr ⟨e, (add_right_cancel h2).symm⟩

theorem mult_le_cancel {R P A T Q : Multiset α} (h : R + P = A + Q) (hq : Q ≤ P + T) :
    R ≤ A + T := by
  have h2 : R + P ≤ A + (P + T) := h ▸ add_le_add_left hq A
  rw [show A + (P + T) = (A + T) + P from by abel] at h2
  exact le_of_add_le_add_right h2

theorem fin_two_cases (i : Fin 2) : i = 0 ∨ i = 1 := by
  fin_cases i
  · exact Or.inl rfl
  · exact Or.inr rfl

theorem playerIds_le_stateIds {s : GameState} {i : Fin 2} {player : Player}
    (h : getPlayer s i = some player) : playerIds player ≤ stateIds s := by
  rcases fin_two_cases i with rfl | rfl
  · have h1 : s.players.1 = some player := h
    refine Multiset.le_iff_exists_add.mpr ⟨optPlayerIds s.players.2 + zoneIds s.stack, ?_⟩
    simp only [stateIds, h1, optPlayerIds]
    abel
  · have h1 : s.players.2 = some player := h
    refine Multiset.le_iff_exists_add.mpr ⟨optPlayerIds s.players.1 + zoneIds s.stack, ?_⟩
    simp only [stateIds, h1, optPlayerIds]
    abel

theorem stateIds_setPlayer_some {s : GameState} {i : Fin 2} {player : Player}
    (h : getPlayer s i = some player) (p1 : Player) :
    stateIds (setPlayer s i (some p1)) + playerIds player = stateIds s + playerIds p1 := by
  have := stateIds_setPlayer s i (some p1)
  rw [h] at this
  simpa [optPlayerIds] using this

theorem nodup_setPlayer_of_le {s : GameState} {i : Fin 2} {player : Player}
    (h : getPlayer s i = some player) (hnd : (stateIds s).Nodup) {p1 : Player}
    (hle : playerIds p1 ≤ playerIds player) :
    (stateIds (setPlayer s i (some p1))).Nodup :=
  Multiset.nodup_of_le (mult_le_of_eq_add (stateIds_setPlayer_some h p1) hle) hnd

theorem playerIds_updateCardInZones {f : Card → Card}
    (hf : ∀ c, (f c).instanceId = c.instanceId) (p : Player) (id : String) :
    playerIds (updateCardInZones p id f) = playerIds p := by
  unfold updateCardInZones
  split_ifs <;> simp [playerIds, zoneIds_modifyFirst hf]

theorem playerIds_updateInPlayerZones {f : Card → Card}
    (hf : ∀ c, (f c).instanceId = c.instanceId) (p : Player) (id : String) :
    playerIds (updateInPlayerZones p id f) = playerIds p := by
  unfold updateInPlayerZones
  split_ifs <;> simp [playerIds, zoneIds_modifyFirst hf]

theorem getPlayer_update_stack (s : GameState) (l : List Card) (i : Fin 2) :
    getPlayer { s with stack := l } i = getPlayer s i := rfl

theorem stateIds_updateCardInGameState {f : Card → Card}
    (hf : ∀ c, (f c).instanceId = c.instanceId) (s : GameState) (id : String) :
    stateIds (updateCardInGameState s id f) = stateIds s := by
  have hstack : stateIds { s with stack := modifyFirst (byId id) f s.stack } = stateIds s := by
    have := stateIds_update_stack s (modifyFirst (byId id) f s.stack)
    rw [zoneIds_modifyFirst hf] at this
    exact add_right_cancel this
  have hset : ∀ (i : Fin 2) (p : Player), getPlayer s i = some p →
      stateIds (setPlayer s i (some (updateInPlayerZones p id f))) = stateIds s := by
    intro i p hp
    have h1 := stateIds_setPlayer_some hp (updateInPlayerZones p id f)
    rw [playerIds_updateInPlayerZones hf] at h1
    exact add_right_cancel h1
  unfold updateCardInGameState
  rcases h0 : getPlayer s 0 with _ | p0 <;> dsimp only
  · rcases h1 : getPlayer s 1 with _ | p1 <;> dsimp only
    · exact hstack
    · split_ifs with h
      · exact hset 1 p1 h1
      · exact hstack
  · split_ifs with h
    · exact hset 0 p0 h0
    · rcases h1 : getPlayer s 1 with _ | p1 <;> dsimp only
      · exact hstack
      · split_ifs with h2
        · exact hset 1 p1 h1
        · exact hstack

theorem zoneGet_isSome_congr (p q : Player) (zq : String) :
    (zoneGet p zq).isSome = (zoneGet q zq).isSome := by
  unfold zoneGet
  split_ifs <;> rfl

theorem removeCardFromPlayerZone_none {p : Player} {id z : String}
    (h : (removeCardFromPlayerZone p id z).1 = none) :
    (removeCardFromPlayerZone p id z).2 = p := by
  unfold removeCardFromPlayerZone at h ⊢
  rcases hz : zoneGet p z with _ | l
  · rfl
  · rw [hz] at h
    dsimp only at h ⊢
    rcases hf : l.find? (byId id) with _ | c
    · rfl
    · rw [hf] at h
      exact absurd h (by simp)

theorem removeCardFromPlayerZone_some {p : Player} {id z : String} {c : Card}
    (h : (removeCardFromPlayerZone p id z).1 = some c) :
    playerIds (removeCardFromPlayerZone p id z).2 + {c.instanceId} = playerIds p := by
  unfold removeCardFromPlayerZone at h ⊢
  rcases hz : zoneGet p z with _ | l
  · rw [hz] at h
    exact absurd h (by simp)
  · rw [hz] at h
    dsimp only at h ⊢
    rcases hf : l.find? (byId id) with _ | c0
    · rw [hf] at h
      exact absurd h (by simp)
    · rw [hf] at h
      have hc : c0 = c := by simpa using h
      subst hc
      have h1 := playerIds_zoneSet hz (l.eraseP (byId id))
      rw [zoneIds_eq_of_find? hf] at h1
      have h2 : playerIds (zoneSet p z (l.eraseP (byId id))) + {c0.instanceId} +
          zoneIds (l.eraseP (byId id)) =
          playerIds p + zoneIds (l.eraseP (byId id)) := by
        rw [← h1]
        abel
      exact add_right_cancel h2

theorem playerIds_addCardToPlayerZone_le (p : Player) (card : Card) (z : String)
    (pos : Option CardPosition) (jitter : CardPosition) :
    playerIds (addCardToPlayerZone p card z pos jitter) ≤
      playerIds p + {card.instanceId} := by
  simp only [addCardToPlayerZone]
  rcases hz : zoneGet p z with _ | l <;> simp only [hz]
  · exact le_add_of_le_of_nonneg le_rfl (Multiset.zero_le _)
  · set c1 : Card :=
      if z = "battlefield" then
        { card with isTapped := false, position := some (pos.getD jitter) }
      else if z = "hand" then
        { card with isTapped := false, position := none }
      else
        { card with isTapped := false, position := none } with hc1
    have hid : c1.instanceId = card.instanceId := by
      rw [hc1]
      split_ifs <;> rfl
    have h1 := playerIds_zoneSet hz (l ++ [c1])
    rw [zoneIds_append] at h1
    have h2 : playerIds (zoneSet p z (l ++ [c1])) + zoneIds l =
        (playerIds p + zoneIds [c1]) + zoneIds l := by
      rw [h1]; abel
    have h3 := add_right_cancel h2
    rw [h3]
    have : zoneIds [c1] = {card.instanceId} := by
      simp [zoneIds, hid]
    rw [this]

theorem playerIds_moveCard (p : Player) (id fz tz : String)
    (pos : Option CardPosition) (fd : Option Bool) (jitter : CardPosition) :
    playerIds (moveCard p id fz tz pos fd jitter) = playerIds p := by
  unfold moveCard
  rcases hfz : zoneGet p fz with _ | fromList
  · rcases htz : zoneGet p tz with _ | toList0 <;> rfl
  rcases htz : zoneGet p tz with _ | toList0
  · rfl
  dsimp only
  rcases hf : fromList.find? (byId id) with _ | card
  · rfl
  -- the source zone loses the card ...
  have h1 := playerIds_zoneSet hfz (fromList.eraseP (byId id))
  rw [zoneIds_eq_of_find? hf] at h1
  have hrm : playerIds (zoneSet p fz (fromList.eraseP (byId id))) + {card.instanceId} =
      playerIds p := by
    have h2 : playerIds (zoneSet p fz (fromList.eraseP (byId id))) + {card.instanceId} +
        zoneIds (fromList.eraseP (byId id)) =
        playerIds p + zoneIds (fromList.eraseP (byId id)) := by
      rw [← h1]
      abel
    exact add_right_cancel h2
  -- ... and the destination zone gains a card with the same id
  set p1 := zoneSet p fz (fromList.eraseP (byId id)) with hp1
  set c1 : Card :=
    if tz = "battlefield" then
      { card with isTapped := false, isFaceDown := fd.getD false,
                  position := some (pos.getD jitter) }
    else if tz = "exileActive" ∨ tz = "exilePermanent" then
      { card with isTapped := false, isFaceDown := fd.getD false, position := none }
    else if tz = "hand" then
      { card with isTapped := false, isFaceDown := false, position := none }
    else
      { card with isTapped := false, isFaceDown := false, position := none } with hc1
  have hid : c1.instanceId = card.instanceId := by
    rw [hc1]
    split_ifs <;> rfl
  have hsome : (zoneGet p1 tz).isSome = true := by
    rw [zoneGet_isSome_congr p1 p tz, htz]
    rfl
  rcases htz1 : zoneGet p1 tz with _ | toList
  · rw [htz1] at hsome
    exact absurd hsome (by simp)
  have h3 := playerIds_zoneSet htz1 (toList ++ [c1])
  rw [zoneIds_append] at h3
  have h4 : playerIds (zoneSet p1 tz (toList ++ [c1])) + zoneIds toList =
      (playerIds p1 + zoneIds [c1]) + zoneIds toList := by
    rw [h3]
    abel
  have h5 := add_right_cancel h4
  simp only [Option.getD_some]
  rw [h5, show zoneIds [c1] = {card.instanceId} from by simp [zoneIds, hid], hrm]

theorem zoneIds_nil : zoneIds ([] : List Card) = 0 := rfl

theorem zoneIds_singleton (c : Card) : zoneIds [c] = {c.instanceId} := by
  simp [zoneIds]

theorem playerIds_with_deck (p : Player) (l : List Card) :
    playerIds { p with deck := l } + zoneIds p.deck = playerIds p + zoneIds l := by
  simp only [playerIds]
  abel

theorem playerIds_with_battlefield (p : Player) (l : List Card) :
    playerIds { p with battlefield := l } + zoneIds p.battlefield =
      playerIds p + zoneIds l := by
  simp only [playerIds]
  abel

theorem playerIds_shuffle_deck (p : Player) (rand : List Nat) :
    playerIds { p with deck := shuffleArray rand p.deck } = playerIds p := by
  have h := playerIds_with_deck p (shuffleArray rand p.deck)
  rw [zoneIds_shuffleArray] at h
  exact add_right_cancel h

theorem playerIds_mulligan_pool (p : Player) :
    playerIds { p with deck := p.deck ++ p.hand.reverse, hand := [] } = playerIds p := by
  simp only [playerIds, zoneIds_append, zoneIds_reverse, zoneIds_nil]
  abel

theorem mkDeckCards_ids : ∀ (es : List DeckEntry) (ids : List String),
    (mkDeckCards es ids).map Card.instanceId = ids.take es.length
  | [], _ => rfl
  | _ :: _, [] => rfl
  | e :: es, id :: ids => by
    have ih := mkDeckCards_ids es ids
    simp only [mkDeckCards] at ih ⊢
    simp only [List.zipWith_cons_cons, List.map_cons, List.length_cons, List.take_succ_cons]
    rw [ih]

theorem zoneIds_mkDeckCards (es : List DeckEntry) (ids : List String) :
    zoneIds (mkDeckCards es ids) = ((ids.take es.length : List String) : Multiset String) := by
  simp [zoneIds, mkDeckCards_ids]

theorem optPlayerIds_map_ready (o : Option Player) :
    optPlayerIds (o.map fun p => { p with readyForNextGame := false }) = optPlayerIds o := by
  cases o <;> rfl

theorem stateIds_endGame (room : GameRoom) (w : GameResult) :
    stateIds (endGame room w).1 = stateIds room.state := by
  simp only [endGame]
  split_ifs
  · rfl
  · simp only [stateIds]
    rw [optPlayerIds_map_ready, optPlayerIds_map_ready]

theorem zoneIds_reset_map (l : List Card) :
    zoneIds (l.map fun card =>
      { card with isTapped := false, isFaceDown := false, isTransformed := false,
                  counters := [], attachedTo := none, attachments := [], position := none }) =
    zoneIds l := by
  apply zoneIds_map_of_id_preserving
  intro c
  rfl

theorem playerIds_resetPlayerForNextGame_le (p : Player) (rand : List Nat) (now : Nat) :
    playerIds (resetPlayerForNextGame p rand now) ≤ playerIds p := by
  simp only [resetPlayerForNextGame]
  rw [playerIds_drawLoop]
  simp only [playerIds, zoneIds_shuffleArray, zoneIds_nil, add_zero, zero_add]
  refine le_trans (add_le_add_right (le_of_eq (zoneIds_reset_map _)) _) ?_
  refine le_trans (add_le_add_right (zoneIds_filter_le _ _) _) (le_of_eq ?_)
  simp only [zoneIds_append]

theorem playerIds_foldl_pick (ids : List String) :
    ∀ acc : List Card × List Card,
      zoneIds (ids.foldl (fun acc id =>
        match acc.2.find? (byId id) with
        | some c => (acc.1 ++ [c], acc.2.eraseP (byId id))
        | none => acc) acc).1 +
      zoneIds (ids.foldl (fun acc id =>
        match acc.2.find? (byId id) with
        | some c => (acc.1 ++ [c], acc.2.eraseP (byId id))
        | none => acc) acc).2 = zoneIds acc.1 + zoneIds acc.2 := by
  induction ids with
  | nil => intro acc; rfl
  | cons id ids ih =>
    intro acc
    simp only [List.foldl_cons]
    rcases hf : acc.2.find? (byId id) with _ | c
    · dsimp only
      exact ih acc
    · dsimp only
      rw [ih ((acc.1 ++ [c], acc.2.eraseP (byId id)))]
      dsimp only
      rw [zoneIds_append, zoneIds_singleton, zoneIds_eq_of_find? hf]
      abel

theorem playerIds_foldl_bottom (ids : List String) :
    ∀ pl : Player,
      playerIds (ids.foldl (fun pl id =>
        match pl.hand.find? (byId id) with
        | some card => { pl with hand := pl.hand.eraseP (byId id), deck := pl.deck ++ [card] }
        | none => pl) pl) = playerIds pl := by
  induction ids with
  | nil => intro pl; rfl
  | cons id ids ih =>
    intro pl
    simp only [List.foldl_cons]
    rcases hf : pl.hand.find? (byId id) with _ | card
    · dsimp only
      exact ih pl
    · dsimp only
      rw [ih _]
      simp only [playerIds, zoneIds_append, zoneIds_singleton]
      rw [zoneIds_eq_of_find? hf]
      abel

theorem rearrange1 {a b c d r : Multiset α} (h : a + b = c + d) :
    r + a + b = r + c + d := by
  rw [add_assoc, h, ← add_assoc]

theorem playerIds_swap_helper (q : Player) (i : Nat) (mc sc : Card)
    (hi : i < q.sideboard.length) (hsc : q.sideboard[i] = sc) :
    playerIds { q with sideboard := q.sideboard.set i mc, deck := q.deck ++ [sc] } =
      playerIds q + {mc.instanceId} := by
  have hset := @zoneIds_set q.sideboard i mc hi
  rw [hsc] at hset
  have key : playerIds { q with sideboard := q.sideboard.set i mc, deck := q.deck ++ [sc] } +
      {sc.instanceId} = (playerIds q + {mc.instanceId}) + {sc.instanceId} := by
    calc playerIds { q with sideboard := q.sideboard.set i mc, deck := q.deck ++ [sc] } +
          {sc.instanceId}
        = (zoneIds q.deck + {sc.instanceId} + zoneIds q.hand + zoneIds q.battlefield +
            zoneIds q.graveyard + zoneIds q.exileActive + zoneIds q.exilePermanent) +
            zoneIds (q.sideboard.set i mc) + {sc.instanceId} := by
          simp only [playerIds, zoneIds_append, zoneIds_singleton]
      _ = (zoneIds q.deck + {sc.instanceId} + zoneIds q.hand + zoneIds q.battlefield +
            zoneIds q.graveyard + zoneIds q.exileActive + zoneIds q.exilePermanent) +
            zoneIds q.sideboard + {mc.instanceId} := rearrange1 hset
      _ = (playerIds q + {mc.instanceId}) + {sc.instanceId} := by
          simp only [playerIds]
          abel
  exact add_right_cancel key

/-! ### Room-lifecycle operations preserve the invariants -/

theorem applyGameAction_historyIndex (room : GameRoom) (pid : String) (pi : Fin 2)
    (player : Player) (env : Env) (a : GameAction) :
    (applyGameAction room pid pi player env a).1.historyIndex = room.historyIndex := by
  cases a <;>
    simp only [applyGameAction, finishAction] <;>
    (repeat' split) <;>
    rfl

theorem playerIds_createPlayer (id name : String) (now : Nat) :
    playerIds (createPlayer id name now) = 0 := rfl

theorem createRoom_inv (hash : String → String) (ws : Nat)
    (playerName password gameId playerId : String) (now : Nat) :
    RoomInv (createRoom hash ws playerName password gameId playerId now) ∧
    HistInv (createRoom hash ws playerName password gameId playerId now) := by
  refine ⟨⟨?_, ?_⟩, ?_, ?_, ?_⟩
  · show (stateIds (setPlayer (createGameState gameId (hash password) now) 0
      (some (createPlayer playerId playerName now)))).Nodup
    have h : stateIds (setPlayer (createGameState gameId (hash password) now) 0
        (some (createPlayer playerId playerName now))) = 0 := rfl
    rw [h]
    exact Multiset.nodup_zero
  · intro snap hsnap
    exact absurd hsnap (List.not_mem_nil snap)
  · show (-1 : Int) ≤ -1
    exact le_refl _
  · show (-1 : Int) < ((0 : Nat) : Int)
    decide
  · show 0 ≤ MAX_HISTORY
    exact Nat.zero_le _

theorem joinRoom_inv (room : GameRoom) (hash : String → String) (ws : Nat)
    (playerName password playerId : String) (now : Nat)
    (hinv : RoomInv room) (hh : HistInv room) :
    RoomInv (joinRoom room hash ws playerName password playerId now).1 ∧
    HistInv (joinRoom room hash ws playerName password playerId now).1 := by
  have key : ∀ i : Fin 2,
      (stateIds (setPlayer room.state i (some (createPlayer playerId playerName now)))).Nodup := by
    intro i
    have hid := stateIds_setPlayer room.state i (some (createPlayer playerId playerName now))
    simp only [optPlayerIds] at hid
    rw [playerIds_createPlayer, add_zero] at hid
    exact Multiset.nodup_of_le (Multiset.le_iff_exists_add.mpr ⟨_, hid.symm⟩) hinv.1
  unfold joinRoom
  split_ifs with h1 h2 h3
  · exact ⟨hinv, hh⟩
  · exact ⟨hinv, hh⟩
  · exact ⟨⟨key 1, hinv.2⟩, hh⟩
  · exact ⟨⟨key 0, hinv.2⟩, hh⟩

theorem submitDeck_inv (room : GameRoom) (ws : Nat) (mainDeck sideboard : List DeckEntry)
    (idsMain idsSide : List String)
    (hinv : RoomInv room) (hh : HistInv room)
    (hnd : (idsMain ++ idsSide).Nodup)
    (hfresh : ∀ id ∈ idsMain ++ idsSide, id ∉ stateIds room.state) :
    RoomInv (submitDeck room ws mainDeck sideboard idsMain idsSide).1 ∧
    HistInv (submitDeck room ws mainDeck sideboard idsMain idsSide).1 := by
  unfold submitDeck
  rcases hconn : getPlayerBySocket room ws with _ | pc
  · exact ⟨hinv, hh⟩
  obtain ⟨pid, conn⟩ := pc
  dsimp only
  rcases hp : getPlayer room.state conn.playerIndex with _ | player
  · exact ⟨hinv, hh⟩
  dsimp only
  refine ⟨⟨?_, hinv.2⟩, hh⟩
  -- the fresh ids, as installed (truncated by zipWith)
  have hident := stateIds_setPlayer_some hp
    { player with
      deck := mkDeckCards mainDeck idsMain
      sideboard := mkDeckCards sideboard idsSide }
  -- decompose both players into new ids + untouched zones
  have hdecompOld : playerIds player =
      (zoneIds player.hand + zoneIds player.battlefield + zoneIds player.graveyard +
        zoneIds player.exileActive + zoneIds player.exilePermanent) +
      (zoneIds player.deck + zoneIds player.sideboard) := by
    simp only [playerIds]
    abel
  have hdecompNew : playerIds
      ({ player with
         deck := mkDeckCards mainDeck idsMain
         sideboard := mkDeckCards sideboard idsSide } : Player) =
      (zoneIds player.hand + zoneIds player.battlefield + zoneIds player.graveyard +
        zoneIds player.exileActive + zoneIds player.exilePermanent) +
      (zoneIds (mkDeckCards mainDeck idsMain) + zoneIds (mkDeckCards sideboard idsSide)) := by
    simp only [playerIds]
    abel
  set R := zoneIds player.hand + zoneIds player.battlefield + zoneIds player.graveyard +
    zoneIds player.exileActive + zoneIds player.exilePermanent with hR
  set N := zoneIds (mkDeckCards mainDeck idsMain) + zoneIds (mkDeckCards sideboard idsSide)
    with hN
  rw [hdecompOld, hdecompNew] at hident
  -- cancel the untouched zones
  have hcancel : stateIds (setPlayer room.state conn.playerIndex
      (some { player with
        deck := mkDeckCards mainDeck idsMain
        sideboard := mkDeckCards sideboard idsSide })) +
      (zoneIds player.deck + zoneIds player.sideboard) = stateIds room.state + N := by
    have h2 : stateIds (setPlayer room.state conn.playerIndex
        (some { player with
          deck := mkDeckCards mainDeck idsMain
          sideboard := mkDeckCards sideboard idsSide })) +
        (zoneIds player.deck + zoneIds player.sideboard) + R =
        (stateIds room.state + N) + R :=
      calc stateIds (setPlayer room.state conn.playerIndex
            (some { player with
              deck := mkDeckCards mainDeck idsMain
              sideboard := mkDeckCards sideboard idsSide })) +
            (zoneIds player.deck + zoneIds player.sideboard) + R
          = stateIds (setPlayer room.state conn.playerIndex
              (some { player with
                deck := mkDeckCards mainDeck idsMain
                sideboard := mkDeckCards sideboard idsSide })) +
              (R + (zoneIds player.deck + zoneIds player.sideboard)) := by abel
        _ = stateIds room.state + (R + N) := hident
        _ = (stateIds room.state + N) + R := by abel
    exact add_right_cancel h2
  have hle : stateIds (setPlayer room.state conn.playerIndex
      (some { player with
        deck := mkDeckCards mainDeck idsMain
        sideboard := mkDeckCards sideboard idsSide })) ≤ stateIds room.state + N :=
    Multiset.le_iff_exists_add.mpr ⟨zoneIds player.deck + zoneIds player.sideboard,
      hcancel.symm⟩
  -- the fresh-id multiset is duplicate-free and disjoint from the old state
  have hNle : N ≤ ((idsMain ++ idsSide : List String) : Multiset String) := by
    rw [hN, zoneIds_mkDeckCards, zoneIds_mkDeckCards, ← Multiset.coe_add]
    exact (List.Sublist.append (List.take_sublist _ _) (List.take_sublist _ _)).subperm
  have hNnodup : N.Nodup :=
    Multiset.nodup_of_le hNle (Multiset.coe_nodup.mpr hnd)
  have hdisj : Disjoint (stateIds room.state) N := by
    rw [Multiset.disjoint_left]
    intro a ha hb
    exact hfresh a (Multiset.mem_of_le hNle hb) ha
  exact Multiset.nodup_of_le hle
    (Multiset.nodup_add.mpr ⟨hinv.1, hNnodup, hdisj⟩)

theorem startGameRun_stateIds {room : GameRoom} {player0 : Player}
    {player1? : Option Player} (env : Env)
    (h : room.state.players = (some player0, player1?)) :
    stateIds (startGameRun room player0 player1? env).1.state = stateIds room.state := by
  have hopt : optPlayerIds (player1?.map fun p =>
      if p.deck.length > 0 then drawLoop 7 { p with deck := shuffleArray env.rand1 p.deck }
      else drawLoop 7 p) = optPlayerIds player1? := by
    cases player1? with
    | none => rfl
    | some p =>
      simp only [Option.map_some', optPlayerIds]
      split_ifs
      · rw [playerIds_drawLoop, playerIds_shuffle_deck]
      · rw [playerIds_drawLoop]
  simp only [startGameRun, stateIds]
  rw [h, hopt]
  dsimp only
  simp only [optPlayerIds]
  rw [playerIds_drawLoop, playerIds_shuffle_deck]

theorem startGame_inv (room : GameRoom) (ws : Nat) (env : Env)
    (hinv : RoomInv room) (hh : HistInv room) :
    RoomInv (startGame room ws env).1 ∧ HistInv (startGame room ws env).1 := by
  have hrun : ∀ (player0 : Player) (player1? : Option Player),
      room.state.players = (some player0, player1?) →
      RoomInv (startGameRun room player0 player1? env).1 ∧
      HistInv (startGameRun room player0 player1? env).1 := by
    intro player0 player1? hpair
    refine ⟨⟨?_, hinv.2⟩, hh⟩
    rw [startGameRun_stateIds env hpair]
    exact hinv.1
  unfold startGame
  rcases hconn : getPlayerBySocket room ws with _ | pc
  · exact ⟨hinv, hh⟩
  obtain ⟨pid, conn⟩ := pc
  dsimp only
  split_ifs with hni hgf
  · exact ⟨hinv, hh⟩
  · rcases h1 : room.state.players.1 with _ | player0
    · exact ⟨hinv, hh⟩
    · dsimp only
      split_ifs with hdz
      · exact ⟨hinv, hh⟩
      · exact hrun player0 room.state.players.2 (by rw [← h1])
  · rcases h1 : room.state.players.1 with _ | player0 <;>
      rcases h2 : room.state.players.2 with _ | player1
    · exact ⟨hinv, hh⟩
    · exact ⟨hinv, hh⟩
    · exact ⟨hinv, hh⟩
    · dsimp only
      split_ifs with hdz
      · exact ⟨hinv, hh⟩
      · exact hrun player0 (some player1) (by rw [← h1, ← h2])

theorem undoAction_inv (room : GameRoom) (hinv : RoomInv room) (hh : HistInv room) :
    RoomInv (undoAction room).2 ∧ HistInv (undoAction room).2 := by
  obtain ⟨ha, hb, hc⟩ := hh
  unfold undoAction
  split_ifs with h
  · exact ⟨hinv, ha, hb, hc⟩
  · dsimp only
    rcases hg : room.stateHistory.get? (room.historyIndex - 1).toNat with _ | snap
    · refine ⟨⟨hinv.1, hinv.2⟩, ?_, ?_, hc⟩
      · show (-1 : Int) ≤ room.historyIndex - 1
        omega
      · show room.historyIndex - 1 < (room.stateHistory.length : Int)
        omega
    · refine ⟨⟨hinv.2 snap (List.get?_mem hg), hinv.2⟩, ?_, ?_, hc⟩
      · show (-1 : Int) ≤ room.historyIndex - 1
        omega
      · show room.historyIndex - 1 < (room.stateHistory.length : Int)
        omega

theorem redoAction_inv (room : GameRoom) (hinv : RoomInv room) (hh : HistInv room) :
    RoomInv (redoAction room).2 ∧ HistInv (redoAction room).2 := by
  obtain ⟨ha, hb, hc⟩ := hh
  unfold redoAction
  split_ifs with h
  · exact ⟨hinv, ha, hb, hc⟩
  · dsimp only
    rcases hg : room.stateHistory.get? (room.historyIndex + 1).toNat with _ | snap
    · refine ⟨⟨hinv.1, hinv.2⟩, ?_, ?_, hc⟩
      · show (-1 : Int) ≤ room.historyIndex + 1
        omega
      · show room.historyIndex + 1 < (room.stateHistory.length : Int)
        omega
    · refine ⟨⟨hinv.2 snap (List.get?_mem hg), hinv.2⟩, ?_, ?_, hc⟩
      · show (-1 : Int) ≤ room.historyIndex + 1
        omega
      · show room.historyIndex + 1 < (room.stateHistory.length : Int)
        omega

theorem nodup_updateCardInGameState {f : Card → Card} {s : GameState} {id2 : String}
    (hf : ∀ c, (f c).instanceId = c.instanceId) (h : (stateIds s).Nodup) :
    (stateIds (updateCardInGameState s id2 f)).Nodup := by
  rw [stateIds_updateCardInGameState hf]
  exact h

theorem playerIds_map_battlefield {f : Card → Card}
    (hf : ∀ c, (f c).instanceId = c.instanceId) (p : Player) :
    playerIds { p with battlefield := p.battlefield.map f } = playerIds p := by
  have h := playerIds_with_battlefield p (p.battlefield.map f)
  rw [zoneIds_map_of_id_preserving hf] at h
  exact add_right_cancel h

theorem playerIds_modify_battlefield {f : Card → Card}
    (hf : ∀ c, (f c).instanceId = c.instanceId) (p : Player) (id : String) :
    playerIds { p with battlefield := modifyFirst (byId id) f p.battlefield } =
      playerIds p := by
  have h := playerIds_with_battlefield p (modifyFirst (byId id) f p.battlefield)
  rw [zoneIds_modifyFirst hf] at h
  exact add_right_cancel h

theorem nodup_setPlayer_empty {s : GameState} (i : Fin 2) {q : Player}
    (hq : playerIds q = 0) (hs : (stateIds s).Nodup) :
    (stateIds (setPlayer s i (some q))).Nodup := by
  have hid := stateIds_setPlayer s i (some q)
  simp only [optPlayerIds] at hid
  rw [hq, add_zero] at hid
  exact Multiset.nodup_of_le (Multiset.le_iff_exists_add.mpr ⟨_, hid.symm⟩) hs

theorem stateIds_startNextGame_le (room : GameRoom) (env : Env) :
    stateIds (startNextGame room env).1 ≤ stateIds room.state := by
  unfold startNextGame
  rcases h1 : room.state.players.1 with _ | p0 <;>
    rcases h2 : room.state.players.2 with _ | p1
  · exact le_rfl
  · exact le_rfl
  · exact le_rfl
  · dsimp only
    have hrhs : stateIds room.state =
        playerIds p0 + playerIds p1 + zoneIds room.state.stack := by
      simp only [stateIds, h1, h2, optPlayerIds]
    split_ifs with hgf
    · rw [hrhs]
      exact add_le_add (add_le_add (playerIds_resetPlayerForNextGame_le p0 env.rand0 env.now)
        (playerIds_resetPlayerForNextGame_le p1 env.rand1 env.now)) le_rfl
    · rw [hrhs]
      exact add_le_add (add_le_add (playerIds_resetPlayerForNextGame_le p0 env.rand0 env.now)
        (playerIds_resetPlayerForNextGame_le p1 env.rand1 env.now)) le_rfl

theorem saveStateSnapshot_state (room : GameRoom) (now : Nat) :
    (saveStateSnapshot room now).state = room.state := by
  simp only [saveStateSnapshot]
  split_ifs <;> rfl

theorem nodup_add_singleton {s : Multiset String} {x : String}
    (hs : s.Nodup) (hx : x ∉ s) : (s + {x}).Nodup := by
  refine Multiset.nodup_add.mpr ⟨hs, Multiset.nodup_singleton x, ?_⟩
  rw [Multiset.disjoint_left]
  intro a ha hb
  rw [Multiset.mem_singleton] at hb
  exact hx (hb ▸ ha)

theorem playerIds_with_hand (p : Player) (l : List Card) :
    playerIds { p with hand := l } + zoneIds p.hand = playerIds p + zoneIds l := by
  simp only [playerIds]
  abel

theorem playerIds_with_graveyard (p : Player) (l : List Card) :
    playerIds { p with graveyard := l } + zoneIds p.graveyard = playerIds p + zoneIds l := by
  simp only [playerIds]
  abel

theorem playerIds_with_life (p : Player) (l : List LifeEntry) :
    playerIds { p with life := l } = playerIds p := rfl

theorem playerIds_with_counters (p : Player) (l : List (String × Int)) :
    playerIds { p with counters := l } = playerIds p := rfl

theorem playerIds_with_kept (p : Player) (b : Bool) :
    playerIds { p with hasKeptHand := b } = playerIds p := rfl

theorem playerIds_with_ready (p : Player) (b : Bool) :
    playerIds { p with readyForNextGame := b } = playerIds p := rfl

theorem playerIds_erase_deck {p : Player} {pred : Card → Bool} {c : Card}
    (hf : p.deck.find? pred = some c) :
    playerIds { p with deck := p.deck.eraseP pred } + {c.instanceId} = playerIds p := by
  have h := playerIds_with_deck p (p.deck.eraseP pred)
  rw [zoneIds_eq_of_find? hf] at h
  have h2 : (playerIds { p with deck := p.deck.eraseP pred } + {c.instanceId}) +
      zoneIds (p.deck.eraseP pred) = playerIds p + zoneIds (p.deck.eraseP pred) :=
    calc (playerIds { p with deck := p.deck.eraseP pred } + {c.instanceId}) +
          zoneIds (p.deck.eraseP pred)
        = playerIds { p with deck := p.deck.eraseP pred } +
            ({c.instanceId} + zoneIds (p.deck.eraseP pred)) := by abel
      _ = playerIds p + zoneIds (p.deck.eraseP pred) := h
  exact add_right_cancel h2

theorem playerIds_erase_hand {p : Player} {pred : Card → Bool} {c : Card}
    (hf : p.hand.find? pred = some c) :
    playerIds { p with hand := p.hand.eraseP pred } + {c.instanceId} = playerIds p := by
  have h := playerIds_with_hand p (p.hand.eraseP pred)
  rw [zoneIds_eq_of_find? hf] at h
  have h2 : (playerIds { p with hand := p.hand.eraseP pred } + {c.instanceId}) +
      zoneIds (p.hand.eraseP pred) = playerIds p + zoneIds (p.hand.eraseP pred) :=
    calc (playerIds { p with hand := p.hand.eraseP pred } + {c.instanceId}) +
          zoneIds (p.hand.eraseP pred)
        = playerIds { p with hand := p.hand.eraseP pred } +
            ({c.instanceId} + zoneIds (p.hand.eraseP pred)) := by abel
      _ = playerIds p + zoneIds (p.hand.eraseP pred) := h
  exact add_right_cancel h2

theorem playerIds_erase_battlefield {p : Player} {pred : Card → Bool} {c : Card}
    (hf : p.battlefield.find? pred = some c) :
    playerIds { p with battlefield := p.battlefield.eraseP pred } + {c.instanceId} =
      playerIds p := by
  have h := playerIds_with_battlefield p (p.battlefield.eraseP pred)
  rw [zoneIds_eq_of_find? hf] at h
  have h2 : (playerIds { p with battlefield := p.battlefield.eraseP pred } + {c.instanceId}) +
      zoneIds (p.battlefield.eraseP pred) =
      playerIds p + zoneIds (p.battlefield.eraseP pred) :=
    calc (playerIds { p with battlefield := p.battlefield.eraseP pred } + {c.instanceId}) +
          zoneIds (p.battlefield.eraseP pred)
        = playerIds { p with battlefield := p.battlefield.eraseP pred } +
            ({c.instanceId} + zoneIds (p.battlefield.eraseP pred)) := by abel
      _ = playerIds p + zoneIds (p.battlefield.eraseP pred) := h
  exact add_right_cancel h2

theorem playerIds_erase_graveyard {p : Player} {pred : Card → Bool} {c : Card}
    (hf : p.graveyard.find? pred = some c) :
    playerIds { p with graveyard := p.graveyard.eraseP pred } + {c.instanceId} =
      playerIds p := by
  have h := playerIds_with_graveyard p (p.graveyard.eraseP pred)
  rw [zoneIds_eq_of_find? hf] at h
  have h2 : (playerIds { p with graveyard := p.graveyard.eraseP pred } + {c.instanceId}) +
      zoneIds (p.graveyard.eraseP pred) =
      playerIds p + zoneIds (p.graveyard.eraseP pred) :=
    calc (playerIds { p with graveyard := p.graveyard.eraseP pred } + {c.instanceId}) +
          zoneIds (p.graveyard.eraseP pred)
        = playerIds { p with graveyard := p.graveyard.eraseP pred } +
            ({c.instanceId} + zoneIds (p.graveyard.eraseP pred)) := by abel
      _ = playerIds p + zoneIds (p.graveyard.eraseP pred) := h
  exact add_right_cancel h2

theorem stateIds_after_remove {room : GameRoom} {pi : Fin 2} {player : Player}
    (hp : getPlayer room.state pi = some player) {id fz : String} {card : Card}
    (hrm : (removeCardFromPlayerZone player id fz).1 = some card) :
    stateIds (setPlayer room.state pi (some (removeCardFromPlayerZone player id fz).2)) +
      {card.instanceId} = stateIds room.state := by
  have hrm2 := removeCardFromPlayerZone_some hrm
  have hset := stateIds_setPlayer_some hp (removeCardFromPlayerZone player id fz).2
  have h2 : (stateIds (setPlayer room.state pi
        (some (removeCardFromPlayerZone player id fz).2)) + {card.instanceId}) +
      playerIds (removeCardFromPlayerZone player id fz).2 =
      stateIds room.state + playerIds (removeCardFromPlayerZone player id fz).2 :=
    calc (stateIds (setPlayer room.state pi
            (some (removeCardFromPlayerZone player id fz).2)) + {card.instanceId}) +
          playerIds (removeCardFromPlayerZone player id fz).2
        = stateIds (setPlayer room.state pi
            (some (removeCardFromPlayerZone player id fz).2)) +
            (playerIds (removeCardFromPlayerZone player id fz).2 + {card.instanceId}) := by
          abel
      _ = stateIds (setPlayer room.state pi
            (some (removeCardFromPlayerZone player id fz).2)) + playerIds player := by
          rw [hrm2]
      _ = stateIds room.state + playerIds (removeCardFromPlayerZone player id fz).2 := hset
  exact add_right_cancel h2

theorem playerIds_deck_rearrange {p : Player} {l : List Card}
    (h : zoneIds l = zoneIds p.deck) : playerIds { p with deck := l } = playerIds p := by
  have h2 := playerIds_with_deck p l
  rw [h] at h2
  exact add_right_cancel h2

/-- Every non-meta action preserves zone exclusivity: the ids of the
resulting state stay duplicate-free.  `CREATE_TOKEN` needs the fresh-uuid
oracle; every other action only rearranges or drops existing instances. -/
theorem applyGameAction_nodup (room : GameRoom) (pid : String) (pi : Fin 2)
    (player : Player) (env : Env) (a : GameAction)
    (hp : getPlayer room.state pi = some player)
    (hnd : (stateIds room.state).Nodup)
    (hfresh : ActionFresh room.state env a) :
    (stateIds (applyGameAction room pid pi player env a).1.state).Nodup := by
  cases a
  case UNDO => exact hnd
  case REDO => exact hnd
  case SAVE_GAME => exact hnd
  case LOAD_GAME decoded => exact hnd
  case unknown tag => exact hnd
  case PASS_TURN => exact hnd
  case REVEAL_HAND => exact hnd
  case REVEAL_CARDS_TO_OPPONENT ids src =>
    simp only [applyGameAction, finishAction]
    (repeat' split) <;> exact hnd
  case PEEK_OPPONENT_LIBRARY n =>
    simp only [applyGameAction, finishAction]
    (repeat' split) <;> exact hnd
  case ENABLE_GOLDFISH =>
    simp only [applyGameAction, finishAction]
    split_ifs with h1 h2
    · exact hnd
    · exact hnd
    · exact nodup_setPlayer_empty 1 rfl hnd
  case DRAW_CARDS count? =>
    simp only [applyGameAction, finishAction]
    rw [stateIds_addLogEntry]
    exact nodup_setPlayer_of_le hp hnd (le_of_eq (playerIds_drawLoop _ player))
  case SHUFFLE_DECK =>
    simp only [applyGameAction, finishAction]
    rw [stateIds_addLogEntry]
    exact nodup_setPlayer_of_le hp hnd (le_of_eq (playerIds_shuffle_deck player env.rand0))
  case PUT_ON_TOP instanceIds =>
    refine nodup_setPlayer_of_le hp hnd (le_of_eq (playerIds_deck_rearrange ?_))
    rw [zoneIds_append]
    have hacc := playerIds_foldl_pick instanceIds (([] : List Card), player.deck)
    simp only [zoneIds_nil, zero_add] at hacc
    exact hacc
  case PUT_ON_BOTTOM instanceIds =>
    refine nodup_setPlayer_of_le hp hnd (le_of_eq (playerIds_deck_rearrange ?_))
    rw [zoneIds_append, add_comm]
    have hacc := playerIds_foldl_pick instanceIds (([] : List Card), player.deck)
    simp only [zoneIds_nil, zero_add] at hacc
    exact hacc
  case TAP_CARD instanceId =>
    refine nodup_setPlayer_of_le hp hnd
      (le_of_eq (playerIds_updateCardInZones ?_ player instanceId))
    intro c
    rfl
  case UNTAP_CARD instanceId =>
    refine nodup_setPlayer_of_le hp hnd
      (le_of_eq (playerIds_updateCardInZones ?_ player instanceId))
    intro c
    rfl
  case FLIP_CARD instanceId =>
    refine nodup_setPlayer_of_le hp hnd
      (le_of_eq (playerIds_updateCardInZones ?_ player instanceId))
    intro c
    rfl
  case TRANSFORM_CARD instanceId =>
    refine nodup_setPlayer_of_le hp hnd
      (le_of_eq (playerIds_updateCardInZones ?_ player instanceId))
    intro c
    rfl
  case ADD_COUNTER instanceId counter =>
    rcases counter with _ | ctr
    · exact nodup_setPlayer_of_le hp hnd (le_of_eq rfl)
    · refine nodup_setPlayer_of_le hp hnd
        (le_of_eq (playerIds_updateCardInZones ?_ player instanceId))
      intro c
      rfl
  case REMOVE_COUNTER instanceId counterIndex =>
    rcases counterIndex with _ | ci
    · exact nodup_setPlayer_of_le hp hnd (le_of_eq rfl)
    · refine nodup_setPlayer_of_le hp hnd
        (le_of_eq (playerIds_updateCardInZones ?_ player instanceId))
      intro c
      split_ifs <;> rfl
  case UNTAP_ALL =>
    refine nodup_setPlayer_of_le hp hnd (le_of_eq (playerIds_map_battlefield ?_ player))
    intro c
    rfl
  case MOVE_CARD_POSITION instanceId position =>
    refine nodup_setPlayer_of_le hp hnd
      (le_of_eq (playerIds_modify_battlefield ?_ player instanceId))
    intro c
    rfl
  case MULLIGAN_KEEP =>
    simp only [applyGameAction, finishAction]
    (repeat' split) <;>
      exact nodup_setPlayer_of_le hp hnd (le_of_eq (playerIds_with_kept player true))
  case MULLIGAN_AGAIN =>
    refine nodup_setPlayer_of_le hp hnd (le_of_eq ?_)
    rw [playerIds_drawLoop]
    exact (playerIds_shuffle_deck
        { player with deck := player.deck ++ player.hand.reverse, hand := [] }
        env.rand0).trans
      (playerIds_mulligan_pool player)
  case BOTTOM_CARDS instanceIds =>
    exact nodup_setPlayer_of_le hp hnd (le_of_eq (playerIds_foldl_bottom instanceIds player))
  case UPDATE_LIFE delta note =>
    exact nodup_setPlayer_of_le hp hnd (le_of_eq (playerIds_with_life player _))
  case SET_PLAYER_COUNTER counterType value =>
    exact nodup_setPlayer_of_le hp hnd (le_of_eq (playerIds_with_counters player _))
  case DESTROY_TOKEN instanceId =>
    exact nodup_setPlayer_of_le hp hnd
      (mult_le_of_eq_add (playerIds_with_battlefield player _) (zoneIds_eraseP_le _ _))
  case CREATE_TOKEN token =>
    have hfr : env.newId ∉ stateIds room.state := hfresh
    rcases token with _ | tok
    · exact nodup_setPlayer_of_le hp hnd (le_of_eq rfl)
    · simp only [applyGameAction, finishAction]
      have h1 := playerIds_with_battlefield player
        (player.battlefield ++ [{ tok with instanceId := env.newId }])
      rw [zoneIds_append, zoneIds_singleton,
        show ({ tok with instanceId := env.newId } : Card).instanceId = env.newId from rfl]
        at h1
      have hplus : playerIds { player with battlefield :=
          player.battlefield ++ [{ tok with instanceId := env.newId }] } =
          playerIds player + {env.newId} := by
        have h2 : playerIds { player with battlefield :=
            player.battlefield ++ [{ tok with instanceId := env.newId }] } +
            zoneIds player.battlefield =
            (playerIds player + {env.newId}) + zoneIds player.battlefield := by
          rw [h1]
          abel
        exact add_right_cancel h2
      have hset := stateIds_setPlayer_some hp
        { player with battlefield := player.battlefield ++ [{ tok with instanceId := env.newId }] }
      rw [hplus] at hset
      have h3 : stateIds (setPlayer room.state pi (some { player with battlefield :=
          player.battlefield ++ [{ tok with instanceId := env.newId }] })) +
          playerIds player =
          (stateIds room.state + {env.newId}) + playerIds player := by
        rw [hset]
        abel
      have h4 := add_right_cancel h3
      rw [h4]
      exact nodup_add_singleton hnd hfr
  case ATTACH_CARD instanceId targetId =>
    simp only [applyGameAction, finishAction]
    (repeat' split) <;>
      (repeat' (first
        | exact hnd
        | refine nodup_updateCardInGameState ?_ ?_
        | exact fun c => rfl))
  case DETACH_CARD instanceId =>
    simp only [applyGameAction, finishAction]
    (repeat' split) <;>
      (repeat' (first
        | exact hnd
        | refine nodup_updateCardInGameState ?_ ?_
        | exact fun c => rfl))
  case MOVE_CARD_ON_ANY_BATTLEFIELD instanceId position =>
    simp only [applyGameAction, finishAction]
    (repeat' split) <;>
      (repeat' (first
        | exact hnd
        | refine nodup_updateCardInGameState ?_ ?_
        | exact fun c => rfl))
  case BRING_TO_FRONT instanceId =>
    simp only [applyGameAction, finishAction]
    (repeat' split) <;>
      (repeat' (first
        | exact hnd
        | refine nodup_updateCardInGameState ?_ ?_
        | exact fun c => rfl))
  case SEND_TO_BACK instanceId =>
    simp only [applyGameAction, finishAction]
    rcases hfindg : findCardInGameState room.state instanceId with _ | trip
    · exact hnd
    obtain ⟨card, cardOwner, zone⟩ := trip
    dsimp only
    split_ifs with hz
    · exact hnd
    rcases hgo : getPlayer room.state cardOwner with _ | ownerPlayer
    · exact hnd
    dsimp only
    refine nodup_updateCardInGameState ?_ ?_
    · exact fun c => rfl
    refine nodup_setPlayer_of_le hgo hnd (le_of_eq (playerIds_map_battlefield ?_ ownerPlayer))
    intro c
    split_ifs <;> rfl
  case CONCEDE =>
    simp only [applyGameAction, finishAction]
    rw [stateIds_endGame]
    exact hnd
  case DECLARE_WINNER winner =>
    simp only [applyGameAction, finishAction]
    rw [stateIds_endGame]
    exact hnd
  case READY_FOR_NEXT_GAME =>
    simp only [applyGameAction, finishAction]
    (repeat' split) <;>
      first
      | exact nodup_setPlayer_of_le hp hnd (le_of_eq (playerIds_with_ready player true))
      | (refine Multiset.nodup_of_le
           (le_trans (stateIds_startNextGame_le _ env) (le_of_eq ?_)) hnd
         exact add_right_cancel
           (stateIds_setPlayer_some hp { player with readyForNextGame := true }))
  case MOVE_CARD instanceId fromZone toZone position faceDown =>
    simp only [applyGameAction, finishAction]
    by_cases h1 : toZone = "stack"
    · -- into the shared stack
      rw [if_pos h1]
      dsimp only
      rcases hrm : (removeCardFromPlayerZone player instanceId fromZone).1 with _ | card
      · dsimp only
        exact hnd
      · dsimp only
        have hsA := stateIds_after_remove hp hrm
        have hst := stateIds_update_stack
          (setPlayer room.state pi (some (removeCardFromPlayerZone player instanceId fromZone).2))
          ((setPlayer room.state pi
            (some (removeCardFromPlayerZone player instanceId fromZone).2)).stack ++
            [{ card with position := position, isTapped := false }])
        rw [zoneIds_append, zoneIds_singleton,
          show ({ card with position := position, isTapped := false } : Card).instanceId =
            card.instanceId from rfl] at hst
        have h3 : stateIds { setPlayer room.state pi
            (some (removeCardFromPlayerZone player instanceId fromZone).2) with
              stack := (setPlayer room.state pi
                (some (removeCardFromPlayerZone player instanceId fromZone).2)).stack ++
                [{ card with position := position, isTapped := false }] } +
            zoneIds (setPlayer room.state pi
              (some (removeCardFromPlayerZone player instanceId fromZone).2)).stack =
            (stateIds (setPlayer room.state pi
              (some (removeCardFromPlayerZone player instanceId fromZone).2)) +
              {card.instanceId}) +
            zoneIds (setPlayer room.state pi
              (some (removeCardFromPlayerZone player instanceId fromZone).2)).stack := by
          rw [hst]
          abel
        have h4 := add_right_cancel h3
        rw [h4, hsA]
        exact hnd
    · rw [if_neg h1]
      by_cases h2 : fromZone = "stack"
      · -- out of the shared stack
        rw [if_pos h2]
        dsimp only
        rcases hfind : room.state.stack.find? (byId instanceId) with _ | card
        · dsimp only
          exact hnd
        · dsimp only
          have hs1 : stateIds { room.state with
              stack := room.state.stack.eraseP (byId instanceId) } + {card.instanceId} =
              stateIds room.state := by
            have h := stateIds_update_stack room.state
              (room.state.stack.eraseP (byId instanceId))
            rw [zoneIds_eq_of_find? hfind] at h
            have h2 : (stateIds { room.state with
                stack := room.state.stack.eraseP (byId instanceId) } + {card.instanceId}) +
                zoneIds (room.state.stack.eraseP (byId instanceId)) =
                stateIds room.state + zoneIds (room.state.stack.eraseP (byId instanceId)) :=
              calc (stateIds { room.state with
                    stack := room.state.stack.eraseP (byId instanceId) } + {card.instanceId}) +
                    zoneIds (room.state.stack.eraseP (byId instanceId))
                  = stateIds { room.state with
                      stack := room.state.stack.eraseP (byId instanceId) } +
                      ({card.instanceId} + zoneIds (room.state.stack.eraseP (byId instanceId))) := by
                    abel
                _ = stateIds room.state +
                      zoneIds (room.state.stack.eraseP (byId instanceId)) := h
            exact add_right_cancel h2
          have hps1 : getPlayer { room.state with
              stack := room.state.stack.eraseP (byId instanceId) } pi = some player := hp
          have hset := stateIds_setPlayer_some hps1
            (addCardToPlayerZone player card toZone position env.jitter)
          have hle := mult_le_cancel hset
            (playerIds_addCardToPlayerZone_le player card toZone position env.jitter)
          rw [hs1] at hle
          exact Multiset.nodup_of_le hle hnd
      · -- per-player zone move
        rw [if_neg h2]
        dsimp only
        split_ifs <;> (try rw [stateIds_addLogEntry]) <;>
          exact nodup_setPlayer_of_le hp hnd
            (le_of_eq (playerIds_moveCard player instanceId fromZone toZone position faceDown
              env.jitter))
  case MOVE_TO_OPPONENT_BATTLEFIELD instanceId fromZone position =>
    simp only [applyGameAction, finishAction]
    rcases hopp : getPlayer room.state (otherIndex pi) with _ | opponent
    · exact hnd
    dsimp only
    rcases hrm : (removeCardFromPlayerZone player instanceId fromZone).1 with _ | card
    · dsimp only
      exact hnd
    dsimp only
    have hsA := stateIds_after_remove hp hrm
    have hoppA : getPlayer (setPlayer room.state pi
        (some (removeCardFromPlayerZone player instanceId fromZone).2)) (otherIndex pi) =
        some opponent := by
      rw [getPlayer_setPlayer_other _ (otherIndex_ne pi).symm _]
      exact hopp
    have hoppIds : playerIds { opponent with battlefield := opponent.battlefield ++
        [{ card with isTapped := false, isFaceDown := false, position := some (position.getD { x := 50, y := 50 }) }] } =
        playerIds opponent + {card.instanceId} := by
      have h := playerIds_with_battlefield opponent (opponent.battlefield ++
        [{ card with isTapped := false, isFaceDown := false, position := some (position.getD { x := 50, y := 50 }) }])
      rw [zoneIds_append, zoneIds_singleton,
        show ({ card with isTapped := false, isFaceDown := false, position := some (position.getD { x := 50, y := 50 }) } : Card).instanceId =
          card.instanceId from rfl] at h
      have h2 : playerIds { opponent with battlefield := opponent.battlefield ++
          [{ card with isTapped := false, isFaceDown := false, position := some (position.getD { x := 50, y := 50 }) }] } +
          zoneIds opponent.battlefield =
          (playerIds opponent + {card.instanceId}) + zoneIds opponent.battlefield := by
        rw [h]
        abel
      exact add_right_cancel h2
    have hsetB := stateIds_setPlayer_some hoppA { opponent with battlefield :=
      opponent.battlefield ++
        [{ card with isTapped := false, isFaceDown := false, position := some (position.getD { x := 50, y := 50 }) }] }
    rw [hoppIds] at hsetB
    have h3 : stateIds (setPlayer (setPlayer room.state pi
        (some (removeCardFromPlayerZone player instanceId fromZone).2)) (otherIndex pi)
        (some { opponent with battlefield := opponent.battlefield ++
          [{ card with isTapped := false, isFaceDown := false, position := some (position.getD { x := 50, y := 50 }) }] })) +
        playerIds opponent =
        (stateIds (setPlayer room.state pi
          (some (removeCardFromPlayerZone player instanceId fromZone).2)) +
          {card.instanceId}) + playerIds opponent := by
      rw [hsetB]
      abel
    have h4 := add_right_cancel h3
    rw [h4, hsA]
    exact hnd
  case TAKE_FROM_OPPONENT_BATTLEFIELD instanceId toZone position =>
    simp only [applyGameAction, finishAction]
    rcases hopp : getPlayer room.state (otherIndex pi) with _ | opponent
    · exact hnd
    dsimp only
    rcases hfind : opponent.battlefield.find? (byId instanceId) with _ | card
    · dsimp only
      exact hnd
    dsimp only
    have hopIds : playerIds { opponent with battlefield := opponent.battlefield.eraseP (byId instanceId) } + {card.instanceId} =
        playerIds opponent := playerIds_erase_battlefield hfind
    have h1 := stateIds_setPlayer_some hopp
      { opponent with battlefield := opponent.battlefield.eraseP (byId instanceId) }
    have hsA : stateIds (setPlayer room.state (otherIndex pi)
        (some { opponent with battlefield := opponent.battlefield.eraseP (byId instanceId) })) + {card.instanceId} =
        stateIds room.state := by
      have h2 : (stateIds (setPlayer room.state (otherIndex pi)
          (some { opponent with battlefield := opponent.battlefield.eraseP (byId instanceId) })) + {card.instanceId}) +
          playerIds { opponent with battlefield := opponent.battlefield.eraseP (byId instanceId) } =
          stateIds room.state + playerIds { opponent with battlefield := opponent.battlefield.eraseP (byId instanceId) } :=
        calc (stateIds (setPlayer room.state (otherIndex pi)
              (some { opponent with battlefield := opponent.battlefield.eraseP (byId instanceId) })) + {card.instanceId}) +
              playerIds { opponent with battlefield := opponent.battlefield.eraseP (byId instanceId) }
            = stateIds (setPlayer room.state (otherIndex pi)
                (some { opponent with battlefield := opponent.battlefield.eraseP (byId instanceId) })) +
                (playerIds { opponent with battlefield := opponent.battlefield.eraseP (byId instanceId) } + {card.instanceId}) := by
              abel
          _ = stateIds (setPlayer room.state (otherIndex pi)
                (some { opponent with battlefield := opponent.battlefield.eraseP (byId instanceId) })) +
                playerIds opponent := by
              rw [hopIds]
          _ = stateIds room.state + playerIds { opponent with battlefield := opponent.battlefield.eraseP (byId instanceId) } := h1
      exact add_right_cancel h2
    have hpA : getPlayer (setPlayer room.state (otherIndex pi)
        (some { opponent with battlefield := opponent.battlefield.eraseP (byId instanceId) })) pi = some player := by
      rw [getPlayer_setPlayer_other _ (otherIndex_ne pi) _]
      exact hp
    have hset := stateIds_setPlayer_some hpA
      (addCardToPlayerZone player card toZone position env.jitter)
    have hle := mult_le_cancel hset
      (playerIds_addCardToPlayerZone_le player card toZone position env.jitter)
    rw [hsA] at hle
    exact Multiset.nodup_of_le hle hnd
  case SWAP_SIDEBOARD mainDeckIndex sideboardIndex =>
    simp only [applyGameAction, finishAction]
    by_cases hbound : 0 ≤ mainDeckIndex ∧
        mainDeckIndex <
          (((player.deck ++ player.hand ++ player.battlefield ++ player.graveyard).length :
            Int)) ∧
        0 ≤ sideboardIndex ∧ sideboardIndex < ((player.sideboard.length : Int))
    · rw [if_pos hbound]
      rcases hgm : (player.deck ++ player.hand ++ player.battlefield ++
          player.graveyard).get? mainDeckIndex.toNat with _ | mainCard
      · rcases hgs : player.sideboard.get? sideboardIndex.toNat with _ | sideCard
        · exact hnd
        · exact hnd
      rcases hgs : player.sideboard.get? sideboardIndex.toNat with _ | sideCard
      · exact hnd
      dsimp only
      have core : ∀ q : Player,
          playerIds q + {mainCard.instanceId} = playerIds player →
          q.sideboard = player.sideboard →
          (stateIds (setPlayer room.state pi (some { q with
            sideboard := q.sideboard.set sideboardIndex.toNat mainCard,
            deck := q.deck ++ [sideCard] }))).Nodup := by
        intro q hq hsb
        have hiX : sideboardIndex.toNat < q.sideboard.length := by
          rw [hsb]
          obtain ⟨hb1, hb2, hb3, hb4⟩ := hbound
          omega
        have hscX : q.sideboard[sideboardIndex.toNat] = sideCard := by
          obtain ⟨hlt, hget⟩ := List.get?_eq_some.mp hgs
          rw [List.get_eq_getElem] at hget
          simp only [hsb]
          exact hget
        exact nodup_setPlayer_of_le hp hnd (le_of_eq
          ((playerIds_swap_helper q sideboardIndex.toNat mainCard sideCard hiX hscX).trans hq))
      by_cases hd : player.deck.any (byId mainCard.instanceId) = true
      · rw [if_pos hd]
        simp only [reduceIte]
        have hany := hd
        rw [any_eq_find?_isSome] at hany
        rcases hfd : player.deck.find? (byId mainCard.instanceId) with _ | c0
        · rw [hfd] at hany
          exact absurd hany (by simp)
        have hc0 : c0.instanceId = mainCard.instanceId := by
          have hb := List.find?_some hfd
          simp only [byId] at hb
          exact beq_iff_eq.mp hb
        have herase := playerIds_erase_deck hfd
        rw [hc0] at herase
        exact core _ herase rfl
      · rw [if_neg hd]
        by_cases hh : player.hand.any (byId mainCard.instanceId) = true
        · rw [if_pos hh]
          simp only [reduceIte]
          have hany := hh
          rw [any_eq_find?_isSome] at hany
          rcases hfd : player.hand.find? (byId mainCard.instanceId) with _ | c0
          · rw [hfd] at hany
            exact absurd hany (by simp)
          have hc0 : c0.instanceId = mainCard.instanceId := by
            have hb := List.find?_some hfd
            simp only [byId] at hb
            exact beq_iff_eq.mp hb
          have herase := playerIds_erase_hand hfd
          rw [hc0] at herase
          exact core _ herase rfl
        · rw [if_neg hh]
          by_cases hbf : player.battlefield.any (byId mainCard.instanceId) = true
          · rw [if_pos hbf]
            simp only [reduceIte]
            have hany := hbf
            rw [any_eq_find?_isSome] at hany
            rcases hfd : player.battlefield.find? (byId mainCard.instanceId) with _ | c0
            · rw [hfd] at hany
              exact absurd hany (by simp)
            have hc0 : c0.instanceId = mainCard.instanceId := by
              have hb := List.find?_some hfd
              simp only [byId] at hb
              exact beq_iff_eq.mp hb
            have herase := playerIds_erase_battlefield hfd
            rw [hc0] at herase
            exact core _ herase rfl
          · rw [if_neg hbf]
            by_cases hgy : player.graveyard.any (byId mainCard.instanceId) = true
            · rw [if_pos hgy]
              simp only [reduceIte]
              have hany := hgy
              rw [any_eq_find?_isSome] at hany
              rcases hfd : player.graveyard.find? (byId mainCard.instanceId) with _ | c0
              · rw [hfd] at hany
                exact absurd hany (by simp)
              have hc0 : c0.instanceId = mainCard.instanceId := by
                have hb := List.find?_some hfd
                simp only [byId] at hb
                exact beq_iff_eq.mp hb
              have herase := playerIds_erase_graveyard hfd
              rw [hc0] at herase
              exact core _ herase rfl
            · rw [if_neg hgy]
              simp only [reduceIte]
              exact hnd
    · rw [if_neg hbound]
      exact hnd

theorem saveStateSnapshot_histInv (room : GameRoom) (now : Nat)
    (h : room.stateHistory.length ≤ MAX_HISTORY) :
    HistInv (saveStateSnapshot room now) := by
  simp only [saveStateSnapshot]
  by_cases h1 : room.historyIndex < (room.stateHistory.length : Int) - 1
  · rw [if_pos h1]
    have hT := List.length_take_le ((room.historyIndex + 1).toNat) room.stateHistory
    by_cases h2 : ((room.stateHistory.take (room.historyIndex + 1).toNat) ++
        [({ state := room.state, timestamp := now } : StateSnapshot)]).length > MAX_HISTORY
    · rw [if_pos h2]
      unfold HistInv
      dsimp only
      simp only [List.length_tail, List.length_append, List.length_cons, List.length_nil]
        at h2 ⊢
      unfold MAX_HISTORY at h h2 ⊢
      omega
    · rw [if_neg h2]
      unfold HistInv
      dsimp only
      simp only [List.length_append, List.length_cons, List.length_nil] at h2 ⊢
      unfold MAX_HISTORY at h h2 ⊢
      omega
  · rw [if_neg h1]
    by_cases h2 : (room.stateHistory ++
        [({ state := room.state, timestamp := now } : StateSnapshot)]).length > MAX_HISTORY
    · rw [if_pos h2]
      unfold HistInv
      dsimp only
      simp only [List.length_tail, List.length_append, List.length_cons, List.length_nil]
        at h2 ⊢
      unfold MAX_HISTORY at h h2 ⊢
      omega
    · rw [if_neg h2]
      unfold HistInv
      dsimp only
      simp only [List.length_append, List.length_cons, List.length_nil] at h2 ⊢
      unfold MAX_HISTORY at h h2 ⊢
      omega

theorem processAction_inv (room : GameRoom) (ws : Nat) (env : Env) (action : GameAction)
    (hinv : RoomInv room) (hh : HistInv room)
    (hfresh : ActionFresh room.state env action) :
    RoomInv (processAction room ws env action).1 ∧
    HistInv (processAction room ws env action).1 := by
  have key : ∀ (pid : String) (conn : ConnectedPlayer) (player : Player),
      getPlayer room.state conn.playerIndex = some player →
      ∀ a : GameAction, ActionFresh room.state env a →
      RoomInv (applyGameAction (saveStateSnapshot room env.now) pid conn.playerIndex
        player env a).1 ∧
      HistInv (applyGameAction (saveStateSnapshot room env.now) pid conn.playerIndex
        player env a).1 := by
    intro pid conn player hp a hfr
    constructor
    · constructor
      · have hp1 : getPlayer (saveStateSnapshot room env.now).state conn.playerIndex =
            some player := by
          rw [saveStateSnapshot_state]
          exact hp
        have hnd1 : (stateIds (saveStateSnapshot room env.now).state).Nodup := by
          rw [saveStateSnapshot_state]
          exact hinv.1
        have hfr1 : ActionFresh (saveStateSnapshot room env.now).state env a := by
          rw [saveStateSnapshot_state]
          exact hfr
        exact applyGameAction_nodup _ pid conn.playerIndex player env a hp1 hnd1 hfr1
      · intro snap hsnap
        rw [applyGameAction_stateHistory] at hsnap
        obtain ⟨pre, hsub, hsh⟩ := saveStateSnapshot_shape room env.now
        rw [hsh] at hsnap
        rcases List.mem_append.mp hsnap with hmem | hmem
        · exact hinv.2 snap (hsub.subset hmem)
        · rw [List.mem_singleton] at hmem
          subst hmem
          exact hinv.1
    · obtain ⟨a1, a2, a3⟩ := saveStateSnapshot_histInv room env.now hh.2.2
      refine ⟨?_, ?_, ?_⟩
      · rw [applyGameAction_historyIndex]
        exact a1
      · rw [applyGameAction_historyIndex, applyGameAction_stateHistory]
        exact a2
      · rw [applyGameAction_stateHistory]
        exact a3
  unfold processAction
  rcases hconn : getPlayerBySocket room ws with _ | pc
  · exact ⟨hinv, hh⟩
  obtain ⟨pid, conn⟩ := pc
  dsimp only
  rcases hp : getPlayer room.state conn.playerIndex with _ | player
  · exact ⟨hinv, hh⟩
  dsimp only
  cases action
  case UNDO => exact undoAction_inv room hinv hh
  case REDO => exact redoAction_inv room hinv hh
  case SAVE_GAME => exact ⟨hinv, hh⟩
  case LOAD_GAME decoded =>
    rcases decoded with _ | sd
    · exact ⟨hinv, hh⟩
    · have hfr : (saveIds sd).Nodup := hfresh
      simp only [loadSaveCode]
      rcases hps : sd.players with _ | ps
      · dsimp only
        exact ⟨hinv, hh⟩
      rcases hph : sd.phase with _ | ph
      · dsimp only
        exact ⟨hinv, hh⟩
      dsimp only
      refine ⟨⟨?_, ?_⟩, ?_, ?_, ?_⟩
      · show (stateIds { room.state with
          players := ps,
          stack := sd.stack.getD [],
          phase := ph,
          currentGame :=
            match sd.currentGame with
            | some n => if n = 0 then 1 else n
            | none => 1,
          gameResults := sd.gameResults.getD [],
          turn := sd.turn.getD { number := 1, activePlayer := 0, phase := "Main" },
          lastAction := env.now }).Nodup
        have hsv : saveIds sd = optPlayerIds ps.1 + optPlayerIds ps.2 +
            zoneIds (sd.stack.getD []) := by
          simp only [saveIds, hps]
        rw [hsv] at hfr
        exact hfr
      · intro snap hsnap
        exact absurd hsnap (List.not_mem_nil snap)
      · show (-1 : Int) ≤ -1
        exact le_refl _
      · show (-1 : Int) < ((([] : List StateSnapshot).length : Nat) : Int)
        decide
      · show ([] : List StateSnapshot).length ≤ MAX_HISTORY
        exact Nat.zero_le _
  all_goals exact key pid conn player hp _ hfresh

theorem reachable_inv : ∀ room : GameRoom, Reachable room → RoomInv room ∧ HistInv room := by
  intro room h
  induction h with
  | create hash ws playerName password gameId playerId now =>
    exact createRoom_inv hash ws playerName password gameId playerId now
  | join room hash ws playerName password playerId now hr ih =>
    exact joinRoom_inv room hash ws playerName password playerId now ih.1 ih.2
  | deck room ws mainDeck sideboard idsMain idsSide hr hnd hfr ih =>
    exact submitDeck_inv room ws mainDeck sideboard idsMain idsSide ih.1 ih.2 hnd hfr
  | start room ws env hr ih =>
    exact startGame_inv room ws env ih.1 ih.2
  | act room ws env action hr hfr ih =>
    exact processAction_inv room ws env action ih.1 ih.2 hfr

/-- C1: in every reachable room — created by `createGame`, then mutated
only by `joinGame`, `submitDeck`, `startGame` and `processAction` with
fresh instance ids for deck submission, token creation, and load payloads —
the multiset of card instance ids across both players' seven zones plus the
shared stack is duplicate-free, i.e. every card instance sits in at most
one zone.  Per-action conservation lemmas (`playerIds_moveCard`,
`removeCardFromPlayerZone_some`, `playerIds_addCardToPlayerZone_le`, …)
show each zone move removes the card from its source before inserting it at
the destination, never copying. -/
theorem c1_zone_exclusivity (room : GameRoom) (h : Reachable room) :
    (stateIds room.state).Nodup :=
  (reachable_inv room h).1.1

/-- Witness for C1: a freshly created room on which a fresh-uuid token
creation is processed; the resulting state's ids are duplicate-free. -/
theorem c1_witness :
    (stateIds (processAction (createRoom (fun s => s) 1 "Alice" "pw" "GAME" "pa" 0) 1
        { newId := "tok-1", logId := "l", rand0 := [], rand1 := [],
          jitter := { x := 40, y := 40 }, now := 5 }
        (.CREATE_TOKEN (some
          { instanceId := "x", scryfallId := "s", name := "Token", imageUri := "",
            isTapped := false, isFaceDown := false, isTransformed := false,
            counters := [], isToken := true }))).1.state).Nodup := by
  apply c1_zone_exclusivity
  apply Reachable.act
  · exact Reachable.create (fun s => s) 1 "Alice" "pw" "GAME" "pa" 0
  · show "tok-1" ∉ stateIds (createRoom (fun s => s) 1 "Alice" "pw" "GAME" "pa" 0).state
    decide

/-- C6: in every reachable room the history cursor satisfies
`-1 ≤ historyIndex < stateHistory.length` and the depth never exceeds
`MAX_HISTORY = 50`; redo succeeds only while the cursor is strictly below
the top (`historyIndex < length - 1`); when a save would exceed depth 50
the oldest snapshot is evicted (the new history is the old one's tail plus
the new snapshot, still of length 50) and the cursor lands one below where
an unevicted push would put it; and undo at `historyIndex ≤ 0` / redo at
`historyIndex ≥ length - 1` report failure and return the room unchanged. -/
theorem c6_history_bounds :
    (∀ room : GameRoom, Reachable room → HistInv room)
    ∧ (∀ room : GameRoom, (redoAction room).1 = true →
        room.historyIndex < (room.stateHistory.length : Int) - 1)
    ∧ (∀ (room : GameRoom) (now : Nat),
        room.stateHistory.length = MAX_HISTORY →
        room.historyIndex = (MAX_HISTORY : Int) - 1 →
        (saveStateSnapshot room now).stateHistory =
          room.stateHistory.tail ++ [{ state := room.state, timestamp := now }] ∧
        (saveStateSnapshot room now).stateHistory.length = MAX_HISTORY ∧
        (saveStateSnapshot room now).historyIndex = (MAX_HISTORY : Int) - 1)
    ∧ (∀ room : GameRoom, room.historyIndex ≤ 0 → undoAction room = (false, room))
    ∧ (∀ room : GameRoom, room.historyIndex ≥ (room.stateHistory.length : Int) - 1 →
        redoAction room = (false, room)) := by
  refine ⟨?_, ?_, ?_, ?_, ?_⟩
  · intro room h
    exact (reachable_inv room h).2
  · intro room h
    by_cases hc : room.historyIndex ≥ (room.stateHistory.length : Int) - 1
    · unfold redoAction at h
      rw [if_pos hc] at h
      simp at h
    · omega
  · intro room now hlen hidx
    simp only [saveStateSnapshot]
    have hc1 : ¬(room.historyIndex < (room.stateHistory.length : Int) - 1) := by
      rw [hlen, hidx]
      omega
    rw [if_neg hc1]
    have hne : room.stateHistory ≠ [] := by
      intro hnil
      rw [hnil] at hlen
      unfold MAX_HISTORY at hlen
      simp at hlen
    have hc2 : (room.stateHistory ++
        [({ state := room.state, timestamp := now } : StateSnapshot)]).length >
        MAX_HISTORY := by
      simp only [List.length_append, List.length_cons, List.length_nil, hlen]
      unfold MAX_HISTORY
      omega
    rw [if_pos hc2]
    refine ⟨?_, ?_, ?_⟩
    · show (room.stateHistory ++
          [({ state := room.state, timestamp := now } : StateSnapshot)]).tail =
        room.stateHistory.tail ++ [{ state := room.state, timestamp := now }]
      exact tail_append_singleton hne
    · show (room.stateHistory ++
          [({ state := room.state, timestamp := now } : StateSnapshot)]).tail.length =
        MAX_HISTORY
      simp only [List.length_tail, List.length_append, List.length_cons, List.length_nil,
        hlen]
      omega
    · show (((room.stateHistory ++
          [({ state := room.state, timestamp := now } : StateSnapshot)]).length : Int) - 1) -
          1 = (MAX_HISTORY : Int) - 1
      simp only [List.length_append, List.length_cons, List.length_nil, hlen]
      push_cast
      omega
  · intro room h
    unfold undoAction
    rw [if_pos h]
  · intro room h
    unfold redoAction
    rw [if_pos h]

/-- Witness for C6: a freshly created room (reachable by construction)
satisfies the cursor invariant, and both undo and redo at its boundary
cursor (`-1`) fail without changing the room. -/
theorem c6_witness :
    (let room0 := createRoom (fun s => s) 1 "Alice" "pw" "GAME" "pa" 0
     HistInv room0 ∧ undoAction room0 = (false, room0) ∧
       redoAction room0 = (false, room0)) := by
  intro room0
  refine ⟨c6_history_bounds.1 room0
    (Reachable.create (fun s => s) 1 "Alice" "pw" "GAME" "pa" 0), ?_, ?_⟩
  · exact c6_history_bounds.2.2.2.1 room0 (by decide)
  · exact c6_history_bounds.2.2.2.2 room0 (by decide)

end PaperMagic
